import Mathlib

/-!
Verification development for the srilang AST framework and its
constant-folding engine (`srilang/ast/nodes.py`, `srilang/ast/folding.py`).

The development has three layers:

* value-level models of the per-operator `_op` methods of the arithmetic
  node classes (`Mult._op`, `Div._op`, `Mod._op`, `Pow._op`, ...), with
  Python `int` modelled as `Int` and `decimal.Decimal` modelled as `Rat`
  (exact rational arithmetic; the `quantize(Decimal("1.0000000000"),
  ROUND_DOWN)` calls are modelled as truncation toward zero at ten
  fractional digits);
* a pure tree model `VNode` of the srilang AST node classes together with
  the per-variant `evaluate` methods and the folding passes of
  `folding.py` (the passes visit candidate nodes in reverse-descendant
  order, i.e. children strictly before their ancestors, and splice each
  successful evaluation result in place; the model realises this as a
  children-first structural recursion);
* a heap model of node objects (references, parent back-pointers, child
  sets, depths) for `Module.replace_in_tree`, which mutates the parent
  object in place and can raise `CompilerPanic` part-way through.
-/

namespace SriLang

/-- Exception kinds raised by the modelled code.  `unfoldable` models the
internal `UnfoldableNode` control signal, `zeroDivision` the user-facing
`ZeroDivisionException`, `typeMismatch` the user-facing `TypeMismatch`,
and `compilerPanic` the internal `CompilerPanic`. -/
inductive SriErr where
  | unfoldable (msg : String)
  | zeroDivision (msg : String)
  | typeMismatch (msg : String)
  | compilerPanic (msg : String)
deriving Repr, DecidableEq

/-- Truncation of a rational toward zero to an integer, the direction used
by Python `int()` and by `decimal.ROUND_DOWN`. -/
def ratTrunc (q : ℚ) : Int := Int.tdiv q.num q.den

/-- Model of `value.quantize(decimal.Decimal("1.0000000000"),
decimal.ROUND_DOWN)`: round to ten fractional digits, toward zero. -/
def quantize10 (q : ℚ) : ℚ := (ratTrunc (q * 10 ^ 10) : ℚ) / 10 ^ 10

/-- Model of `Mult._op` on two `int` values: exact product. -/
def Mult_op_int (left right : Int) : Int := left * right

/-- Model of `Mult._op` on two `decimal.Decimal` values: the product is
quantized to ten fractional digits with `ROUND_DOWN`. -/
def Mult_op_dec (left right : ℚ) : ℚ := quantize10 (left * right)

/-- Model of `Div._op` on two `int` values: `left // right` (floor
division), recomputed as `-(-left // right)` when the floor quotient is
negative; division by zero raises `ZeroDivisionException`. -/
def Div_op_int (left right : Int) : Except SriErr Int :=
  if right = 0 then .error (.zeroDivision "Division by zero")
  else
    let value := Int.fdiv left right
    if value < 0 then .ok (-(Int.fdiv (-left) right)) else .ok value

/-- Model of `Div._op` on two `decimal.Decimal` values: exact quotient,
renegotiated through `-(-left / right)` when negative (a no-op for exact
rationals), then quantized to ten fractional digits with `ROUND_DOWN`. -/
def Div_op_dec (left right : ℚ) : Except SriErr ℚ :=
  if right = 0 then .error (.zeroDivision "Division by zero")
  else
    let value := left / right
    let value := if value < 0 then -((-left) / right) else value
    .ok (quantize10 value)

/-- Model of `Mod._op` on two `int` values: `abs(left) % abs(right)`,
negated when the dividend is negative; zero modulus raises
`ZeroDivisionException`. -/
def Mod_op_int (left right : Int) : Except SriErr Int :=
  if right = 0 then .error (.zeroDivision "Modulo by zero")
  else
    let value : Int := ((left.natAbs % right.natAbs : Nat) : Int)
    .ok (if left < 0 then -value else value)

/-- Model of `Mod._op` on two `decimal.Decimal` values: remainder of the
truncating division of the absolute values, negated when the dividend is
negative. -/
def Mod_op_dec (left right : ℚ) : Except SriErr ℚ :=
  if right = 0 then .error (.zeroDivision "Modulo by zero")
  else
    let value : ℚ := |left| - |right| * ((ratTrunc (|left| / |right|) : ℚ))
    .ok (if left < 0 then -value else value)

/-- Model of `Pow._op` on two `int` values, `int(left ** right)`: exact
power for a nonnegative exponent; for a negative exponent Python computes
a float power and `int` truncates it toward zero (and `0 ** negative`
raises), modelled here as exact rational power truncated toward zero. -/
def Pow_op_int (left right : Int) : Except SriErr Int :=
  if 0 ≤ right then .ok (left ^ right.toNat)
  else if left = 0 then .error (.zeroDivision "0.0 cannot be raised to a negative power")
  else .ok (ratTrunc ((left : ℚ) ^ right))

/-! ### Arithmetic bridge lemmas -/

theorem neg_tmod (a b : Int) : (-a).tmod b = -(a.tmod b) := by
  simp only [Int.tmod_def, Int.neg_tdiv]
  ring

/-- The floor-division dance of `Div._op` computes truncation toward
zero. -/
theorem Div_op_int_eq_tdiv (a b : Int) (hb : b ≠ 0) :
    Div_op_int a b = .ok (Int.tdiv a b) := by
  unfold Div_op_int
  rw [if_neg hb]
  cases a with
  | ofNat m =>
    cases b with
    | ofNat n =>
      have h0 : ¬ Int.fdiv (Int.ofNat m) (Int.ofNat n) < 0 := by
        have := Int.fdiv_nonneg (a := Int.ofNat m) (b := Int.ofNat n)
          (by exact Int.ofNat_nonneg m) (by exact Int.ofNat_nonneg n)
        omega
      simp only [h0, if_false]
      have : Int.fdiv (Int.ofNat m) (Int.ofNat n) = Int.tdiv (Int.ofNat m) (Int.ofNat n) :=
        Int.fdiv_eq_tdiv (Int.ofNat_nonneg m) (Int.ofNat_nonneg n)
      rw [this]
    | negSucc n =>
      cases m with
      | zero =>
        show (if Int.fdiv 0 (Int.negSucc n) < 0 then _ else _) = _
        rw [Int.zero_fdiv]
        norm_num [Int.tdiv]
      | succ k =>
        have hlt : Int.fdiv (Int.ofNat (k + 1)) (Int.negSucc n) < 0 := by
          show Int.negSucc (k / (n + 1)) < 0
          exact Int.negSucc_lt_zero _
        rw [if_pos hlt]
        rfl
  | negSucc m =>
    cases b with
    | ofNat n =>
      cases n with
      | zero => exact absurd rfl hb
      | succ j =>
        have hlt : Int.fdiv (Int.negSucc m) (Int.ofNat (j + 1)) < 0 := by
          show Int.negSucc (m / (j + 1)) < 0
          exact Int.negSucc_lt_zero _
        rw [if_pos hlt]
        rfl
    | negSucc n =>
      have h0 : ¬ Int.fdiv (Int.negSucc m) (Int.negSucc n) < 0 := by
        show ¬ Int.ofNat ((m + 1) / (n + 1)) < 0
        exact Int.not_lt.mpr (Int.ofNat_nonneg _)
      rw [if_neg h0]
      rfl

/-- The absolute-value dance of `Mod._op` computes the remainder whose
sign follows the dividend, i.e. `Int.tmod`. -/
theorem Mod_op_int_eq_tmod (a b : Int) (hb : b ≠ 0) :
    Mod_op_int a b = .ok (Int.tmod a b) := by
  unfold Mod_op_int
  rw [if_neg hb]
  have habs : ((a.natAbs % b.natAbs : Nat) : Int) = (|a|).tmod b := by
    rw [Int.ofNat_tmod]
    rw [← Int.abs_eq_natAbs, ← Int.abs_eq_natAbs]
    rcases abs_choice b with h | h
    · rw [h]
    · rw [h, Int.tmod_neg]
  show Except.ok (if a < 0 then -(((a.natAbs % b.natAbs : Nat) : Int))
      else ((a.natAbs % b.natAbs : Nat) : Int)) = Except.ok (a.tmod b)
  rw [habs]
  rcases le_or_lt 0 a with ha | ha
  · rw [abs_of_nonneg ha, if_neg (by omega)]
  · rw [abs_of_neg ha, if_pos ha, neg_tmod, neg_neg]

theorem ratTrunc_eq_floor {q : ℚ} (h : 0 ≤ q) : ratTrunc q = ⌊q⌋ := by
  unfold ratTrunc
  rw [Rat.floor_def]
  exact Int.tdiv_eq_ediv (Rat.num_nonneg.mpr h) (Int.ofNat_nonneg _)

theorem ratTrunc_neg (q : ℚ) : ratTrunc (-q) = -(ratTrunc q) := by
  unfold ratTrunc
  rw [Rat.neg_num, Int.neg_tdiv]
  rfl

theorem ratTrunc_eq_ceil {q : ℚ} (h : q ≤ 0) : ratTrunc q = ⌈q⌉ := by
  have h2 : ratTrunc q = -(ratTrunc (-q)) := by rw [ratTrunc_neg, neg_neg]
  rw [h2, ratTrunc_eq_floor (by linarith), ← Int.ceil_neg, neg_neg]

/-- `quantize10` has at most ten fractional digits: scaled by `10 ^ 10`
the result is an integer. -/
theorem quantize10_den (q : ℚ) : (quantize10 q * 10 ^ 10).den = 1 := by
  unfold quantize10
  have : (ratTrunc (q * 10 ^ 10) : ℚ) / 10 ^ 10 * 10 ^ 10 = (ratTrunc (q * 10 ^ 10) : ℚ) := by
    field_simp
  rw [this, Rat.den_intCast]

theorem quantize10_of_nonneg {q : ℚ} (h : 0 ≤ q) :
    quantize10 q = (⌊q * 10 ^ 10⌋ : ℚ) / 10 ^ 10 := by
  unfold quantize10
  rw [ratTrunc_eq_floor (by positivity)]

theorem quantize10_of_nonpos {q : ℚ} (h : q ≤ 0) :
    quantize10 q = (⌈q * 10 ^ 10⌉ : ℚ) / 10 ^ 10 := by
  unfold quantize10
  rw [ratTrunc_eq_ceil (by nlinarith)]

/-! ### Pure tree model of the AST node classes

Each constructor mirrors one concrete node class of `nodes.py` with its
declared fields.  Every node carries its `node_id` (source: assigned by the
annotation step at parse time and copied by `srilangNode.from_node`); the
source-span slots are not needed by any modelled observation and are
omitted.  Statement variants that play no role in folding are out of
scope of the model. -/

inductive UnaryOperator where
  | USub | Not
deriving Repr, DecidableEq

inductive Operator where
  | Add | Sub | Mult | Div | Mod | Pow
deriving Repr, DecidableEq

inductive BoolOperator where
  | And | Or
deriving Repr, DecidableEq

inductive CmpOperator where
  | Eq | NotEq | Lt | LtE | Gt | GtE | In
deriving Repr, DecidableEq

inductive VNode where
  | Int (nodeId : Nat) (value : Int)
  | Decimal (nodeId : Nat) (value : ℚ)
  | Hex (nodeId : Nat) (value : String)
  | Str (nodeId : Nat) (value : String)
  | Bytes (nodeId : Nat) (value : List Nat)
  | NameConstant (nodeId : Nat) (value : Option Bool)
  | Name (nodeId : Nat) (id : String)
  | List (nodeId : Nat) (elts : List VNode)
  | Dict (nodeId : Nat) (keys : List VNode) (values : List VNode)
  | UnaryOp (nodeId : Nat) (op : UnaryOperator) (operand : VNode)
  | BinOp (nodeId : Nat) (left : VNode) (op : Operator) (right : VNode)
  | BoolOp (nodeId : Nat) (op : BoolOperator) (values : List VNode)
  | Compare (nodeId : Nat) (left : VNode) (op : CmpOperator) (right : VNode)
  | Call (nodeId : Nat) (func : VNode) (args : List VNode)
  | Attribute (nodeId : Nat) (value : VNode) (attr : String)
  | Subscript (nodeId : Nat) (value : VNode) (slice : VNode)
  | Index (nodeId : Nat) (value : VNode)
  | Assign (nodeId : Nat) (target : VNode) (value : VNode)
  | AugAssign (nodeId : Nat) (op : Operator) (target : VNode) (value : VNode)
  | AnnAssign (nodeId : Nat) (target : VNode) ( annotation : VNode) (value : Option VNode)
  | Expr (nodeId : Nat) (value : VNode)
  | Module (nodeId : Nat) (body : List VNode)
deriving Repr

/-- Distinguishing tag of a node's concrete class, modelling
`type(node)` comparisons between nodes. -/
def tagOf : VNode → Nat
  | .Int _ _ => 0
  | .Decimal _ _ => 1
  | .Hex _ _ => 2
  | .Str _ _ => 3
  | .Bytes _ _ => 4
  | .NameConstant _ _ => 5
  | .Name _ _ => 6
  | .List _ _ => 7
  | .Dict _ _ _ => 8
  | .UnaryOp _ _ _ => 9
  | .BinOp _ _ _ _ => 10
  | .BoolOp _ _ _ => 11
  | .Compare _ _ _ _ => 12
  | .Call _ _ _ => 13
  | .Attribute _ _ _ => 14
  | .Subscript _ _ _ => 15
  | .Index _ _ => 16
  | .Assign _ _ _ => 17
  | .AugAssign _ _ _ _ => 18
  | .AnnAssign _ _ _ _ => 19
  | .Expr _ _ => 20
  | .Module _ _ => 21

/-- Python-level values held by the `Constant` subclasses (`Hex.value` is
a string in the source). -/
inductive LitVal where
  | int (z : Int)
  | rat (q : ℚ)
  | str (s : String)
  | bytes (bs : List Nat)
  | nc (b : Option Bool)
deriving Repr, DecidableEq

/-- Membership in the `Constant` branch of the class hierarchy
(`Int`, `Decimal`, `Hex` via `Num`; `Str`, `Bytes`, `NameConstant`). -/
def isConstantNode : VNode → Bool
  | .Int _ _ | .Decimal _ _ | .Hex _ _ | .Str _ _ | .Bytes _ _ | .NameConstant _ _ => true
  | _ => false

def litValOf : VNode → Option LitVal
  | .Int _ v => some (.int v)
  | .Decimal _ v => some (.rat v)
  | .Hex _ v => some (.str v)
  | .Str _ v => some (.str v)
  | .Bytes _ v => some (.bytes v)
  | .NameConstant _ v => some (.nc v)
  | _ => none

def boolToInt (b : Bool) : Int := if b then 1 else 0

/-- Python `==` on literal values: numeric kinds (`int`, `Decimal`,
`bool`) compare numerically across kinds, `None` equals only `None`, and
all other cross-kind comparisons are `False`. -/
def pyEqVal : LitVal → LitVal → Bool
  | .int a, .int b => a == b
  | .int a, .rat q => ((a : ℚ) == q)
  | .int a, .nc (some b) => a == boolToInt b
  | .rat q, .int a => (q == (a : ℚ))
  | .rat a, .rat b => a == b
  | .rat q, .nc (some b) => q == ((boolToInt b : Int) : ℚ)
  | .nc (some b), .int a => boolToInt b == a
  | .nc (some b), .rat q => ((boolToInt b : Int) : ℚ) == q
  | .nc (some a), .nc (some b) => a == b
  | .nc none, .nc none => true
  | .str a, .str b => a == b
  | .bytes a, .bytes b => a == b
  | _, _ => false

/-- Python `not` applied to a `NameConstant` value (`not None` is
`True`). -/
def pyNot : Option Bool → Bool
  | some b => !b
  | none => true

/-- Dispatch of `BinOp.evaluate`'s `self.op._op(left.value, right.value)`
for two `int` operands. -/
def intArith : Operator → Int → Int → Except SriErr Int
  | .Add, a, b => .ok (a + b)
  | .Sub, a, b => .ok (a - b)
  | .Mult, a, b => .ok (Mult_op_int a b)
  | .Div, a, b => Div_op_int a b
  | .Mod, a, b => Mod_op_int a b
  | .Pow, a, b => Pow_op_int a b

/-- Dispatch of `BinOp.evaluate`'s `self.op._op(left.value, right.value)`
for two `Decimal` operands; `Pow._op` rejects decimals. -/
def decArith : Operator → ℚ → ℚ → Except SriErr ℚ
  | .Add, a, b => .ok (a + b)
  | .Sub, a, b => .ok (a - b)
  | .Mult, a, b => .ok (Mult_op_dec a b)
  | .Div, a, b => Div_op_dec a b
  | .Mod, a, b => Mod_op_dec a b
  | .Pow, _, _ => .error (.typeMismatch "Cannot perform exponentiation on decimal values.")

/-- Model of `UnaryOp.evaluate`: `Not` requires a `NameConstant` operand,
`USub` an `Int` or `Decimal` operand; the result is built by `from_node`
and therefore keeps the `UnaryOp` node's own id. -/
def UnaryOp_evaluate (nodeId : Nat) (op : UnaryOperator) (operand : VNode) :
    Except SriErr VNode :=
  match op, operand with
  | .Not, .NameConstant _ v => .ok (.NameConstant nodeId (some (pyNot v)))
  | .USub, .Int _ v => .ok (.Int nodeId (-v))
  | .USub, .Decimal _ v => .ok (.Decimal nodeId (-v))
  | _, _ => .error (.unfoldable "Node contains invalid field(s) for evaluation")

/-- Model of `BinOp.evaluate`: both operands must have the identical
class and that class must be `Int` or `Decimal`; the result keeps the
`BinOp` node's own id. -/
def BinOp_evaluate (nodeId : Nat) (left : VNode) (op : Operator) (right : VNode) :
    Except SriErr VNode :=
  match left, right with
  | .Int _ a, .Int _ b =>
    match intArith op a b with
    | .ok v => .ok (.Int nodeId v)
    | .error e => .error e
  | .Decimal _ a, .Decimal _ b =>
    match decArith op a b with
    | .ok v => .ok (.Decimal nodeId v)
    | .error e => .error e
  | _, _ => .error (.unfoldable "Node contains invalid field(s) for evaluation")

/-- Collect the values of a list of operands when every operand is a
`NameConstant`. -/
def ncValues : List VNode → Option (List (Option Bool))
  | [] => some []
  | .NameConstant _ v :: rest => (ncValues rest).map (v :: ·)
  | _ :: _ => none

/-- Model of `BoolOp.evaluate`: every operand must be a `NameConstant`
and no operand value may be `None`; `And._op` is `all`, `Or._op` is
`any`. -/
def BoolOp_evaluate (nodeId : Nat) (op : BoolOperator) (values : List VNode) :
    Except SriErr VNode :=
  match ncValues values with
  | none => .error (.unfoldable "Node contains invalid field(s) for evaluation")
  | some vs =>
    if vs.contains none then .error (.unfoldable "Node contains invalid field(s) for evaluation")
    else
      let bs := vs.map (fun v => v.getD false)
      let value := match op with
        | .And => bs.all id
        | .Or => bs.any id
      .ok (.NameConstant nodeId (some value))

/-- Whether `set(type(i) for i in elts)` has at most one element. -/
def allSameTag : List VNode → Bool
  | [] => true
  | x :: xs => xs.all (fun y => tagOf y == tagOf x)

def cmpInt : CmpOperator → Int → Int → Bool
  | .Lt, a, b => decide (a < b)
  | .LtE, a, b => decide (a ≤ b)
  | .Gt, a, b => decide (a > b)
  | .GtE, a, b => decide (a ≥ b)
  | _, _, _ => false

def cmpRat : CmpOperator → ℚ → ℚ → Bool
  | .Lt, a, b => decide (a < b)
  | .LtE, a, b => decide (a ≤ b)
  | .Gt, a, b => decide (a > b)
  | .GtE, a, b => decide (a ≥ b)
  | _, _, _ => false

/-- Model of `Compare.evaluate`: the left side must be a `Constant`.
`In` requires a literal `List` of `Constant` elements of one identical
class and evaluates membership with Python `==`; otherwise both sides
must have the identical class, `Eq`/`NotEq` work on any constant kind,
and ordering comparisons require `Int` or `Decimal` operands (raising
`TypeMismatch`, not an unfoldable signal, on other kinds). -/
def Compare_evaluate (nodeId : Nat) (left : VNode) (op : CmpOperator) (right : VNode) :
    Except SriErr VNode :=
  if ¬ isConstantNode left then
    .error (.unfoldable "Node contains invalid field(s) for evaluation")
  else
    match op with
    | .In =>
      match right with
      | .List _ elts =>
        if elts.any (fun e => ¬ isConstantNode e) then
          .error (.unfoldable "Node contains invalid field(s) for evaluation")
        else if ¬ allSameTag elts then
          .error (.unfoldable "List contains multiple literal types")
        else
          match litValOf left with
          | some lv =>
            .ok (.NameConstant nodeId (some (elts.any (fun e =>
              match litValOf e with
              | some ev => pyEqVal lv ev
              | none => false))))
          | none => .error (.unfoldable "Node contains invalid field(s) for evaluation")
      | _ => .error (.unfoldable "Node contains invalid field(s) for evaluation")
    | _ =>
      if tagOf left != tagOf right then
        .error (.unfoldable "Cannot compare different literal types")
      else
        match litValOf left, litValOf right with
        | some lv, some rv =>
          match op with
          | .Eq => .ok (.NameConstant nodeId (some (pyEqVal lv rv)))
          | .NotEq => .ok (.NameConstant nodeId (some (!pyEqVal lv rv)))
          | _ =>
            match left, right with
            | .Int _ a, .Int _ b => .ok (.NameConstant nodeId (some (cmpInt op a b)))
            | .Decimal _ a, .Decimal _ b => .ok (.NameConstant nodeId (some (cmpRat op a b)))
            | _, _ => .error (.typeMismatch "Invalid literal types for comparison")
        | _, _ => .error (.unfoldable "Node contains invalid field(s) for evaluation")

/-- Extraction of `self.slice.get("value.value")` restricted to values
that pass Python's `isinstance(idx, int)` (which accepts `bool`). -/
def sliceIndexValue : VNode → Option Int
  | .Index _ (.Int _ v) => some v
  | .Index _ (.NameConstant _ (some b)) => some (boolToInt b)
  | _ => none

/-- Model of `Subscript.evaluate`: the indexed value must be a literal
`List` whose elements all have one identical class, the index must be a
plain in-bounds integer, and the result is the selected element node
itself (not a copy). -/
def Subscript_evaluate (value slice : VNode) : Except SriErr VNode :=
  match value with
  | .List _ elts =>
    if ¬ allSameTag elts then .error (.unfoldable "List contains multiple node types")
    else
      match sliceIndexValue slice with
      | some idx =>
        if h : 0 ≤ idx ∧ idx.toNat < elts.length then
          .ok (elts.get (Fin.mk idx.toNat h.2))
        else .error (.unfoldable "Invalid index value")
      | none => .error (.unfoldable "Invalid index value")
  | _ => .error (.unfoldable "Subscript object is not a literal list")

/-- Per-variant `evaluate` dispatch; every variant without its own
`evaluate` method falls back to the base method, which raises
`UnfoldableNode`. -/
def evaluate : VNode → Except SriErr VNode
  | .UnaryOp nodeId op operand => UnaryOp_evaluate nodeId op operand
  | .BinOp nodeId left op right => BinOp_evaluate nodeId left op right
  | .BoolOp nodeId op values => BoolOp_evaluate nodeId op values
  | .Compare nodeId left op right => Compare_evaluate nodeId left op right
  | .Subscript _ value slice => Subscript_evaluate value slice
  | _ => .error (.unfoldable "node cannot be evaluated")

/-! ### The folding passes of `folding.py`

Each pass of the source takes a snapshot of the tree in reverse-descendant
order (every node strictly after all of its descendants), calls the
candidate action on each snapshot node and, on success, splices the
result in place with `replace_in_tree`.  Because children are therefore
always processed before their (updated) ancestors, and replacement
results are never revisited within the same pass, the model realises one
pass as a children-first structural recursion. -/

/-- Candidate node kinds of `replace_literal_ops`. -/
def isOpTarget : VNode → Bool
  | .BoolOp _ _ _ | .BinOp _ _ _ _ | .UnaryOp _ _ _ | .Compare _ _ _ _ => true
  | _ => false

/-- Absorb the `UnfoldableNode` signal at the per-node call site (the
`except UnfoldableNode: continue` of each pass); other errors
propagate. -/
def tryCatchUnfoldable (r : Except SriErr VNode) : Except SriErr (Option VNode) :=
  match r with
  | .ok v => .ok (some v)
  | .error (.unfoldable _) => .ok none
  | .error e => .error e

/-- Per-node action of `replace_literal_ops`. -/
def actLiteralOps (n : VNode) : Except SriErr (Option VNode) :=
  if isOpTarget n then tryCatchUnfoldable (evaluate n) else .ok none

/-- Per-node action of `replace_subscripts`. -/
def actSubscripts (n : VNode) : Except SriErr (Option VNode) :=
  match n with
  | .Subscript _ _ _ => tryCatchUnfoldable (evaluate n)
  | _ => .ok none

/-- The builtin-function registry (`DISPATCH_TABLE`): a lookup-by-name
capability returning, for some builtins, a fold-this-call function.  The
registry itself lives outside the modelled core, so, following the
design note of the specification, it is passed in as an explicit
configuration value. -/
def Dispatch : Type := String → Option (VNode → Except SriErr VNode)

/-- Per-node action of `replace_builtin_functions`: only calls whose
callee is a plain name that resolves in the registry are attempted. -/
def actBuiltinFunctions (dispatch : Dispatch) (n : VNode) : Except SriErr (Option VNode) :=
  match n with
  | .Call _ (.Name _ fname) _ =>
    match dispatch fname with
    | some f => tryCatchUnfoldable (f n)
    | none => .ok none
  | _ => .ok none

def applyAct (act : VNode → Except SriErr (Option VNode)) (n : VNode) (c : Nat) :
    Except SriErr (VNode × Nat) :=
  match act n with
  | .ok (some r) => .ok (r, c + 1)
  | .ok none => .ok (n, c)
  | .error e => .error e

mutual

/-- One pass over the tree: children first, then the per-node action on
the updated node.  Returns the new tree and the number of substitutions
(`changed_nodes`). -/
def bottomUp (act : VNode → Except SriErr (Option VNode)) : VNode → Except SriErr (VNode × Nat)
  | .Int nodeId v => applyAct act (.Int nodeId v) 0
  | .Decimal nodeId v => applyAct act (.Decimal nodeId v) 0
  | .Hex nodeId v => applyAct act (.Hex nodeId v) 0
  | .Str nodeId v => applyAct act (.Str nodeId v) 0
  | .Bytes nodeId v => applyAct act (.Bytes nodeId v) 0
  | .NameConstant nodeId v => applyAct act (.NameConstant nodeId v) 0
  | .Name nodeId s => applyAct act (.Name nodeId s) 0
  | .List nodeId elts =>
    Except.bind (bottomUpList act elts) (fun p =>
      applyAct act (.List nodeId p.1) p.2)
  | .Dict nodeId keys values =>
    Except.bind (bottomUpList act keys) (fun p1 =>
      Except.bind (bottomUpList act values) (fun p2 =>
        applyAct act (.Dict nodeId p1.1 p2.1) (p1.2 + p2.2)))
  | .UnaryOp nodeId op operand =>
    Except.bind (bottomUp act operand) (fun p =>
      applyAct act (.UnaryOp nodeId op p.1) p.2)
  | .BinOp nodeId left op right =>
    Except.bind (bottomUp act left) (fun p1 =>
      Except.bind (bottomUp act right) (fun p2 =>
        applyAct act (.BinOp nodeId p1.1 op p2.1) (p1.2 + p2.2)))
  | .BoolOp nodeId op values =>
    Except.bind (bottomUpList act values) (fun p =>
      applyAct act (.BoolOp nodeId op p.1) p.2)
  | .Compare nodeId left op right =>
    Except.bind (bottomUp act left) (fun p1 =>
      Except.bind (bottomUp act right) (fun p2 =>
        applyAct act (.Compare nodeId p1.1 op p2.1) (p1.2 + p2.2)))
  | .Call nodeId func args =>
    Except.bind (bottomUp act func) (fun p1 =>
      Except.bind (bottomUpList act args) (fun p2 =>
        applyAct act (.Call nodeId p1.1 p2.1) (p1.2 + p2.2)))
  | .Attribute nodeId value attr =>
    Except.bind (bottomUp act value) (fun p =>
      applyAct act (.Attribute nodeId p.1 attr) p.2)
  | .Subscript nodeId value slice =>
    Except.bind (bottomUp act value) (fun p1 =>
      Except.bind (bottomUp act slice) (fun p2 =>
        applyAct act (.Subscript nodeId p1.1 p2.1) (p1.2 + p2.2)))
  | .Index nodeId value =>
    Except.bind (bottomUp act value) (fun p =>
      applyAct act (.Index nodeId p.1) p.2)
  | .Assign nodeId target value =>
    Except.bind (bottomUp act target) (fun p1 =>
      Except.bind (bottomUp act value) (fun p2 =>
        applyAct act (.Assign nodeId p1.1 p2.1) (p1.2 + p2.2)))
  | .AugAssign nodeId op target value =>
    Except.bind (bottomUp act target) (fun p1 =>
      Except.bind (bottomUp act value) (fun p2 =>
        applyAct act (.AugAssign nodeId op p1.1 p2.1) (p1.2 + p2.2)))
  | .AnnAssign nodeId target annotation (some v) =>
    Except.bind (bottomUp act target) (fun p1 =>
      Except.bind (bottomUp act annotation) (fun p2 =>
        Except.bind (bottomUp act v) (fun p3 =>
          applyAct act (.AnnAssign nodeId p1.1 p2.1 (some p3.1)) (p1.2 + p2.2 + p3.2))))
  | .AnnAssign nodeId target annotation none =>
    Except.bind (bottomUp act target) (fun p1 =>
      Except.bind (bottomUp act annotation) (fun p2 =>
        applyAct act (.AnnAssign nodeId p1.1 p2.1 none) (p1.2 + p2.2)))
  | .Expr nodeId value =>
    Except.bind (bottomUp act value) (fun p =>
      applyAct act (.Expr nodeId p.1) p.2)
  | .Module nodeId body =>
    Except.bind (bottomUpList act body) (fun p =>
      applyAct act (.Module nodeId p.1) p.2)

def bottomUpList (act : VNode → Except SriErr (Option VNode)) :
    List VNode → Except SriErr (List VNode × Nat)
  | [] => .ok ([], 0)
  | x :: xs =>
    Except.bind (bottomUp act x) (fun p1 =>
      Except.bind (bottomUpList act xs) (fun p2 =>
        .ok (p1.1 :: p2.1, p1.2 + p2.2)))

end

/-- Model of `replace_literal_ops`. -/
def replace_literal_ops (m : VNode) : Except SriErr (VNode × Nat) :=
  bottomUp actLiteralOps m

/-- Model of `replace_subscripts`. -/
def replace_subscripts (m : VNode) : Except SriErr (VNode × Nat) :=
  bottomUp actSubscripts m

/-- Model of `replace_builtin_functions`. -/
def replace_builtin_functions (dispatch : Dispatch) (m : VNode) :
    Except SriErr (VNode × Nat) :=
  bottomUp (actBuiltinFunctions dispatch) m

mutual

/-- Model of `folding._replace`: build the literal copy that replaces one
`Name` occurrence.  `from_node` copies the replaced node's id, so the
copy (and, for a `List`, every element copy, each built with
`_replace(old_node, i)`) carries `oldId`; a value that is neither a
`Constant` nor a `List` raises `UnfoldableNode`. -/
def replaceCopy (oldId : Nat) : VNode → Except SriErr VNode
  | .Int _ v => .ok (.Int oldId v)
  | .Decimal _ v => .ok (.Decimal oldId v)
  | .Hex _ v => .ok (.Hex oldId v)
  | .Str _ v => .ok (.Str oldId v)
  | .Bytes _ v => .ok (.Bytes oldId v)
  | .NameConstant _ v => .ok (.NameConstant oldId v)
  | .List _ elts =>
    match replaceCopyList oldId elts with
    | .ok es => .ok (.List oldId es)
    | .error e => .error e
  | _ => .error (.unfoldable "")

def replaceCopyList (oldId : Nat) : List VNode → Except SriErr (List VNode)
  | [] => .ok []
  | x :: xs =>
    match replaceCopy oldId x with
    | .ok y =>
      match replaceCopyList oldId xs with
      | .ok ys => .ok (y :: ys)
      | .error e => .error e
    | .error e => .error e

end

/-- `_replace` applied to an absent value (`AnnAssign.value` may be
`None`), which likewise falls through to the `UnfoldableNode` raise. -/
def replaceCopyOpt (oldId : Nat) : Option VNode → Except SriErr VNode
  | some v => replaceCopy oldId v
  | none => .error (.unfoldable "")

/-- Position of a node relative to its parent and enclosing assignment,
carrying exactly the information `replace_constant` reads through
`get_ancestor`: whether the node sits in a skipped direct slot (attribute
value, call callee, dictionary key), whether its direct parent is an
`Index` wrapper, and whether it lies inside the target subtree of the
nearest `Assign`/`AnnAssign`/`AugAssign`. -/
structure SubstCtx where
  skipDirect : Bool
  parentIsIndex : Bool
  inAssignTarget : Bool
deriving Repr, DecidableEq

def SubstCtx.root : SubstCtx := SubstCtx.mk false false false

/-- Default context for a child edge: not a skipped slot, parent not an
`Index`, enclosing-assignment-target status inherited. -/
def SubstCtx.step (ctx : SubstCtx) : SubstCtx :=
  SubstCtx.mk false false ctx.inAssignTarget

def SubstCtx.skip (ctx : SubstCtx) : SubstCtx :=
  SubstCtx.mk true false ctx.inAssignTarget

def SubstCtx.index (ctx : SubstCtx) : SubstCtx :=
  SubstCtx.mk false true ctx.inAssignTarget

def SubstCtx.target : SubstCtx := SubstCtx.mk false false true

def SubstCtx.value : SubstCtx := SubstCtx.mk false false false

/-- Substitution of one matching `Name` occurrence: splice in the
`_replace` copy; on `UnfoldableNode` either re-raise (`raise_on_error`)
or keep the name. -/
def replaceNameOccurrence (id_ : String) (repl : Option VNode) (raiseOnError : Bool)
    (nodeId : Nat) (nm : String) (ctx : SubstCtx) : Except SriErr (VNode × Nat) :=
  if nm = id_ then
    if ctx.skipDirect then .ok (.Name nodeId nm, 0)
    else if ¬ ctx.parentIsIndex ∧ ctx.inAssignTarget then .ok (.Name nodeId nm, 0)
    else
      match replaceCopyOpt nodeId repl with
      | .ok r => .ok (r, 1)
      | .error e => if raiseOnError then .error e else .ok (.Name nodeId nm, 0)
  else .ok (.Name nodeId nm, 0)

mutual

/-- Model of `replace_constant`'s traversal: every `Name` whose `id`
matches is substituted with the `_replace` copy unless one of the skip
rules applies. -/
def replaceConstantNode (id_ : String) (repl : Option VNode) (raiseOnError : Bool) :
    VNode → SubstCtx → Except SriErr (VNode × Nat)
  | .Name nodeId nm, ctx => replaceNameOccurrence id_ repl raiseOnError nodeId nm ctx
  | .Int nodeId v, _ => .ok (.Int nodeId v, 0)
  | .Decimal nodeId v, _ => .ok (.Decimal nodeId v, 0)
  | .Hex nodeId v, _ => .ok (.Hex nodeId v, 0)
  | .Str nodeId v, _ => .ok (.Str nodeId v, 0)
  | .Bytes nodeId v, _ => .ok (.Bytes nodeId v, 0)
  | .NameConstant nodeId v, _ => .ok (.NameConstant nodeId v, 0)
  | .List nodeId elts, ctx =>
    Except.bind (replaceConstantList id_ repl raiseOnError elts ctx.step) (fun p =>
      .ok (.List nodeId p.1, p.2))
  | .Dict nodeId keys values, ctx =>
    Except.bind (replaceConstantList id_ repl raiseOnError keys ctx.skip) (fun p1 =>
      Except.bind (replaceConstantList id_ repl raiseOnError values ctx.step) (fun p2 =>
        .ok (.Dict nodeId p1.1 p2.1, p1.2 + p2.2)))
  | .UnaryOp nodeId op operand, ctx =>
    Except.bind (replaceConstantNode id_ repl raiseOnError operand ctx.step) (fun p =>
      .ok (.UnaryOp nodeId op p.1, p.2))
  | .BinOp nodeId left op right, ctx =>
    Except.bind (replaceConstantNode id_ repl raiseOnError left ctx.step) (fun p1 =>
      Except.bind (replaceConstantNode id_ repl raiseOnError right ctx.step) (fun p2 =>
        .ok (.BinOp nodeId p1.1 op p2.1, p1.2 + p2.2)))
  | .BoolOp nodeId op values, ctx =>
    Except.bind (replaceConstantList id_ repl raiseOnError values ctx.step) (fun p =>
      .ok (.BoolOp nodeId op p.1, p.2))
  | .Compare nodeId left op right, ctx =>
    Except.bind (replaceConstantNode id_ repl raiseOnError left ctx.step) (fun p1 =>
      Except.bind (replaceConstantNode id_ repl raiseOnError right ctx.step) (fun p2 =>
        .ok (.Compare nodeId p1.1 op p2.1, p1.2 + p2.2)))
  | .Call nodeId func args, ctx =>
    Except.bind (replaceConstantNode id_ repl raiseOnError func ctx.skip) (fun p1 =>
      Except.bind (replaceConstantList id_ repl raiseOnError args ctx.step) (fun p2 =>
        .ok (.Call nodeId p1.1 p2.1, p1.2 + p2.2)))
  | .Attribute nodeId value attr, ctx =>
    Except.bind (replaceConstantNode id_ repl raiseOnError value ctx.skip) (fun p =>
      .ok (.Attribute nodeId p.1 attr, p.2))
  | .Subscript nodeId value slice, ctx =>
    Except.bind (replaceConstantNode id_ repl raiseOnError value ctx.step) (fun p1 =>
      Except.bind (replaceConstantNode id_ repl raiseOnError slice ctx.step) (fun p2 =>
        .ok (.Subscript nodeId p1.1 p2.1, p1.2 + p2.2)))
  | .Index nodeId value, ctx =>
    Except.bind (replaceConstantNode id_ repl raiseOnError value ctx.index) (fun p =>
      .ok (.Index nodeId p.1, p.2))
  | .Assign nodeId target value, _ =>
    Except.bind (replaceConstantNode id_ repl raiseOnError target SubstCtx.target) (fun p1 =>
      Except.bind (replaceConstantNode id_ repl raiseOnError value SubstCtx.value) (fun p2 =>
        .ok (.Assign nodeId p1.1 p2.1, p1.2 + p2.2)))
  | .AugAssign nodeId op target value, _ =>
    Except.bind (replaceConstantNode id_ repl raiseOnError target SubstCtx.target) (fun p1 =>
      Except.bind (replaceConstantNode id_ repl raiseOnError value SubstCtx.value) (fun p2 =>
        .ok (.AugAssign nodeId op p1.1 p2.1, p1.2 + p2.2)))
  | .AnnAssign nodeId target annotation (some v), _ =>
    Except.bind (replaceConstantNode id_ repl raiseOnError target SubstCtx.target) (fun p1 =>
      Except.bind (replaceConstantNode id_ repl raiseOnError annotation SubstCtx.value) (fun p2 =>
        Except.bind (replaceConstantNode id_ repl raiseOnError v SubstCtx.value) (fun p3 =>
          .ok (.AnnAssign nodeId p1.1 p2.1 (some p3.1), p1.2 + p2.2 + p3.2))))
  | .AnnAssign nodeId target annotation none, _ =>
    Except.bind (replaceConstantNode id_ repl raiseOnError target SubstCtx.target) (fun p1 =>
      Except.bind (replaceConstantNode id_ repl raiseOnError annotation SubstCtx.value) (fun p2 =>
        .ok (.AnnAssign nodeId p1.1 p2.1 none, p1.2 + p2.2)))
  | .Expr nodeId value, ctx =>
    Except.bind (replaceConstantNode id_ repl raiseOnError value ctx.step) (fun p =>
      .ok (.Expr nodeId p.1, p.2))
  | .Module nodeId body, ctx =>
    Except.bind (replaceConstantList id_ repl raiseOnError body ctx.step) (fun p =>
      .ok (.Module nodeId p.1, p.2))

def replaceConstantList (id_ : String) (repl : Option VNode) (raiseOnError : Bool) :
    List VNode → SubstCtx → Except SriErr (List VNode × Nat)
  | [], _ => .ok ([], 0)
  | x :: xs, ctx =>
    Except.bind (replaceConstantNode id_ repl raiseOnError x ctx) (fun p1 =>
      Except.bind (replaceConstantList id_ repl raiseOnError xs ctx) (fun p2 =>
        .ok (p1.1 :: p2.1, p1.2 + p2.2)))

end

/-- Model of `replace_constant`. -/
def replace_constant (m : VNode) (id_ : String) (replacementNode : Option VNode)
    (raiseOnError : Bool) : Except SriErr (VNode × Nat) :=
  replaceConstantNode id_ replacementNode raiseOnError m SubstCtx.root

/-- The `BUILTIN_CONSTANTS` table of `folding.py` (the template nodes are
constructed parentless; only their class and value are ever read). -/
def BUILTIN_CONSTANTS : List (String × VNode) :=
  [("EMPTY_BYTES32",
      .Hex 0 "0x0000000000000000000000000000000000000000000000000000000000000000"),
   ("ZERO_ADDRESS", .Hex 0 "0x0000000000000000000000000000000000000000"),
   ("MAX_INT128", .Int 0 (2 ^ 127 - 1)),
   ("MIN_INT128", .Int 0 (-(2 ^ 127))),
   ("MAX_DECIMAL", .Decimal 0 (((2 ^ 127 - 1 : Int) : ℚ))),
   ("MIN_DECIMAL", .Decimal 0 (((-(2 ^ 127) : Int) : ℚ))),
   ("MAX_UINT256", .Int 0 (2 ^ 256 - 1))]

/-- Model of `replace_builtin_constants`: one unconditional
`replace_constant` pass per builtin name, with `raise_on_error` set. -/
def replace_builtin_constants (m : VNode) : Except SriErr VNode :=
  BUILTIN_CONSTANTS.foldlM
    (fun acc p =>
      match replace_constant acc p.1 (some p.2) true with
      | .ok (m2, _) => .ok m2
      | .error e => .error e)
    m

def getBodyItem : VNode → Nat → Option VNode
  | .Module _ body, k => body.get? k
  | _, _ => none

/-- Whether `node.get("annotation.func.id") == "constant"`. -/
def isConstantAnnotation : VNode → Bool
  | .Call _ (.Name _ fname) _ => fname == "constant"
  | _ => false

/-- One step of `replace_user_defined_constants`: if the `k`-th body
statement of the current module is an `AnnAssign` whose target is a plain
`Name` and whose annotation is wrapped in `constant(...)`, substitute its
(current) value for that name across the tree, without raising on
unfoldable values. -/
def rudcStep (m : VNode) (k : Nat) : Except SriErr (VNode × Nat) :=
  match getBodyItem m k with
  | some (.AnnAssign _ (.Name _ tgt) annotation value) =>
    if isConstantAnnotation annotation then replace_constant m tgt value false
    else .ok (m, 0)
  | _ => .ok (m, 0)

def rudcGo : Nat → Nat → VNode → Except SriErr (VNode × Nat)
  | 0, _, m => .ok (m, 0)
  | rem + 1, k, m =>
    Except.bind (rudcStep m k) (fun p1 =>
      Except.bind (rudcGo rem (k + 1) p1.1) (fun p2 =>
        .ok (p2.1, p1.2 + p2.2)))

/-- Model of `replace_user_defined_constants`: the module-level
`AnnAssign` statements are scanned in body order; constant names are
substituted sequentially, each substitution seeing the tree produced by
the previous ones. -/
def replace_user_defined_constants (m : VNode) : Except SriErr (VNode × Nat) :=
  match m with
  | .Module _ body => rudcGo body.length 0 m
  | _ => .ok (m, 0)

/-- One round of the driver loop of `fold`: the four counted passes in
their fixed order. -/
def foldRound (dispatch : Dispatch) (m : VNode) : Except SriErr (VNode × Nat) :=
  Except.bind (replace_user_defined_constants m) (fun p1 =>
    Except.bind (replace_literal_ops p1.1) (fun p2 =>
      Except.bind (replace_subscripts p2.1) (fun p3 =>
        Except.bind (replace_builtin_functions dispatch p3.1) (fun p4 =>
          .ok (p4.1, p1.2 + p2.2 + p3.2 + p4.2)))))

/-- The driver loop, with explicit fuel standing in for the unbounded
`while changed_nodes` loop; `none` means the fuel ran out before the loop
reached a round with zero substitutions. -/
def foldLoop (dispatch : Dispatch) : Nat → VNode → Except SriErr (Option VNode)
  | 0, _ => .ok none
  | fuel + 1, m =>
    Except.bind (foldRound dispatch m) (fun p =>
      if p.2 = 0 then .ok (some p.1) else foldLoop dispatch fuel p.1)

mutual

/-- Number of candidate nodes for folding substitutions (`Name`
references plus operator, comparison, subscript and call nodes); the
termination measure of the driver loop. -/
def candCount : VNode → Nat
  | .Int _ _ => 0
  | .Decimal _ _ => 0
  | .Hex _ _ => 0
  | .Str _ _ => 0
  | .Bytes _ _ => 0
  | .NameConstant _ _ => 0
  | .Name _ _ => 1
  | .List _ elts => candCountList elts
  | .Dict _ keys values => candCountList keys + candCountList values
  | .UnaryOp _ _ operand => 1 + candCount operand
  | .BinOp _ left _ right => 1 + candCount left + candCount right
  | .BoolOp _ _ values => 1 + candCountList values
  | .Compare _ left _ right => 1 + candCount left + candCount right
  | .Call _ func args => 1 + candCount func + candCountList args
  | .Attribute _ value _ => candCount value
  | .Subscript _ value slice => 1 + candCount value + candCount slice
  | .Index _ value => candCount value
  | .Assign _ target value => candCount target + candCount value
  | .AugAssign _ _ target value => candCount target + candCount value
  | .AnnAssign _ target annotation value =>
    candCount target + candCount annotation +
      (match value with | some v => candCount v | none => 0)
  | .Expr _ value => candCount value
  | .Module _ body => candCountList body

def candCountList : List VNode → Nat
  | [] => 0
  | x :: xs => candCount x + candCountList xs

end

/-- Model of `fold`: the unconditional builtin-constant pass followed by
the driver loop, supplied with enough fuel for the loop's own
termination argument. -/
def fold (dispatch : Dispatch) (m : VNode) : Except SriErr (Option VNode) :=
  match replace_builtin_constants m with
  | .ok m0 => foldLoop dispatch (candCount m0 + 1) m0
  | .error e => .error e

/-! ### Structural (value) equality: `compare_nodes` -/

mutual

/-- Model of `compare_nodes`: the right node's class must be (a
superclass of) the left node's, and the declared field values are
compared recursively; `node_id`, `ast_type` and the source-span slots
live in `srilangNode.__slots__` and are excluded from the comparison.
List-valued fields are compared with `zip`, which truncates at the
shorter list. -/
def compare_nodes : VNode → VNode → Bool
  | .Int _ a, .Int _ b => a == b
  | .Decimal _ a, .Decimal _ b => a == b
  | .Hex _ a, .Hex _ b => a == b
  | .Str _ a, .Str _ b => a == b
  | .Bytes _ a, .Bytes _ b => a == b
  | .NameConstant _ a, .NameConstant _ b => a == b
  | .Name _ a, .Name _ b => a == b
  | .List _ xs, .List _ ys => compare_nodes_zip xs ys
  | .Dict _ ka va, .Dict _ kb vb => compare_nodes_zip ka kb && compare_nodes_zip va vb
  | .UnaryOp _ opa oa, .UnaryOp _ opb ob => opa == opb && compare_nodes oa ob
  | .BinOp _ la opa ra, .BinOp _ lb opb rb =>
    compare_nodes la lb && opa == opb && compare_nodes ra rb
  | .BoolOp _ opa va, .BoolOp _ opb vb => opa == opb && compare_nodes_zip va vb
  | .Compare _ la opa ra, .Compare _ lb opb rb =>
    compare_nodes la lb && opa == opb && compare_nodes ra rb
  | .Call _ fa aa, .Call _ fb ab => compare_nodes fa fb && compare_nodes_zip aa ab
  | .Attribute _ va aa, .Attribute _ vb ab => compare_nodes va vb && aa == ab
  | .Subscript _ va sa, .Subscript _ vb sb => compare_nodes va vb && compare_nodes sa sb
  | .Index _ va, .Index _ vb => compare_nodes va vb
  | .Assign _ ta va, .Assign _ tb vb => compare_nodes ta tb && compare_nodes va vb
  | .AugAssign _ opa ta va, .AugAssign _ opb tb vb =>
    opa == opb && compare_nodes ta tb && compare_nodes va vb
  | .AnnAssign _ ta aa va, .AnnAssign _ tb ab vb =>
    compare_nodes ta tb && compare_nodes aa ab && compare_nodes_opt va vb
  | .Expr _ va, .Expr _ vb => compare_nodes va vb
  | .Module _ ba, .Module _ bb => compare_nodes_zip ba bb
  | _, _ => false

/-- Comparison of an optional node field (`AnnAssign.value` may be
absent): `None` compares equal only to `None`. -/
def compare_nodes_opt : Option VNode → Option VNode → Bool
  | some x, some y => compare_nodes x y
  | none, none => true
  | _, _ => false

/-- The `zip`-based list-field comparison of `compare_nodes`: pairs are
compared up to the length of the shorter list, trailing elements of the
longer list are ignored. -/
def compare_nodes_zip : List VNode → List VNode → Bool
  | x :: xs, y :: ys => compare_nodes x y && compare_nodes_zip xs ys
  | _, _ => true

end

/-- Rewrite a node's own `node_id`, leaving everything else unchanged
(used to state that `compare_nodes` ignores identity). -/
def setNodeId (k : Nat) : VNode → VNode
  | .Int _ v => .Int k v
  | .Decimal _ v => .Decimal k v
  | .Hex _ v => .Hex k v
  | .Str _ v => .Str k v
  | .Bytes _ v => .Bytes k v
  | .NameConstant _ v => .NameConstant k v
  | .Name _ s => .Name k s
  | .List _ elts => .List k elts
  | .Dict _ keys values => .Dict k keys values
  | .UnaryOp _ op operand => .UnaryOp k op operand
  | .BinOp _ left op right => .BinOp k left op right
  | .BoolOp _ op values => .BoolOp k op values
  | .Compare _ left op right => .Compare k left op right
  | .Call _ func args => .Call k func args
  | .Attribute _ value attr => .Attribute k value attr
  | .Subscript _ value slice => .Subscript k value slice
  | .Index _ value => .Index k value
  | .Assign _ target value => .Assign k target value
  | .AugAssign _ op target value => .AugAssign k op target value
  | .AnnAssign _ target annotation value => .AnnAssign k target annotation value
  | .Expr _ value => .Expr k value
  | .Module _ body => .Module k body

/-! ### Auxiliary observations on trees -/

/-- The `node_id` carried by a node. -/
def nodeIdOf : VNode → Nat
  | .Int nodeId _ => nodeId
  | .Decimal nodeId _ => nodeId
  | .Hex nodeId _ => nodeId
  | .Str nodeId _ => nodeId
  | .Bytes nodeId _ => nodeId
  | .NameConstant nodeId _ => nodeId
  | .Name nodeId _ => nodeId
  | .List nodeId _ => nodeId
  | .Dict nodeId _ _ => nodeId
  | .UnaryOp nodeId _ _ => nodeId
  | .BinOp nodeId _ _ _ => nodeId
  | .BoolOp nodeId _ _ => nodeId
  | .Compare nodeId _ _ _ => nodeId
  | .Call nodeId _ _ => nodeId
  | .Attribute nodeId _ _ => nodeId
  | .Subscript nodeId _ _ => nodeId
  | .Index nodeId _ => nodeId
  | .Assign nodeId _ _ => nodeId
  | .AugAssign nodeId _ _ _ => nodeId
  | .AnnAssign nodeId _ _ _ => nodeId
  | .Expr nodeId _ => nodeId
  | .Module nodeId _ => nodeId

mutual

/-- Number of nodes in the (field-reachable) tree that carry the given
`node_id`. -/
def countNodesWithId (k : Nat) : VNode → Nat
  | .Int nodeId _ => if nodeId = k then 1 else 0
  | .Decimal nodeId _ => if nodeId = k then 1 else 0
  | .Hex nodeId _ => if nodeId = k then 1 else 0
  | .Str nodeId _ => if nodeId = k then 1 else 0
  | .Bytes nodeId _ => if nodeId = k then 1 else 0
  | .NameConstant nodeId _ => if nodeId = k then 1 else 0
  | .Name nodeId _ => if nodeId = k then 1 else 0
  | .List nodeId elts => (if nodeId = k then 1 else 0) + countNodesWithIdList k elts
  | .Dict nodeId keys values =>
    (if nodeId = k then 1 else 0) + countNodesWithIdList k keys + countNodesWithIdList k values
  | .UnaryOp nodeId _ operand => (if nodeId = k then 1 else 0) + countNodesWithId k operand
  | .BinOp nodeId left _ right =>
    (if nodeId = k then 1 else 0) + countNodesWithId k left + countNodesWithId k right
  | .BoolOp nodeId _ values => (if nodeId = k then 1 else 0) + countNodesWithIdList k values
  | .Compare nodeId left _ right =>
    (if nodeId = k then 1 else 0) + countNodesWithId k left + countNodesWithId k right
  | .Call nodeId func args =>
    (if nodeId = k then 1 else 0) + countNodesWithId k func + countNodesWithIdList k args
  | .Attribute nodeId value _ => (if nodeId = k then 1 else 0) + countNodesWithId k value
  | .Subscript nodeId value slice =>
    (if nodeId = k then 1 else 0) + countNodesWithId k value + countNodesWithId k slice
  | .Index nodeId value => (if nodeId = k then 1 else 0) + countNodesWithId k value
  | .Assign nodeId target value =>
    (if nodeId = k then 1 else 0) + countNodesWithId k target + countNodesWithId k value
  | .AugAssign nodeId _ target value =>
    (if nodeId = k then 1 else 0) + countNodesWithId k target + countNodesWithId k value
  | .AnnAssign nodeId target annotation value =>
    (if nodeId = k then 1 else 0) + countNodesWithId k target + countNodesWithId k annotation +
      (match value with | some v => countNodesWithId k v | none => 0)
  | .Expr nodeId value => (if nodeId = k then 1 else 0) + countNodesWithId k value
  | .Module nodeId body => (if nodeId = k then 1 else 0) + countNodesWithIdList k body

def countNodesWithIdList (k : Nat) : List VNode → Nat
  | [] => 0
  | x :: xs => countNodesWithId k x + countNodesWithIdList k xs

end

mutual

/-- Whether every node of the tree carries the given `node_id` (the shape
of a `_replace` copy). -/
def allNodesHaveId (k : Nat) : VNode → Bool
  | .Int nodeId _ => nodeId == k
  | .Decimal nodeId _ => nodeId == k
  | .Hex nodeId _ => nodeId == k
  | .Str nodeId _ => nodeId == k
  | .Bytes nodeId _ => nodeId == k
  | .NameConstant nodeId _ => nodeId == k
  | .Name nodeId _ => nodeId == k
  | .List nodeId elts => nodeId == k && allNodesHaveIdList k elts
  | .Dict nodeId keys values =>
    nodeId == k && allNodesHaveIdList k keys && allNodesHaveIdList k values
  | .UnaryOp nodeId _ operand => nodeId == k && allNodesHaveId k operand
  | .BinOp nodeId left _ right =>
    nodeId == k && allNodesHaveId k left && allNodesHaveId k right
  | .BoolOp nodeId _ values => nodeId == k && allNodesHaveIdList k values
  | .Compare nodeId left _ right =>
    nodeId == k && allNodesHaveId k left && allNodesHaveId k right
  | .Call nodeId func args =>
    nodeId == k && allNodesHaveId k func && allNodesHaveIdList k args
  | .Attribute nodeId value _ => nodeId == k && allNodesHaveId k value
  | .Subscript nodeId value slice =>
    nodeId == k && allNodesHaveId k value && allNodesHaveId k slice
  | .Index nodeId value => nodeId == k && allNodesHaveId k value
  | .Assign nodeId target value =>
    nodeId == k && allNodesHaveId k target && allNodesHaveId k value
  | .AugAssign nodeId _ target value =>
    nodeId == k && allNodesHaveId k target && allNodesHaveId k value
  | .AnnAssign nodeId target annotation value =>
    nodeId == k && allNodesHaveId k target && allNodesHaveId k annotation &&
      (match value with | some v => allNodesHaveId k v | none => true)
  | .Expr nodeId value => nodeId == k && allNodesHaveId k value
  | .Module nodeId body => nodeId == k && allNodesHaveIdList k body

def allNodesHaveIdList (k : Nat) : List VNode → Bool
  | [] => true
  | x :: xs => allNodesHaveId k x && allNodesHaveIdList k xs

end

/-- The registry configuration with no foldable builtins. -/
def noDispatch : Dispatch := fun _ => none

/-! ### C1, C3, C8: literal operator semantics -/

/-- C1: for a `BinOp` on two literals of identical kind (both `Int` or
both `Decimal`), `Div` with a nonzero right value truncates toward zero
(`Int.tdiv`, not floor division; decimal quotients additionally rounded
to ten fractional digits toward zero) and raises the dedicated
division-by-zero error on a zero right value; `Mod` with a nonzero right
value yields the remainder whose sign follows the dividend (`Int.tmod`;
likewise for decimals) and raises the dedicated modulo-by-zero error on
a zero right value. -/
theorem binop_div_truncates_and_mod_follows_dividend :
    (∀ (nid i j : Nat) (a b : Int), b ≠ 0 →
      BinOp_evaluate nid (.Int i a) .Div (.Int j b) = .ok (.Int nid (Int.tdiv a b))) ∧
    (∀ (nid i j : Nat) (a : Int),
      BinOp_evaluate nid (.Int i a) .Div (.Int j 0) =
        .error (.zeroDivision "Division by zero")) ∧
    (∀ (nid i j : Nat) (a b : ℚ), b ≠ 0 →
      BinOp_evaluate nid (.Decimal i a) .Div (.Decimal j b) =
        .ok (.Decimal nid (quantize10 (a / b))) ∧
      (quantize10 (a / b) * 10 ^ 10).den = 1 ∧
      (0 ≤ a / b → quantize10 (a / b) = ((⌊a / b * 10 ^ 10⌋ : Int) : ℚ) / 10 ^ 10) ∧
      (a / b < 0 → quantize10 (a / b) = ((⌈a / b * 10 ^ 10⌉ : Int) : ℚ) / 10 ^ 10)) ∧
    (∀ (nid i j : Nat) (a : ℚ),
      BinOp_evaluate nid (.Decimal i a) .Div (.Decimal j 0) =
        .error (.zeroDivision "Division by zero")) ∧
    (∀ (nid i j : Nat) (a b : Int), b ≠ 0 →
      BinOp_evaluate nid (.Int i a) .Mod (.Int j b) = .ok (.Int nid (Int.tmod a b))) ∧
    (∀ (nid i j : Nat) (a : Int),
      BinOp_evaluate nid (.Int i a) .Mod (.Int j 0) =
        .error (.zeroDivision "Modulo by zero")) ∧
    (∀ (nid i j : Nat) (a b : ℚ), b ≠ 0 →
      ∃ r, BinOp_evaluate nid (.Decimal i a) .Mod (.Decimal j b) = .ok (.Decimal nid r) ∧
        (0 ≤ a → 0 ≤ r) ∧ (a < 0 → r ≤ 0)) ∧
    (∀ (nid i j : Nat) (a : ℚ),
      BinOp_evaluate nid (.Decimal i a) .Mod (.Decimal j 0) =
        .error (.zeroDivision "Modulo by zero")) := by
  refine ⟨?_, ?_, ?_, ?_, ?_, ?_, ?_, ?_⟩
  · intro nid i j a b hb
    simp [BinOp_evaluate, intArith, Div_op_int_eq_tdiv a b hb]
  · intro nid i j a
    simp [BinOp_evaluate, intArith, Div_op_int]
  · intro nid i j a b hb
    have hdiv : Div_op_dec a b = .ok (quantize10 (a / b)) := by
      unfold Div_op_dec
      rw [if_neg hb]
      simp only [neg_div, neg_neg, ite_self]
    refine ⟨by simp [BinOp_evaluate, decArith, hdiv], quantize10_den _, ?_, ?_⟩
    · intro h; exact quantize10_of_nonneg h
    · intro h; exact quantize10_of_nonpos (le_of_lt h)
  · intro nid i j a
    simp [BinOp_evaluate, decArith, Div_op_dec]
  · intro nid i j a b hb
    simp [BinOp_evaluate, intArith, Mod_op_int_eq_tmod a b hb]
  · intro nid i j a
    simp [BinOp_evaluate, intArith, Mod_op_int]
  · intro nid i j a b hb
    have h0 : (0 : ℚ) ≤ |a| - |b| * ((ratTrunc (|a| / |b|) : ℚ)) := by
      have hbpos : (0 : ℚ) < |b| := abs_pos.mpr hb
      have hq : (0 : ℚ) ≤ |a| / |b| := div_nonneg (abs_nonneg a) (le_of_lt hbpos)
      rw [ratTrunc_eq_floor hq]
      have hfl : ((⌊|a| / |b|⌋ : Int) : ℚ) ≤ |a| / |b| := Int.floor_le _
      have h2 : |b| * (|a| / |b|) = |a| := by field_simp
      linarith [mul_le_mul_of_nonneg_left hfl (le_of_lt hbpos), h2]
    refine ⟨if a < 0 then -(|a| - |b| * ((ratTrunc (|a| / |b|) : ℚ)))
        else |a| - |b| * ((ratTrunc (|a| / |b|) : ℚ)), ?_, ?_, ?_⟩
    · have hmod : Mod_op_dec a b = .ok (if a < 0 then -(|a| - |b| * ((ratTrunc (|a| / |b|) : ℚ)))
          else |a| - |b| * ((ratTrunc (|a| / |b|) : ℚ))) := by
        unfold Mod_op_dec
        rw [if_neg hb]
      simp [BinOp_evaluate, decArith, hmod]
    · intro ha
      rw [if_neg (by exact not_lt.mpr ha)]
      exact h0
    · intro ha
      rw [if_pos ha]
      linarith
  · intro nid i j a
    simp [BinOp_evaluate, decArith, Mod_op_dec]

/-- Witness for C1: the theorem applied at the concrete inputs of the
specification, including `evaluate(-7 / 2) == -3`, `evaluate(7 / -2) ==
-3`, `evaluate(-7 % 3) == -1` and `evaluate(7 % -3) == 1`. -/
theorem binop_div_truncates_and_mod_follows_dividend_witness :
    BinOp_evaluate 10 (.Int 1 (-7)) .Div (.Int 2 2) = .ok (.Int 10 (-3)) ∧
    BinOp_evaluate 10 (.Int 1 7) .Div (.Int 2 (-2)) = .ok (.Int 10 (-3)) ∧
    BinOp_evaluate 10 (.Int 1 (-7)) .Mod (.Int 2 3) = .ok (.Int 10 (-1)) ∧
    BinOp_evaluate 10 (.Int 1 7) .Mod (.Int 2 (-3)) = .ok (.Int 10 1) ∧
    BinOp_evaluate 10 (.Decimal 1 (-7)) .Div (.Decimal 2 2) =
      .ok (.Decimal 10 (quantize10 ((-7 : ℚ) / 2))) ∧
    (∃ r, BinOp_evaluate 10 (.Decimal 1 (-7)) .Mod (.Decimal 2 3) =
      .ok (.Decimal 10 r) ∧ r ≤ 0) := by
  obtain ⟨h1, _, h3, _, h5, _, h7, _⟩ := binop_div_truncates_and_mod_follows_dividend
  refine ⟨?_, ?_, ?_, ?_, ?_, ?_⟩
  · exact (h1 10 1 2 (-7) 2 (by decide)).trans
      (congrArg (fun z => Except.ok (VNode.Int 10 z)) (by decide))
  · exact (h1 10 1 2 7 (-2) (by decide)).trans
      (congrArg (fun z => Except.ok (VNode.Int 10 z)) (by decide))
  · exact (h5 10 1 2 (-7) 3 (by decide)).trans
      (congrArg (fun z => Except.ok (VNode.Int 10 z)) (by decide))
  · exact (h5 10 1 2 7 (-3) (by decide)).trans
      (congrArg (fun z => Except.ok (VNode.Int 10 z)) (by decide))
  · exact (h3 10 1 2 (-7) 2 (by norm_num)).1
  · obtain ⟨r, hr, _, hneg⟩ := h7 10 1 2 (-7) 3 (by norm_num)
    exact ⟨r, hr, hneg (by norm_num)⟩

/-- C8 as amended by nothing (the claim holds): multiplying two `Decimal`
literals quantizes the exact product toward zero to ten fractional
digits (floor for a nonnegative product, ceiling for a negative one, and
the scaled result is an integer), while `Int` multiplication is exact. -/
theorem mult_decimal_truncates_int_exact :
    (∀ (nid i j : Nat) (a b : Int),
      BinOp_evaluate nid (.Int i a) .Mult (.Int j b) = .ok (.Int nid (a * b))) ∧
    (∀ (nid i j : Nat) (a b : ℚ),
      ∃ r, BinOp_evaluate nid (.Decimal i a) .Mult (.Decimal j b) = .ok (.Decimal nid r) ∧
        (r * 10 ^ 10).den = 1 ∧
        (0 ≤ a * b → r = ((⌊a * b * 10 ^ 10⌋ : Int) : ℚ) / 10 ^ 10) ∧
        (a * b < 0 → r = ((⌈a * b * 10 ^ 10⌉ : Int) : ℚ) / 10 ^ 10) ∧
        |r| ≤ |a * b|) := by
  constructor
  · intro nid i j a b
    simp [BinOp_evaluate, intArith, Mult_op_int]
  · intro nid i j a b
    refine ⟨quantize10 (a * b), by simp [BinOp_evaluate, decArith, Mult_op_dec],
      quantize10_den _, fun h => quantize10_of_nonneg h,
      fun h => quantize10_of_nonpos (le_of_lt h), ?_⟩
    rcases le_or_lt 0 (a * b) with h | h
    · have hE : (0 : ℚ) < 10 ^ 10 := by norm_num
      have hfl0 : (0 : Int) ≤ ⌊a * b * 10 ^ 10⌋ := Int.floor_nonneg.mpr (by positivity)
      have hr0 : (0 : ℚ) ≤ ((⌊a * b * 10 ^ 10⌋ : Int) : ℚ) / 10 ^ 10 := by
        apply div_nonneg _ (le_of_lt hE)
        exact_mod_cast hfl0
      rw [quantize10_of_nonneg h, abs_of_nonneg hr0, abs_of_nonneg h,
        div_le_iff₀ hE]
      exact Int.floor_le _
    · have hE : (0 : ℚ) < 10 ^ 10 := by norm_num
      have hcl0 : (⌈a * b * 10 ^ 10⌉ : Int) ≤ 0 := by
        rw [Int.ceil_le]
        push_cast
        nlinarith
      have hr0 : ((⌈a * b * 10 ^ 10⌉ : Int) : ℚ) / 10 ^ 10 ≤ 0 := by
        apply div_nonpos_of_nonpos_of_nonneg _ (le_of_lt hE)
        exact_mod_cast hcl0
      rw [quantize10_of_nonpos (le_of_lt h), abs_of_nonpos hr0, abs_of_neg h,
        neg_le_neg_iff, le_div_iff₀ hE]
      exact Int.le_ceil _

/-- Witness for C8: the theorem applied at a concrete pair of decimal
literals whose exact product (`10 ^ (-12)`) has more than ten fractional
digits and truncates to zero, and at a concrete integer pair. -/
theorem mult_decimal_truncates_int_exact_witness :
    BinOp_evaluate 10 (.Int 1 6) .Mult (.Int 2 7) = .ok (.Int 10 42) ∧
    (∃ r, BinOp_evaluate 10 (.Decimal 1 (1 / 1000000)) .Mult (.Decimal 2 (1 / 1000000)) =
      .ok (.Decimal 10 r) ∧ r = 0) := by
  obtain ⟨h1, h2⟩ := mult_decimal_truncates_int_exact
  refine ⟨h1 10 1 2 6 7, ?_⟩
  obtain ⟨r, hr, _, hfl, _, _⟩ := h2 10 1 2 (1 / 1000000) (1 / 1000000)
  refine ⟨r, hr, ?_⟩
  rw [hfl (by norm_num)]
  norm_num


/-- C3 counterexample: evaluating `3 in [1, "a"]` (heterogeneous literal
kinds) raises the internal `UnfoldableNode` skip signal, not a
user-facing type error. -/
theorem compare_in_heterogeneous_unfoldable_cex :
    Compare_evaluate 7 (.Int 1 3) .In (.List 2 [.Int 3 1, .Str 4 "a"]) =
      .error (.unfoldable "List contains multiple literal types") := rfl

/-- C3 as amended: membership of a literal in a homogeneous literal list
folds to a boolean literal (`evaluate(3 in [1,2,3])` yields `True`),
while a heterogeneous literal list raises the internal `UnfoldableNode`
skip signal ("List contains multiple literal types"), which the folding
pass absorbs — not a user-facing type error. -/
theorem compare_in_membership_semantics :
    (∀ (nid i l x y z : Nat),
      Compare_evaluate nid (.Int i 3) .In (.List l [.Int x 1, .Int y 2, .Int z 3]) =
        .ok (.NameConstant nid (some true))) ∧
    (∀ (nid lid : Nat) (left : VNode) (elts : List VNode),
      isConstantNode left = true →
      elts.all isConstantNode = true →
      allSameTag elts = false →
      Compare_evaluate nid left .In (.List lid elts) =
        .error (.unfoldable "List contains multiple literal types")) := by
  constructor
  · intro nid i l x y z
    rfl
  · intro nid lid left elts hconst hall hsame
    unfold Compare_evaluate
    rw [if_neg (by simp [hconst])]
    have hany : (elts.any fun e => ¬ isConstantNode e) = false := by
      rw [List.any_eq_false]
      intro e he
      simp [List.all_eq_true.mp hall e he]
    simp only [hany, hsame]
    rfl

/-- Witness for C3: the amended theorem applied at the concrete inputs
`3 in [1,2,3]` and `3 in [1, "a"]`. -/
theorem compare_in_membership_semantics_witness :
    Compare_evaluate 7 (.Int 1 3) .In (.List 2 [.Int 3 1, .Int 4 2, .Int 5 3]) =
      .ok (.NameConstant 7 (some true)) ∧
    Compare_evaluate 8 (.Int 1 3) .In (.List 2 [.Int 3 1, .Str 4 "a"]) =
      .error (.unfoldable "List contains multiple literal types") := by
  refine ⟨compare_in_membership_semantics.1 7 1 2 3 4 5, ?_⟩
  exact compare_in_membership_semantics.2 8 2 (.Int 1 3) [.Int 3 1, .Str 4 "a"]
    (by rfl) (by rfl) (by rfl)

/-! ### C9: structural equality -/

theorem beq_symm_lawful {α : Type} [BEq α] [LawfulBEq α] (a b : α) :
    (a == b) = (b == a) := by
  by_cases h : a = b
  · subst h; rfl
  · rw [beq_eq_false_iff_ne.mpr h, beq_eq_false_iff_ne.mpr (Ne.symm h)]

mutual

theorem compare_nodes_symm (a b : VNode) : compare_nodes a b = compare_nodes b a := by
  cases a <;> cases b <;> try rfl
  case Int.Int i a j b => exact beq_symm_lawful a b
  case Decimal.Decimal i a j b => exact beq_symm_lawful a b
  case Hex.Hex i a j b => exact beq_symm_lawful a b
  case Str.Str i a j b => exact beq_symm_lawful a b
  case Bytes.Bytes i a j b => exact beq_symm_lawful a b
  case NameConstant.NameConstant i a j b => exact beq_symm_lawful a b
  case Name.Name i a j b => exact beq_symm_lawful a b
  case List.List i xs j ys => exact compare_nodes_zip_symm xs ys
  case Dict.Dict i ka va j kb vb =>
    show (compare_nodes_zip ka kb && compare_nodes_zip va vb) =
      (compare_nodes_zip kb ka && compare_nodes_zip vb va)
    rw [compare_nodes_zip_symm ka kb, compare_nodes_zip_symm va vb]
  case UnaryOp.UnaryOp i opa oa j opb ob =>
    show (opa == opb && compare_nodes oa ob) = (opb == opa && compare_nodes ob oa)
    rw [beq_symm_lawful opa opb, compare_nodes_symm oa ob]
  case BinOp.BinOp i la opa ra j lb opb rb =>
    show (compare_nodes la lb && opa == opb && compare_nodes ra rb) =
      (compare_nodes lb la && opb == opa && compare_nodes rb ra)
    rw [beq_symm_lawful opa opb, compare_nodes_symm la lb, compare_nodes_symm ra rb]
  case BoolOp.BoolOp i opa va j opb vb =>
    show (opa == opb && compare_nodes_zip va vb) = (opb == opa && compare_nodes_zip vb va)
    rw [beq_symm_lawful opa opb, compare_nodes_zip_symm va vb]
  case Compare.Compare i la opa ra j lb opb rb =>
    show (compare_nodes la lb && opa == opb && compare_nodes ra rb) =
      (compare_nodes lb la && opb == opa && compare_nodes rb ra)
    rw [beq_symm_lawful opa opb, compare_nodes_symm la lb, compare_nodes_symm ra rb]
  case Call.Call i fa aa j fb ab =>
    show (compare_nodes fa fb && compare_nodes_zip aa ab) =
      (compare_nodes fb fa && compare_nodes_zip ab aa)
    rw [compare_nodes_symm fa fb, compare_nodes_zip_symm aa ab]
  case Attribute.Attribute i va na j vb nb =>
    show (compare_nodes va vb && na == nb) = (compare_nodes vb va && nb == na)
    rw [compare_nodes_symm va vb, beq_symm_lawful na nb]
  case Subscript.Subscript i va sa j vb sb =>
    show (compare_nodes va vb && compare_nodes sa sb) =
      (compare_nodes vb va && compare_nodes sb sa)
    rw [compare_nodes_symm va vb, compare_nodes_symm sa sb]
  case Index.Index i va j vb => exact compare_nodes_symm va vb
  case Assign.Assign i ta va j tb vb =>
    show (compare_nodes ta tb && compare_nodes va vb) =
      (compare_nodes tb ta && compare_nodes vb va)
    rw [compare_nodes_symm ta tb, compare_nodes_symm va vb]
  case AugAssign.AugAssign i opa ta va j opb tb vb =>
    show (opa == opb && compare_nodes ta tb && compare_nodes va vb) =
      (opb == opa && compare_nodes tb ta && compare_nodes vb va)
    rw [beq_symm_lawful opa opb, compare_nodes_symm ta tb, compare_nodes_symm va vb]
  case AnnAssign.AnnAssign i ta aa va j tb ab vb =>
    show (compare_nodes ta tb && compare_nodes aa ab && compare_nodes_opt va vb) =
      (compare_nodes tb ta && compare_nodes ab aa && compare_nodes_opt vb va)
    rw [compare_nodes_symm ta tb, compare_nodes_symm aa ab, compare_nodes_opt_symm va vb]
  case Expr.Expr i va j vb => exact compare_nodes_symm va vb
  case Module.Module i ba j bb => exact compare_nodes_zip_symm ba bb
termination_by sizeOf a

theorem compare_nodes_opt_symm (va vb : Option VNode) :
    compare_nodes_opt va vb = compare_nodes_opt vb va := by
  cases va <;> cases vb <;> try rfl
  case some.some x y =>
    show compare_nodes x y = compare_nodes y x
    exact compare_nodes_symm x y
termination_by sizeOf va

theorem compare_nodes_zip_symm (xs ys : List VNode) :
    compare_nodes_zip xs ys = compare_nodes_zip ys xs := by
  cases xs with
  | nil => cases ys <;> rfl
  | cons x xs =>
    cases ys with
    | nil => rfl
    | cons y ys =>
      show (compare_nodes x y && compare_nodes_zip xs ys) =
        (compare_nodes y x && compare_nodes_zip ys xs)
      rw [compare_nodes_symm x y, compare_nodes_zip_symm xs ys]
termination_by sizeOf xs

end

/-- When two nodes are structurally equal, their classes agree (the
necessary half of the variant condition). -/
theorem compare_nodes_tag (a b : VNode) (h : compare_nodes a b = true) :
    tagOf a = tagOf b := by
  cases a <;> cases b <;> first | rfl | exact Bool.noConfusion h

/-- `compare_nodes` ignores the nodes' identities: rewriting either
node_id leaves the result unchanged. -/
theorem compare_nodes_ignores_ids (k : Nat) (a b : VNode) :
    compare_nodes (setNodeId k a) b = compare_nodes a b ∧
    compare_nodes a (setNodeId k b) = compare_nodes a b := by
  constructor
  · cases a <;> cases b <;> rfl
  · cases a <;> cases b <;> rfl

/-- C9 counterexample: two `List` nodes whose `elts` fields have
different lengths are reported structurally equal, because the `zip` in
`compare_nodes` truncates at the shorter list. -/
theorem compare_nodes_list_length_cex :
    compare_nodes (.List 0 [.Int 1 1]) (.List 2 [.Int 3 1, .Int 4 2]) = true := rfl

/-- C9 as amended: `compare_nodes` returns true only for nodes of
identical variant, ignores node identity entirely, and is symmetric; but
list-valued fields are compared elementwise only up to the shorter
list (`zip` truncation), so two nodes whose list fields have different
lengths can still be structurally equal. -/
theorem compare_nodes_loose_equality :
    (∀ a b : VNode, compare_nodes a b = compare_nodes b a) ∧
    (∀ a b : VNode, compare_nodes a b = true → tagOf a = tagOf b) ∧
    (∀ (k : Nat) (a b : VNode),
      compare_nodes (setNodeId k a) b = compare_nodes a b ∧
      compare_nodes a (setNodeId k b) = compare_nodes a b) ∧
    (∀ (i j : Nat) (x : VNode) (xs : List VNode),
      compare_nodes x x = true →
      compare_nodes (.List i [x]) (.List j (x :: xs)) = true) := by
  refine ⟨compare_nodes_symm, compare_nodes_tag, compare_nodes_ignores_ids, ?_⟩
  intro i j x xs hx
  show (compare_nodes x x && compare_nodes_zip [] xs) = true
  rw [hx]
  cases xs <;> rfl

/-- Witness for C9: the amended theorem applied at concrete nodes,
including the truncation clause at `[1]` versus `[1, 2]`. -/
theorem compare_nodes_loose_equality_witness :
    compare_nodes (.Int 1 5) (.Int 2 5) = compare_nodes (.Int 2 5) (.Int 1 5) ∧
    compare_nodes (.List 0 [.Int 1 1]) (.List 2 [.Int 1 1, .Int 4 2]) = true := by
  refine ⟨compare_nodes_loose_equality.1 _ _, ?_⟩
  exact compare_nodes_loose_equality.2.2.2 0 2 (.Int 1 1) [.Int 4 2] (by rfl)

/-! ### C4: unfoldable constant initializers -/

mutual

theorem replaceConstantNode_bad_skips (id_ : String) (repl : Option VNode)
    (hbad : ∀ k, replaceCopyOpt k repl = .error (.unfoldable "")) :
    (n : VNode) → (ctx : SubstCtx) → replaceConstantNode id_ repl false n ctx = .ok (n, 0)
  | .Int i v, _ => rfl
  | .Decimal i v, _ => rfl
  | .Hex i v, _ => rfl
  | .Str i v, _ => rfl
  | .Bytes i v, _ => rfl
  | .NameConstant i v, _ => rfl
  | .Name i nm, ctx => by
    simp only [replaceConstantNode, replaceNameOccurrence]
    by_cases h1 : nm = id_
    · rw [if_pos h1]
      by_cases h2 : ctx.skipDirect
      · rw [if_pos h2]
      · rw [if_neg h2]
        by_cases h3 : ¬ ctx.parentIsIndex ∧ ctx.inAssignTarget
        · rw [if_pos h3]
        · rw [if_neg h3, hbad i]
          rfl
    · rw [if_neg h1]
  | .List i elts, ctx => by
    simp only [replaceConstantNode]
    rw [replaceConstantList_bad_skips id_ repl hbad elts ctx.step]
    rfl
  | .Dict i keys values, ctx => by
    simp only [replaceConstantNode]
    rw [replaceConstantList_bad_skips id_ repl hbad keys ctx.skip,
      replaceConstantList_bad_skips id_ repl hbad values ctx.step]
    rfl
  | .UnaryOp i op operand, ctx => by
    simp only [replaceConstantNode]
    rw [replaceConstantNode_bad_skips id_ repl hbad operand ctx.step]
    rfl
  | .BinOp i left op right, ctx => by
    simp only [replaceConstantNode]
    rw [replaceConstantNode_bad_skips id_ repl hbad left ctx.step,
      replaceConstantNode_bad_skips id_ repl hbad right ctx.step]
    rfl
  | .BoolOp i op values, ctx => by
    simp only [replaceConstantNode]
    rw [replaceConstantList_bad_skips id_ repl hbad values ctx.step]
    rfl
  | .Compare i left op right, ctx => by
    simp only [replaceConstantNode]
    rw [replaceConstantNode_bad_skips id_ repl hbad left ctx.step,
      replaceConstantNode_bad_skips id_ repl hbad right ctx.step]
    rfl
  | .Call i func args, ctx => by
    simp only [replaceConstantNode]
    rw [replaceConstantNode_bad_skips id_ repl hbad func ctx.skip,
      replaceConstantList_bad_skips id_ repl hbad args ctx.step]
    rfl
  | .Attribute i value attr, ctx => by
    simp only [replaceConstantNode]
    rw [replaceConstantNode_bad_skips id_ repl hbad value ctx.skip]
    rfl
  | .Subscript i value slice, ctx => by
    simp only [replaceConstantNode]
    rw [replaceConstantNode_bad_skips id_ repl hbad value ctx.step,
      replaceConstantNode_bad_skips id_ repl hbad slice ctx.step]
    rfl
  | .Index i value, ctx => by
    simp only [replaceConstantNode]
    rw [replaceConstantNode_bad_skips id_ repl hbad value ctx.index]
    rfl
  | .Assign i target value, ctx => by
    simp only [replaceConstantNode]
    rw [replaceConstantNode_bad_skips id_ repl hbad target SubstCtx.target,
      replaceConstantNode_bad_skips id_ repl hbad value SubstCtx.value]
    rfl
  | .AugAssign i op target value, ctx => by
    simp only [replaceConstantNode]
    rw [replaceConstantNode_bad_skips id_ repl hbad target SubstCtx.target,
      replaceConstantNode_bad_skips id_ repl hbad value SubstCtx.value]
    rfl
  | .AnnAssign i target annotation (some v), ctx => by
    simp only [replaceConstantNode]
    rw [replaceConstantNode_bad_skips id_ repl hbad target SubstCtx.target,
      replaceConstantNode_bad_skips id_ repl hbad annotation SubstCtx.value,
      replaceConstantNode_bad_skips id_ repl hbad v SubstCtx.value]
    rfl
  | .AnnAssign i target annotation none, ctx => by
    simp only [replaceConstantNode]
    rw [replaceConstantNode_bad_skips id_ repl hbad target SubstCtx.target,
      replaceConstantNode_bad_skips id_ repl hbad annotation SubstCtx.value]
    rfl
  | .Expr i value, ctx => by
    simp only [replaceConstantNode]
    rw [replaceConstantNode_bad_skips id_ repl hbad value ctx.step]
    rfl
  | .Module i body, ctx => by
    simp only [replaceConstantNode]
    rw [replaceConstantList_bad_skips id_ repl hbad body ctx.step]
    rfl

theorem replaceConstantList_bad_skips (id_ : String) (repl : Option VNode)
    (hbad : ∀ k, replaceCopyOpt k repl = .error (.unfoldable "")) :
    (xs : List VNode) → (ctx : SubstCtx) → replaceConstantList id_ repl false xs ctx = .ok (xs, 0)
  | [], _ => rfl
  | x :: xs, ctx => by
    simp only [replaceConstantList]
    rw [replaceConstantNode_bad_skips id_ repl hbad x ctx,
      replaceConstantList_bad_skips id_ repl hbad xs ctx]
    rfl

end

/-- C4 counterexample: a module whose constant declaration has an
unfoldable initializer (`X: constant(int128) = foo.bar`, an attribute,
neither a literal scalar nor a literal sequence) together with a
reference to `X`.  The user-defined-constant pass returns successfully
with zero substitutions, and the whole folding driver returns the module
unchanged: no "constant initializer could not be folded" error is
raised. -/
theorem unfoldable_constant_initializer_not_an_error_cex :
    replace_user_defined_constants (.Module 0
      [.AnnAssign 1 (.Name 2 "X") (.Call 3 (.Name 4 "constant") [.Name 5 "int128"])
        (some (.Attribute 6 (.Name 7 "foo") "bar")),
       .Expr 8 (.Name 9 "X")]) =
      .ok (.Module 0
        [.AnnAssign 1 (.Name 2 "X") (.Call 3 (.Name 4 "constant") [.Name 5 "int128"])
          (some (.Attribute 6 (.Name 7 "foo") "bar")),
         .Expr 8 (.Name 9 "X")], 0) ∧
    fold noDispatch (.Module 0
      [.AnnAssign 1 (.Name 2 "X") (.Call 3 (.Name 4 "constant") [.Name 5 "int128"])
        (some (.Attribute 6 (.Name 7 "foo") "bar")),
       .Expr 8 (.Name 9 "X")]) =
      .ok (some (.Module 0
        [.AnnAssign 1 (.Name 2 "X") (.Call 3 (.Name 4 "constant") [.Name 5 "int128"])
          (some (.Attribute 6 (.Name 7 "foo") "bar")),
         .Expr 8 (.Name 9 "X")])) := ⟨rfl, rfl⟩

/-- C4 as amended: a constant whose replacement value cannot be copied by
`_replace` (it is neither a literal scalar nor a literal-reducible
sequence, so `_replace` raises `UnfoldableNode` for any occurrence) is
skipped silently by user-defined-constant substitution, which passes
`raise_on_error=False`: every matching reference is left in place, zero
substitutions are reported, and no error propagates. -/
theorem replace_constant_unfoldable_value_skips (m : VNode) (id_ : String)
    (repl : Option VNode)
    (hbad : ∀ k, replaceCopyOpt k repl = .error (.unfoldable "")) :
    replace_constant m id_ repl false = .ok (m, 0) :=
  replaceConstantNode_bad_skips id_ repl hbad m SubstCtx.root

/-- Witness for C4: the amended theorem applied to a concrete module and
a concrete attribute-shaped replacement value. -/
theorem replace_constant_unfoldable_value_skips_witness :
    replace_constant (.Module 0 [.Expr 8 (.Name 9 "X")]) "X"
      (some (.Attribute 6 (.Name 7 "foo") "bar")) false =
      .ok (.Module 0 [.Expr 8 (.Name 9 "X")], 0) :=
  replace_constant_unfoldable_value_skips _ "X" _ (fun k => rfl)

/-! ### C5 (counterexample part): synthesized literals share ids -/

/-- C5 counterexample: folding the constant list `FOO: constant(...) =
[1, 2]` into the reference `FOO` (node_id 10) produces, by `_replace`
calling `from_node` on the replaced `Name` for the list copy and for
every element copy, three distinct live nodes — the `List` and both
`Int` elements — all carrying node_id 10. -/
theorem synthesized_literals_share_ids_cex :
    replace_user_defined_constants (.Module 0
      [.AnnAssign 1 (.Name 2 "FOO") (.Call 3 (.Name 4 "constant") [.Name 5 "int128"])
        (some (.List 6 [.Int 7 1, .Int 8 2])),
       .Expr 9 (.Name 10 "FOO")]) =
      .ok (.Module 0
        [.AnnAssign 1 (.Name 2 "FOO") (.Call 3 (.Name 4 "constant") [.Name 5 "int128"])
          (some (.List 6 [.Int 7 1, .Int 8 2])),
         .Expr 9 (.List 10 [.Int 10 1, .Int 10 2])], 1) ∧
    countNodesWithId 10 (.Module 0
      [.AnnAssign 1 (.Name 2 "FOO") (.Call 3 (.Name 4 "constant") [.Name 5 "int128"])
        (some (.List 6 [.Int 7 1, .Int 8 2])),
       .Expr 9 (.List 10 [.Int 10 1, .Int 10 2])]) = 3 := ⟨rfl, rfl⟩

/-! ### C7: constant substitution skip rules -/

/-- C7: the skip rules of `replace_constant`.  For a substitutable
replacement value (one `_replace` can copy), a matching name used as an
attribute base, as the callee of a call, as a dictionary key, or as (part
of) the target of a plain, augmented or annotated assignment is left
untouched, while matching names in call arguments, dictionary values,
right-hand sides, and names sitting directly inside an index wrapper of
an assignment target are substituted with the `_replace` copy (which
carries the replaced name's id). -/
theorem constant_substitution_skip_rules
    (id_ arr : String) (harr : arr ≠ id_) (repl : VNode) (wc : Nat → VNode)
    (hrepl : ∀ k, replaceCopy k repl = .ok (wc k)) :
    (∀ (i j : Nat) (a : String),
      replaceConstantNode id_ (some repl) false
          (.Attribute i (.Name j id_) a) SubstCtx.root =
        .ok (.Attribute i (.Name j id_) a, 0)) ∧
    (∀ i j l : Nat,
      replaceConstantNode id_ (some repl) false
          (.Call i (.Name j id_) [.Name l id_]) SubstCtx.root =
        .ok (.Call i (.Name j id_) [wc l], 1)) ∧
    (∀ i a b : Nat,
      replaceConstantNode id_ (some repl) false
          (.Dict i [.Name a id_] [.Name b id_]) SubstCtx.root =
        .ok (.Dict i [.Name a id_] [wc b], 1)) ∧
    (∀ i a b : Nat,
      replaceConstantNode id_ (some repl) false
          (.Assign i (.Name a id_) (.Name b id_)) SubstCtx.root =
        .ok (.Assign i (.Name a id_) (wc b), 1)) ∧
    (∀ (i a b : Nat) (op : Operator),
      replaceConstantNode id_ (some repl) false
          (.AugAssign i op (.Name a id_) (.Name b id_)) SubstCtx.root =
        .ok (.AugAssign i op (.Name a id_) (wc b), 1)) ∧
    (∀ i a ann b : Nat,
      replaceConstantNode id_ (some repl) false
          (.AnnAssign i (.Name a id_) (.Name ann arr) (some (.Name b id_))) SubstCtx.root =
        .ok (.AnnAssign i (.Name a id_) (.Name ann arr) (some (wc b)), 1)) ∧
    (∀ (i sid x ix l v : Nat),
      replaceConstantNode id_ (some repl) false
          (.Assign i (.Subscript sid (.Name x arr) (.Index ix (.Name l id_)))
            (.Int v 2)) SubstCtx.root =
        .ok (.Assign i (.Subscript sid (.Name x arr) (.Index ix (wc l)))
          (.Int v 2), 1)) ∧
    (∀ i a : Nat,
      replaceConstantNode id_ (some repl) false (.Expr i (.Name a id_)) SubstCtx.root =
        .ok (.Expr i (wc a), 1)) := by
  refine ⟨?_, ?_, ?_, ?_, ?_, ?_, ?_, ?_⟩ <;>
    intro i <;>
    simp [replaceConstantNode, replaceConstantList, replaceNameOccurrence,
      replaceCopyOpt, SubstCtx.root, SubstCtx.step, SubstCtx.skip, SubstCtx.index,
      SubstCtx.target, SubstCtx.value, Except.bind, hrepl, harr]

/-- Witness for C7: the theorem applied with `LIMIT: constant = 5`, at a
call `LIMIT(LIMIT)` (callee kept, argument substituted) and at
`a[LIMIT] = 2` (the name inside the index wrapper on the left-hand side
is substituted). -/
theorem constant_substitution_skip_rules_witness :
    replaceConstantNode "LIMIT" (some (.Int 99 5)) false
        (.Call 1 (.Name 2 "LIMIT") [.Name 3 "LIMIT"]) SubstCtx.root =
      .ok (.Call 1 (.Name 2 "LIMIT") [.Int 3 5], 1) ∧
    replaceConstantNode "LIMIT" (some (.Int 99 5)) false
        (.Assign 4 (.Subscript 5 (.Name 6 "a") (.Index 7 (.Name 8 "LIMIT")))
          (.Int 9 2)) SubstCtx.root =
      .ok (.Assign 4 (.Subscript 5 (.Name 6 "a") (.Index 7 (.Int 8 5)))
        (.Int 9 2), 1) := by
  obtain ⟨h1, h2, h3, h4, h5, h6, h7, h8⟩ :=
    constant_substitution_skip_rules "LIMIT" "a" (by decide) (.Int 99 5)
      (fun k => .Int k 5) (fun k => rfl)
  exact ⟨h2 1 2 3, h7 4 5 6 7 8 9⟩

/-! ### C2: termination and idempotence machinery -/

theorem bind_ok {α β : Type} (r : Except SriErr α) (k : α → Except SriErr β) (b : β)
    (h : Except.bind r k = .ok b) : ∃ a, r = .ok a ∧ k a = .ok b := by
  cases r with
  | ok a => exact ⟨a, rfl, h⟩
  | error e => exact absurd h (by simp [Except.bind])

theorem applyAct_inv (act : VNode → Except SriErr (Option VNode)) (n : VNode) (c : Nat)
    (n2 : VNode) (c2 : Nat) (h : applyAct act n c = .ok (n2, c2)) :
    (act n = .ok (some n2) ∧ c2 = c + 1) ∨ (act n = .ok none ∧ n2 = n ∧ c2 = c) := by
  cases hact : act n with
  | ok o =>
    cases o with
    | some r =>
      have h2 : applyAct act n c = .ok (r, c + 1) := by
        simp [applyAct, hact]
      rw [h2] at h
      simp only [Except.ok.injEq, Prod.mk.injEq] at h
      exact Or.inl ⟨by rw [h.1], h.2.symm⟩
    | none =>
      have h2 : applyAct act n c = .ok (n, c) := by
        simp [applyAct, hact]
      rw [h2] at h
      simp only [Except.ok.injEq, Prod.mk.injEq] at h
      exact Or.inr ⟨rfl, h.1.symm, h.2.symm⟩
  | error e =>
    have h2 : applyAct act n c = .error e := by
      simp [applyAct, hact]
    rw [h2] at h
    exact absurd h (by simp)

theorem isConstantNode_candCount (n : VNode) (h : isConstantNode n = true) :
    candCount n = 0 := by
  cases n <;> first | rfl | exact absurd h (by simp [isConstantNode])

theorem candCount_mem_le (x : VNode) : (xs : List VNode) → x ∈ xs →
    candCount x ≤ candCountList xs
  | [], hx => absurd hx (by simp)
  | y :: ys, hx => by
    rcases List.mem_cons.mp hx with h | h
    · subst h
      simp only [candCountList]
      omega
    · have := candCount_mem_le x ys h
      simp only [candCountList]
      omega

theorem UnaryOp_evaluate_candCount (nid : Nat) (op : UnaryOperator) (operand r : VNode)
    (h : UnaryOp_evaluate nid op operand = .ok r) : candCount r = 0 := by
  unfold UnaryOp_evaluate at h
  repeat' split at h
  all_goals first
    | (simp only [Except.ok.injEq] at h; subst h; rfl)
    | simp_all

theorem BinOp_evaluate_candCount (nid : Nat) (left : VNode) (op : Operator) (right r : VNode)
    (h : BinOp_evaluate nid left op right = .ok r) : candCount r = 0 := by
  unfold BinOp_evaluate at h
  repeat' split at h
  all_goals first
    | (simp only [Except.ok.injEq] at h; subst h; rfl)
    | simp_all

theorem BoolOp_evaluate_candCount (nid : Nat) (op : BoolOperator) (values : List VNode)
    (r : VNode) (h : BoolOp_evaluate nid op values = .ok r) : candCount r = 0 := by
  unfold BoolOp_evaluate at h
  repeat' split at h
  all_goals first
    | (simp only [Except.ok.injEq] at h; subst h; rfl)
    | simp_all

theorem Compare_evaluate_candCount (nid : Nat) (left : VNode) (op : CmpOperator)
    (right r : VNode) (h : Compare_evaluate nid left op right = .ok r) : candCount r = 0 := by
  unfold Compare_evaluate at h
  repeat' split at h
  all_goals first
    | (simp only [Except.ok.injEq] at h; subst h; rfl)
    | simp_all

theorem Subscript_evaluate_candCount (value slice r : VNode)
    (h : Subscript_evaluate value slice = .ok r) : candCount r ≤ candCount value := by
  cases value
  case List nid elts =>
    by_cases hsame : allSameTag elts
    · cases hidx : sliceIndexValue slice with
      | some idx =>
        by_cases hb : 0 ≤ idx ∧ idx.toNat < elts.length
        · have h2 : Subscript_evaluate (.List nid elts) slice =
              .ok (elts.get (Fin.mk idx.toNat hb.2)) := by
            unfold Subscript_evaluate
            rw [hidx]
            simp [hsame, hb]
          rw [h2] at h
          simp only [Except.ok.injEq] at h
          subst h
          exact candCount_mem_le _ _ (List.get_mem elts _ hb.2)
        · have h2 : Subscript_evaluate (.List nid elts) slice =
              .error (.unfoldable "Invalid index value") := by
            unfold Subscript_evaluate
            rw [hidx]
            simp [hsame, hb]
          rw [h2] at h
          exact absurd h (by simp)
      | none =>
        have h2 : Subscript_evaluate (.List nid elts) slice =
            .error (.unfoldable "Invalid index value") := by
          unfold Subscript_evaluate
          rw [hidx]
          simp [hsame]
        rw [h2] at h
        exact absurd h (by simp)
    · have h2 : Subscript_evaluate (.List nid elts) slice =
          .error (.unfoldable "List contains multiple node types") := by
        unfold Subscript_evaluate
        simp [hsame]
      rw [h2] at h
      exact absurd h (by simp)
  all_goals exact absurd h (by simp [Subscript_evaluate])

theorem tryCatchUnfoldable_some (r : Except SriErr VNode) (v : VNode)
    (h : tryCatchUnfoldable r = .ok (some v)) : r = .ok v := by
  unfold tryCatchUnfoldable at h
  repeat' split at h
  all_goals simp_all

theorem actLiteralOps_bound (n r : VNode) (h : actLiteralOps n = .ok (some r)) :
    candCount r + 1 ≤ candCount n := by
  cases n
  case UnaryOp i op operand =>
    have hev : UnaryOp_evaluate i op operand = .ok r := tryCatchUnfoldable_some _ _ h
    have h0 := UnaryOp_evaluate_candCount i op operand r hev
    simp only [candCount]
    omega
  case BinOp i left op right =>
    have hev : BinOp_evaluate i left op right = .ok r := tryCatchUnfoldable_some _ _ h
    have h0 := BinOp_evaluate_candCount i left op right r hev
    simp only [candCount]
    omega
  case BoolOp i op values =>
    have hev : BoolOp_evaluate i op values = .ok r := tryCatchUnfoldable_some _ _ h
    have h0 := BoolOp_evaluate_candCount i op values r hev
    simp only [candCount]
    omega
  case Compare i left op right =>
    have hev : Compare_evaluate i left op right = .ok r := tryCatchUnfoldable_some _ _ h
    have h0 := Compare_evaluate_candCount i left op right r hev
    simp only [candCount]
    omega
  all_goals exact absurd h (by simp [actLiteralOps, isOpTarget])

theorem actSubscripts_bound (n r : VNode) (h : actSubscripts n = .ok (some r)) :
    candCount r + 1 ≤ candCount n := by
  cases n
  case Subscript i v sl =>
    have hev : Subscript_evaluate v sl = .ok r := tryCatchUnfoldable_some _ _ h
    have h0 : candCount r ≤ candCount v := Subscript_evaluate_candCount v sl r hev
    simp only [candCount]
    omega
  all_goals exact absurd h (by simp [actSubscripts])

theorem actBuiltinFunctions_bound (dispatch : Dispatch)
    (hD : ∀ s f, dispatch s = some f → ∀ n r, f n = .ok r → candCount r = 0)
    (n r : VNode) (h : actBuiltinFunctions dispatch n = .ok (some r)) :
    candCount r + 1 ≤ candCount n := by
  cases n
  case Call i func args =>
    cases func
    case Name j fname =>
      cases hf : dispatch fname with
      | some f =>
        have h2 : actBuiltinFunctions dispatch (.Call i (.Name j fname) args) =
            tryCatchUnfoldable (f (.Call i (.Name j fname) args)) := by
          simp [actBuiltinFunctions, hf]
        rw [h2] at h
        have hev := tryCatchUnfoldable_some _ _ h
        have h0 := hD fname f hf _ r hev
        simp only [candCount]
        omega
      | none =>
        have h2 : actBuiltinFunctions dispatch (.Call i (.Name j fname) args) =
            .ok none := by
          simp [actBuiltinFunctions, hf]
        rw [h2] at h
        exact absurd h (by simp)
    all_goals exact absurd h (by simp [actBuiltinFunctions])
  all_goals exact absurd h (by simp [actBuiltinFunctions])

theorem applyAct_bound (act : VNode → Except SriErr (Option VNode))
    (hact : ∀ n r, act n = .ok (some r) → candCount r + 1 ≤ candCount n)
    (n : VNode) (c : Nat) (n2 : VNode) (c2 : Nat)
    (h : applyAct act n c = .ok (n2, c2)) :
    candCount n2 + c2 ≤ candCount n + c ∧ (c2 = c → n2 = n) ∧ c ≤ c2 := by
  rcases applyAct_inv act n c n2 c2 h with ⟨ha, hc⟩ | ⟨ha, hn, hc⟩
  · have h0 := hact n n2 ha
    subst hc
    exact ⟨by omega, fun h1 => absurd h1 (by omega), by omega⟩
  · subst hn
    subst hc
    exact ⟨le_refl _, fun _ => rfl, le_refl _⟩

mutual

theorem bottomUp_bound (act : VNode → Except SriErr (Option VNode))
    (hact : ∀ n r, act n = .ok (some r) → candCount r + 1 ≤ candCount n) :
    (n : VNode) → ∀ n2 c, bottomUp act n = .ok (n2, c) →
      candCount n2 + c ≤ candCount n ∧ (c = 0 → n2 = n)
  | .Int i v => by
    intro n2 c h
    simp only [bottomUp] at h
    obtain ⟨hc1, hc2, hc3⟩ := applyAct_bound act hact _ _ _ _ h
    exact ⟨by omega, hc2⟩
  | .Decimal i v => by
    intro n2 c h
    simp only [bottomUp] at h
    obtain ⟨hc1, hc2, hc3⟩ := applyAct_bound act hact _ _ _ _ h
    exact ⟨by omega, hc2⟩
  | .Hex i v => by
    intro n2 c h
    simp only [bottomUp] at h
    obtain ⟨hc1, hc2, hc3⟩ := applyAct_bound act hact _ _ _ _ h
    exact ⟨by omega, hc2⟩
  | .Str i v => by
    intro n2 c h
    simp only [bottomUp] at h
    obtain ⟨hc1, hc2, hc3⟩ := applyAct_bound act hact _ _ _ _ h
    exact ⟨by omega, hc2⟩
  | .Bytes i v => by
    intro n2 c h
    simp only [bottomUp] at h
    obtain ⟨hc1, hc2, hc3⟩ := applyAct_bound act hact _ _ _ _ h
    exact ⟨by omega, hc2⟩
  | .NameConstant i v => by
    intro n2 c h
    simp only [bottomUp] at h
    obtain ⟨hc1, hc2, hc3⟩ := applyAct_bound act hact _ _ _ _ h
    exact ⟨by omega, hc2⟩
  | .Name i v => by
    intro n2 c h
    simp only [bottomUp] at h
    obtain ⟨hc1, hc2, hc3⟩ := applyAct_bound act hact _ _ _ _ h
    exact ⟨by omega, hc2⟩
  | .List i elts => by
    intro n2 c h
    simp only [bottomUp] at h
    obtain ⟨p1, h1, h⟩ := bind_ok _ _ _ h
    obtain ⟨ha1, ha2⟩ := bottomUpList_bound act hact elts p1.1 p1.2 h1
    obtain ⟨hc1, hc2, hc3⟩ := applyAct_bound act hact _ _ _ _ h
    simp only [candCount] at hc1 ⊢
    refine ⟨by omega, fun h0 => ?_⟩
    rw [ha2 (by omega)] at hc2
    exact hc2 (by omega)
  | .Dict i keys values => by
    intro n2 c h
    simp only [bottomUp] at h
    obtain ⟨p1, h1, h⟩ := bind_ok _ _ _ h
    obtain ⟨p2, h2, h⟩ := bind_ok _ _ _ h
    obtain ⟨ha1, ha2⟩ := bottomUpList_bound act hact keys p1.1 p1.2 h1
    obtain ⟨hb1, hb2⟩ := bottomUpList_bound act hact values p2.1 p2.2 h2
    obtain ⟨hc1, hc2, hc3⟩ := applyAct_bound act hact _ _ _ _ h
    simp only [candCount] at hc1 ⊢
    refine ⟨by omega, fun h0 => ?_⟩
    rw [ha2 (by omega), hb2 (by omega)] at hc2
    exact hc2 (by omega)
  | .UnaryOp i op operand => by
    intro n2 c h
    simp only [bottomUp] at h
    obtain ⟨p1, h1, h⟩ := bind_ok _ _ _ h
    obtain ⟨ha1, ha2⟩ := bottomUp_bound act hact operand p1.1 p1.2 h1
    obtain ⟨hc1, hc2, hc3⟩ := applyAct_bound act hact _ _ _ _ h
    simp only [candCount] at hc1 ⊢
    refine ⟨by omega, fun h0 => ?_⟩
    rw [ha2 (by omega)] at hc2
    exact hc2 (by omega)
  | .BinOp i left op right => by
    intro n2 c h
    simp only [bottomUp] at h
    obtain ⟨p1, h1, h⟩ := bind_ok _ _ _ h
    obtain ⟨p2, h2, h⟩ := bind_ok _ _ _ h
    obtain ⟨ha1, ha2⟩ := bottomUp_bound act hact left p1.1 p1.2 h1
    obtain ⟨hb1, hb2⟩ := bottomUp_bound act hact right p2.1 p2.2 h2
    obtain ⟨hc1, hc2, hc3⟩ := applyAct_bound act hact _ _ _ _ h
    simp only [candCount] at hc1 ⊢
    refine ⟨by omega, fun h0 => ?_⟩
    rw [ha2 (by omega), hb2 (by omega)] at hc2
    exact hc2 (by omega)
  | .BoolOp i op values => by
    intro n2 c h
    simp only [bottomUp] at h
    obtain ⟨p1, h1, h⟩ := bind_ok _ _ _ h
    obtain ⟨ha1, ha2⟩ := bottomUpList_bound act hact values p1.1 p1.2 h1
    obtain ⟨hc1, hc2, hc3⟩ := applyAct_bound act hact _ _ _ _ h
    simp only [candCount] at hc1 ⊢
    refine ⟨by omega, fun h0 => ?_⟩
    rw [ha2 (by omega)] at hc2
    exact hc2 (by omega)
  | .Compare i left op right => by
    intro n2 c h
    simp only [bottomUp] at h
    obtain ⟨p1, h1, h⟩ := bind_ok _ _ _ h
    obtain ⟨p2, h2, h⟩ := bind_ok _ _ _ h
    obtain ⟨ha1, ha2⟩ := bottomUp_bound act hact left p1.1 p1.2 h1
    obtain ⟨hb1, hb2⟩ := bottomUp_bound act hact right p2.1 p2.2 h2
    obtain ⟨hc1, hc2, hc3⟩ := applyAct_bound act hact _ _ _ _ h
    simp only [candCount] at hc1 ⊢
    refine ⟨by omega, fun h0 => ?_⟩
    rw [ha2 (by omega), hb2 (by omega)] at hc2
    exact hc2 (by omega)
  | .Call i func args => by
    intro n2 c h
    simp only [bottomUp] at h
    obtain ⟨p1, h1, h⟩ := bind_ok _ _ _ h
    obtain ⟨p2, h2, h⟩ := bind_ok _ _ _ h
    obtain ⟨ha1, ha2⟩ := bottomUp_bound act hact func p1.1 p1.2 h1
    obtain ⟨hb1, hb2⟩ := bottomUpList_bound act hact args p2.1 p2.2 h2
    obtain ⟨hc1, hc2, hc3⟩ := applyAct_bound act hact _ _ _ _ h
    simp only [candCount] at hc1 ⊢
    refine ⟨by omega, fun h0 => ?_⟩
    rw [ha2 (by omega), hb2 (by omega)] at hc2
    exact hc2 (by omega)
  | .Attribute i value attr => by
    intro n2 c h
    simp only [bottomUp] at h
    obtain ⟨p1, h1, h⟩ := bind_ok _ _ _ h
    obtain ⟨ha1, ha2⟩ := bottomUp_bound act hact value p1.1 p1.2 h1
    obtain ⟨hc1, hc2, hc3⟩ := applyAct_bound act hact _ _ _ _ h
    simp only [candCount] at hc1 ⊢
    refine ⟨by omega, fun h0 => ?_⟩
    rw [ha2 (by omega)] at hc2
    exact hc2 (by omega)
  | .Subscript i value slice => by
    intro n2 c h
    simp only [bottomUp] at h
    obtain ⟨p1, h1, h⟩ := bind_ok _ _ _ h
    obtain ⟨p2, h2, h⟩ := bind_ok _ _ _ h
    obtain ⟨ha1, ha2⟩ := bottomUp_bound act hact value p1.1 p1.2 h1
    obtain ⟨hb1, hb2⟩ := bottomUp_bound act hact slice p2.1 p2.2 h2
    obtain ⟨hc1, hc2, hc3⟩ := applyAct_bound act hact _ _ _ _ h
    simp only [candCount] at hc1 ⊢
    refine ⟨by omega, fun h0 => ?_⟩
    rw [ha2 (by omega), hb2 (by omega)] at hc2
    exact hc2 (by omega)
  | .Index i value => by
    intro n2 c h
    simp only [bottomUp] at h
    obtain ⟨p1, h1, h⟩ := bind_ok _ _ _ h
    obtain ⟨ha1, ha2⟩ := bottomUp_bound act hact value p1.1 p1.2 h1
    obtain ⟨hc1, hc2, hc3⟩ := applyAct_bound act hact _ _ _ _ h
    simp only [candCount] at hc1 ⊢
    refine ⟨by omega, fun h0 => ?_⟩
    rw [ha2 (by omega)] at hc2
    exact hc2 (by omega)
  | .Assign i target value => by
    intro n2 c h
    simp only [bottomUp] at h
    obtain ⟨p1, h1, h⟩ := bind_ok _ _ _ h
    obtain ⟨p2, h2, h⟩ := bind_ok _ _ _ h
    obtain ⟨ha1, ha2⟩ := bottomUp_bound act hact target p1.1 p1.2 h1
    obtain ⟨hb1, hb2⟩ := bottomUp_bound act hact value p2.1 p2.2 h2
    obtain ⟨hc1, hc2, hc3⟩ := applyAct_bound act hact _ _ _ _ h
    simp only [candCount] at hc1 ⊢
    refine ⟨by omega, fun h0 => ?_⟩
    rw [ha2 (by omega), hb2 (by omega)] at hc2
    exact hc2 (by omega)
  | .AugAssign i op target value => by
    intro n2 c h
    simp only [bottomUp] at h
    obtain ⟨p1, h1, h⟩ := bind_ok _ _ _ h
    obtain ⟨p2, h2, h⟩ := bind_ok _ _ _ h
    obtain ⟨ha1, ha2⟩ := bottomUp_bound act hact target p1.1 p1.2 h1
    obtain ⟨hb1, hb2⟩ := bottomUp_bound act hact value p2.1 p2.2 h2
    obtain ⟨hc1, hc2, hc3⟩ := applyAct_bound act hact _ _ _ _ h
    simp only [candCount] at hc1 ⊢
    refine ⟨by omega, fun h0 => ?_⟩
    rw [ha2 (by omega), hb2 (by omega)] at hc2
    exact hc2 (by omega)
  | .AnnAssign i target annotation (some v) => by
    intro n2 c h
    simp only [bottomUp] at h
    obtain ⟨p1, h1, h⟩ := bind_ok _ _ _ h
    obtain ⟨p2, h2, h⟩ := bind_ok _ _ _ h
    obtain ⟨p3, h3, h⟩ := bind_ok _ _ _ h
    obtain ⟨ha1, ha2⟩ := bottomUp_bound act hact target p1.1 p1.2 h1
    obtain ⟨hb1, hb2⟩ := bottomUp_bound act hact annotation p2.1 p2.2 h2
    obtain ⟨hd1, hd2⟩ := bottomUp_bound act hact v p3.1 p3.2 h3
    obtain ⟨hc1, hc2, hc3⟩ := applyAct_bound act hact _ _ _ _ h
    simp only [candCount] at hc1 ⊢
    refine ⟨by omega, fun h0 => ?_⟩
    rw [ha2 (by omega), hb2 (by omega), hd2 (by omega)] at hc2
    exact hc2 (by omega)
  | .AnnAssign i target annotation none => by
    intro n2 c h
    simp only [bottomUp] at h
    obtain ⟨p1, h1, h⟩ := bind_ok _ _ _ h
    obtain ⟨p2, h2, h⟩ := bind_ok _ _ _ h
    obtain ⟨ha1, ha2⟩ := bottomUp_bound act hact target p1.1 p1.2 h1
    obtain ⟨hb1, hb2⟩ := bottomUp_bound act hact annotation p2.1 p2.2 h2
    obtain ⟨hc1, hc2, hc3⟩ := applyAct_bound act hact _ _ _ _ h
    simp only [candCount] at hc1 ⊢
    refine ⟨by omega, fun h0 => ?_⟩
    rw [ha2 (by omega), hb2 (by omega)] at hc2
    exact hc2 (by omega)
  | .Expr i value => by
    intro n2 c h
    simp only [bottomUp] at h
    obtain ⟨p1, h1, h⟩ := bind_ok _ _ _ h
    obtain ⟨ha1, ha2⟩ := bottomUp_bound act hact value p1.1 p1.2 h1
    obtain ⟨hc1, hc2, hc3⟩ := applyAct_bound act hact _ _ _ _ h
    simp only [candCount] at hc1 ⊢
    refine ⟨by omega, fun h0 => ?_⟩
    rw [ha2 (by omega)] at hc2
    exact hc2 (by omega)
  | .Module i body => by
    intro n2 c h
    simp only [bottomUp] at h
    obtain ⟨p1, h1, h⟩ := bind_ok _ _ _ h
    obtain ⟨ha1, ha2⟩ := bottomUpList_bound act hact body p1.1 p1.2 h1
    obtain ⟨hc1, hc2, hc3⟩ := applyAct_bound act hact _ _ _ _ h
    simp only [candCount] at hc1 ⊢
    refine ⟨by omega, fun h0 => ?_⟩
    rw [ha2 (by omega)] at hc2
    exact hc2 (by omega)

theorem bottomUpList_bound (act : VNode → Except SriErr (Option VNode))
    (hact : ∀ n r, act n = .ok (some r) → candCount r + 1 ≤ candCount n) :
    (xs : List VNode) → ∀ ys c, bottomUpList act xs = .ok (ys, c) →
      candCountList ys + c ≤ candCountList xs ∧ (c = 0 → ys = xs)
  | [] => by
    intro ys c h
    simp only [bottomUpList, Except.ok.injEq, Prod.mk.injEq] at h
    obtain ⟨h1, h2⟩ := h
    subst h1
    subst h2
    exact ⟨le_refl _, fun _ => rfl⟩
  | x :: xs => by
    intro ys c h
    simp only [bottomUpList] at h
    obtain ⟨p1, h1, h⟩ := bind_ok _ _ _ h
    obtain ⟨p2, h2, h⟩ := bind_ok _ _ _ h
    simp only [Except.ok.injEq, Prod.mk.injEq] at h
    obtain ⟨h3, h4⟩ := h
    subst h3
    subst h4
    obtain ⟨ha1, ha2⟩ := bottomUp_bound act hact x p1.1 p1.2 h1
    obtain ⟨hb1, hb2⟩ := bottomUpList_bound act hact xs p2.1 p2.2 h2
    simp only [candCountList]
    refine ⟨by omega, fun h0 => ?_⟩
    rw [ha2 (by omega), hb2 (by omega)]

end

mutual

theorem replaceCopy_candCount (k : Nat) :
    (v : VNode) → ∀ r, replaceCopy k v = .ok r → candCount r = 0
  | .Int i x => by
    intro r h
    simp only [replaceCopy, Except.ok.injEq] at h
    subst h
    rfl
  | .Decimal i x => by
    intro r h
    simp only [replaceCopy, Except.ok.injEq] at h
    subst h
    rfl
  | .Hex i x => by
    intro r h
    simp only [replaceCopy, Except.ok.injEq] at h
    subst h
    rfl
  | .Str i x => by
    intro r h
    simp only [replaceCopy, Except.ok.injEq] at h
    subst h
    rfl
  | .Bytes i x => by
    intro r h
    simp only [replaceCopy, Except.ok.injEq] at h
    subst h
    rfl
  | .NameConstant i x => by
    intro r h
    simp only [replaceCopy, Except.ok.injEq] at h
    subst h
    rfl
  | .List i elts => by
    intro r h
    simp only [replaceCopy] at h
    split at h
    · rename_i es hes
      simp only [Except.ok.injEq] at h
      subst h
      have h0 := replaceCopyList_candCount k elts es hes
      simp only [candCount]
      omega
    · exact absurd h (by simp)
  | .Name i nm => by
    intro r h
    exact absurd h (by simp [replaceCopy])
  | .Dict i keys values => by
    intro r h
    exact absurd h (by simp [replaceCopy])
  | .UnaryOp i op operand => by
    intro r h
    exact absurd h (by simp [replaceCopy])
  | .BinOp i left op right => by
    intro r h
    exact absurd h (by simp [replaceCopy])
  | .BoolOp i op values => by
    intro r h
    exact absurd h (by simp [replaceCopy])
  | .Compare i left op right => by
    intro r h
    exact absurd h (by simp [replaceCopy])
  | .Call i func args => by
    intro r h
    exact absurd h (by simp [replaceCopy])
  | .Attribute i value attr => by
    intro r h
    exact absurd h (by simp [replaceCopy])
  | .Subscript i value slice => by
    intro r h
    exact absurd h (by simp [replaceCopy])
  | .Index i value => by
    intro r h
    exact absurd h (by simp [replaceCopy])
  | .Assign i target value => by
    intro r h
    exact absurd h (by simp [replaceCopy])
  | .AugAssign i op target value => by
    intro r h
    exact absurd h (by simp [replaceCopy])
  | .AnnAssign i target annotation value => by
    intro r h
    exact absurd h (by simp [replaceCopy])
  | .Expr i value => by
    intro r h
    exact absurd h (by simp [replaceCopy])
  | .Module i body => by
    intro r h
    exact absurd h (by simp [replaceCopy])

theorem replaceCopyList_candCount (k : Nat) :
    (xs : List VNode) → ∀ ys, replaceCopyList k xs = .ok ys → candCountList ys = 0
  | [] => by
    intro ys h
    simp only [replaceCopyList, Except.ok.injEq] at h
    subst h
    rfl
  | x :: xs => by
    intro ys h
    simp only [replaceCopyList] at h
    split at h
    · rename_i y hy
      split at h
      · rename_i ys2 hys
        simp only [Except.ok.injEq] at h
        subst h
        have h1 := replaceCopy_candCount k x y hy
        have h2 := replaceCopyList_candCount k xs ys2 hys
        simp only [candCountList]
        omega
      · exact absurd h (by simp)
    · exact absurd h (by simp)

end

theorem replaceCopyOpt_candCount (k : Nat) (repl : Option VNode) (r : VNode)
    (h : replaceCopyOpt k repl = .ok r) : candCount r = 0 := by
  cases repl with
  | some v => exact replaceCopy_candCount k v r h
  | none => exact absurd h (by simp [replaceCopyOpt])

theorem replaceNameOccurrence_bound (id_ : String) (repl : Option VNode) (roe : Bool)
    (i : Nat) (nm : String) (ctx : SubstCtx) (n2 : VNode) (c : Nat)
    (h : replaceNameOccurrence id_ repl roe i nm ctx = .ok (n2, c)) :
    candCount n2 + c ≤ 1 ∧ (c = 0 → n2 = .Name i nm) := by
  unfold replaceNameOccurrence at h
  repeat' split at h
  all_goals
    first
    | (simp only [Except.ok.injEq, Prod.mk.injEq] at h
       obtain ⟨h1, h2⟩ := h
       subst h1
       subst h2
       exact ⟨by simp only [candCount]; omega, fun _ => rfl⟩)
    | (rename_i r2 heq
       simp only [Except.ok.injEq, Prod.mk.injEq] at h
       obtain ⟨h1, h2⟩ := h
       subst h1
       subst h2
       have h0 := replaceCopyOpt_candCount i repl _ heq
       exact ⟨by omega, fun hc => absurd hc (by omega)⟩)
    | simp_all

mutual

theorem replaceConstantNode_bound (id_ : String) (repl : Option VNode) (roe : Bool) :
    (n : VNode) → (ctx : SubstCtx) → ∀ n2 c, replaceConstantNode id_ repl roe n ctx = .ok (n2, c) →
      candCount n2 + c ≤ candCount n ∧ (c = 0 → n2 = n)
  | .Name i nm, ctx => by
    intro n2 c h
    simp only [replaceConstantNode] at h
    have h0 := replaceNameOccurrence_bound id_ repl roe i nm ctx n2 c h
    simp only [candCount]
    exact h0
  | .Int i v, ctx => by
    intro n2 c h
    simp only [replaceConstantNode, Except.ok.injEq, Prod.mk.injEq] at h
    obtain ⟨h1, h2⟩ := h
    subst h1
    subst h2
    exact ⟨le_refl _, fun _ => rfl⟩
  | .Decimal i v, ctx => by
    intro n2 c h
    simp only [replaceConstantNode, Except.ok.injEq, Prod.mk.injEq] at h
    obtain ⟨h1, h2⟩ := h
    subst h1
    subst h2
    exact ⟨le_refl _, fun _ => rfl⟩
  | .Hex i v, ctx => by
    intro n2 c h
    simp only [replaceConstantNode, Except.ok.injEq, Prod.mk.injEq] at h
    obtain ⟨h1, h2⟩ := h
    subst h1
    subst h2
    exact ⟨le_refl _, fun _ => rfl⟩
  | .Str i v, ctx => by
    intro n2 c h
    simp only [replaceConstantNode, Except.ok.injEq, Prod.mk.injEq] at h
    obtain ⟨h1, h2⟩ := h
    subst h1
    subst h2
    exact ⟨le_refl _, fun _ => rfl⟩
  | .Bytes i v, ctx => by
    intro n2 c h
    simp only [replaceConstantNode, Except.ok.injEq, Prod.mk.injEq] at h
    obtain ⟨h1, h2⟩ := h
    subst h1
    subst h2
    exact ⟨le_refl _, fun _ => rfl⟩
  | .NameConstant i v, ctx => by
    intro n2 c h
    simp only [replaceConstantNode, Except.ok.injEq, Prod.mk.injEq] at h
    obtain ⟨h1, h2⟩ := h
    subst h1
    subst h2
    exact ⟨le_refl _, fun _ => rfl⟩
  | .List i elts, ctx => by
    intro n2 c h
    simp only [replaceConstantNode] at h
    obtain ⟨p1, h1, h⟩ := bind_ok _ _ _ h
    simp only [Except.ok.injEq, Prod.mk.injEq] at h
    obtain ⟨h3, h4⟩ := h
    subst h3
    subst h4
    obtain ⟨ha1, ha2⟩ := replaceConstantList_bound id_ repl roe elts ctx.step p1.1 p1.2 h1
    simp only [candCount]
    refine ⟨by omega, fun h0 => ?_⟩
    rw [ha2 (by omega)]
  | .Dict i keys values, ctx => by
    intro n2 c h
    simp only [replaceConstantNode] at h
    obtain ⟨p1, h1, h⟩ := bind_ok _ _ _ h
    obtain ⟨p2, h2, h⟩ := bind_ok _ _ _ h
    simp only [Except.ok.injEq, Prod.mk.injEq] at h
    obtain ⟨h3, h4⟩ := h
    subst h3
    subst h4
    obtain ⟨ha1, ha2⟩ := replaceConstantList_bound id_ repl roe keys ctx.skip p1.1 p1.2 h1
    obtain ⟨hb1, hb2⟩ := replaceConstantList_bound id_ repl roe values ctx.step p2.1 p2.2 h2
    simp only [candCount]
    refine ⟨by omega, fun h0 => ?_⟩
    rw [ha2 (by omega), hb2 (by omega)]
  | .UnaryOp i op operand, ctx => by
    intro n2 c h
    simp only [replaceConstantNode] at h
    obtain ⟨p1, h1, h⟩ := bind_ok _ _ _ h
    simp only [Except.ok.injEq, Prod.mk.injEq] at h
    obtain ⟨h3, h4⟩ := h
    subst h3
    subst h4
    obtain ⟨ha1, ha2⟩ := replaceConstantNode_bound id_ repl roe operand ctx.step p1.1 p1.2 h1
    simp only [candCount]
    refine ⟨by omega, fun h0 => ?_⟩
    rw [ha2 (by omega)]
  | .BinOp i left op right, ctx => by
    intro n2 c h
    simp only [replaceConstantNode] at h
    obtain ⟨p1, h1, h⟩ := bind_ok _ _ _ h
    obtain ⟨p2, h2, h⟩ := bind_ok _ _ _ h
    simp only [Except.ok.injEq, Prod.mk.injEq] at h
    obtain ⟨h3, h4⟩ := h
    subst h3
    subst h4
    obtain ⟨ha1, ha2⟩ := replaceConstantNode_bound id_ repl roe left ctx.step p1.1 p1.2 h1
    obtain ⟨hb1, hb2⟩ := replaceConstantNode_bound id_ repl roe right ctx.step p2.1 p2.2 h2
    simp only [candCount]
    refine ⟨by omega, fun h0 => ?_⟩
    rw [ha2 (by omega), hb2 (by omega)]
  | .BoolOp i op values, ctx => by
    intro n2 c h
    simp only [replaceConstantNode] at h
    obtain ⟨p1, h1, h⟩ := bind_ok _ _ _ h
    simp only [Except.ok.injEq, Prod.mk.injEq] at h
    obtain ⟨h3, h4⟩ := h
    subst h3
    subst h4
    obtain ⟨ha1, ha2⟩ := replaceConstantList_bound id_ repl roe values ctx.step p1.1 p1.2 h1
    simp only [candCount]
    refine ⟨by omega, fun h0 => ?_⟩
    rw [ha2 (by omega)]
  | .Compare i left op right, ctx => by
    intro n2 c h
    simp only [replaceConstantNode] at h
    obtain ⟨p1, h1, h⟩ := bind_ok _ _ _ h
    obtain ⟨p2, h2, h⟩ := bind_ok _ _ _ h
    simp only [Except.ok.injEq, Prod.mk.injEq] at h
    obtain ⟨h3, h4⟩ := h
    subst h3
    subst h4
    obtain ⟨ha1, ha2⟩ := replaceConstantNode_bound id_ repl roe left ctx.step p1.1 p1.2 h1
    obtain ⟨hb1, hb2⟩ := replaceConstantNode_bound id_ repl roe right ctx.step p2.1 p2.2 h2
    simp only [candCount]
    refine ⟨by omega, fun h0 => ?_⟩
    rw [ha2 (by omega), hb2 (by omega)]
  | .Call i func args, ctx => by
    intro n2 c h
    simp only [replaceConstantNode] at h
    obtain ⟨p1, h1, h⟩ := bind_ok _ _ _ h
    obtain ⟨p2, h2, h⟩ := bind_ok _ _ _ h
    simp only [Except.ok.injEq, Prod.mk.injEq] at h
    obtain ⟨h3, h4⟩ := h
    subst h3
    subst h4
    obtain ⟨ha1, ha2⟩ := replaceConstantNode_bound id_ repl roe func ctx.skip p1.1 p1.2 h1
    obtain ⟨hb1, hb2⟩ := replaceConstantList_bound id_ repl roe args ctx.step p2.1 p2.2 h2
    simp only [candCount]
    refine ⟨by omega, fun h0 => ?_⟩
    rw [ha2 (by omega), hb2 (by omega)]
  | .Attribute i value attr, ctx => by
    intro n2 c h
    simp only [replaceConstantNode] at h
    obtain ⟨p1, h1, h⟩ := bind_ok _ _ _ h
    simp only [Except.ok.injEq, Prod.mk.injEq] at h
    obtain ⟨h3, h4⟩ := h
    subst h3
    subst h4
    obtain ⟨ha1, ha2⟩ := replaceConstantNode_bound id_ repl roe value ctx.skip p1.1 p1.2 h1
    simp only [candCount]
    refine ⟨by omega, fun h0 => ?_⟩
    rw [ha2 (by omega)]
  | .Subscript i value slice, ctx => by
    intro n2 c h
    simp only [replaceConstantNode] at h
    obtain ⟨p1, h1, h⟩ := bind_ok _ _ _ h
    obtain ⟨p2, h2, h⟩ := bind_ok _ _ _ h
    simp only [Except.ok.injEq, Prod.mk.injEq] at h
    obtain ⟨h3, h4⟩ := h
    subst h3
    subst h4
    obtain ⟨ha1, ha2⟩ := replaceConstantNode_bound id_ repl roe value ctx.step p1.1 p1.2 h1
    obtain ⟨hb1, hb2⟩ := replaceConstantNode_bound id_ repl roe slice ctx.step p2.1 p2.2 h2
    simp only [candCount]
    refine ⟨by omega, fun h0 => ?_⟩
    rw [ha2 (by omega), hb2 (by omega)]
  | .Index i value, ctx => by
    intro n2 c h
    simp only [replaceConstantNode] at h
    obtain ⟨p1, h1, h⟩ := bind_ok _ _ _ h
    simp only [Except.ok.injEq, Prod.mk.injEq] at h
    obtain ⟨h3, h4⟩ := h
    subst h3
    subst h4
    obtain ⟨ha1, ha2⟩ := replaceConstantNode_bound id_ repl roe value ctx.index p1.1 p1.2 h1
    simp only [candCount]
    refine ⟨by omega, fun h0 => ?_⟩
    rw [ha2 (by omega)]
  | .Assign i target value, ctx => by
    intro n2 c h
    simp only [replaceConstantNode] at h
    obtain ⟨p1, h1, h⟩ := bind_ok _ _ _ h
    obtain ⟨p2, h2, h⟩ := bind_ok _ _ _ h
    simp only [Except.ok.injEq, Prod.mk.injEq] at h
    obtain ⟨h3, h4⟩ := h
    subst h3
    subst h4
    obtain ⟨ha1, ha2⟩ := replaceConstantNode_bound id_ repl roe target SubstCtx.target p1.1 p1.2 h1
    obtain ⟨hb1, hb2⟩ := replaceConstantNode_bound id_ repl roe value SubstCtx.value p2.1 p2.2 h2
    simp only [candCount]
    refine ⟨by omega, fun h0 => ?_⟩
    rw [ha2 (by omega), hb2 (by omega)]
  | .AugAssign i op target value, ctx => by
    intro n2 c h
    simp only [replaceConstantNode] at h
    obtain ⟨p1, h1, h⟩ := bind_ok _ _ _ h
    obtain ⟨p2, h2, h⟩ := bind_ok _ _ _ h
    simp only [Except.ok.injEq, Prod.mk.injEq] at h
    obtain ⟨h3, h4⟩ := h
    subst h3
    subst h4
    obtain ⟨ha1, ha2⟩ := replaceConstantNode_bound id_ repl roe target SubstCtx.target p1.1 p1.2 h1
    obtain ⟨hb1, hb2⟩ := replaceConstantNode_bound id_ repl roe value SubstCtx.value p2.1 p2.2 h2
    simp only [candCount]
    refine ⟨by omega, fun h0 => ?_⟩
    rw [ha2 (by omega), hb2 (by omega)]
  | .AnnAssign i target annotation (some v), ctx => by
    intro n2 c h
    simp only [replaceConstantNode] at h
    obtain ⟨p1, h1, h⟩ := bind_ok _ _ _ h
    obtain ⟨p2, h2, h⟩ := bind_ok _ _ _ h
    obtain ⟨p3, h3, h⟩ := bind_ok _ _ _ h
    simp only [Except.ok.injEq, Prod.mk.injEq] at h
    obtain ⟨h4, h5⟩ := h
    subst h4
    subst h5
    obtain ⟨ha1, ha2⟩ := replaceConstantNode_bound id_ repl roe target SubstCtx.target p1.1 p1.2 h1
    obtain ⟨hb1, hb2⟩ := replaceConstantNode_bound id_ repl roe annotation SubstCtx.value p2.1 p2.2 h2
    obtain ⟨hd1, hd2⟩ := replaceConstantNode_bound id_ repl roe v SubstCtx.value p3.1 p3.2 h3
    simp only [candCount]
    refine ⟨by omega, fun h0 => ?_⟩
    rw [ha2 (by omega), hb2 (by omega), hd2 (by omega)]
  | .AnnAssign i target annotation none, ctx => by
    intro n2 c h
    simp only [replaceConstantNode] at h
    obtain ⟨p1, h1, h⟩ := bind_ok _ _ _ h
    obtain ⟨p2, h2, h⟩ := bind_ok _ _ _ h
    simp only [Except.ok.injEq, Prod.mk.injEq] at h
    obtain ⟨h3, h4⟩ := h
    subst h3
    subst h4
    obtain ⟨ha1, ha2⟩ := replaceConstantNode_bound id_ repl roe target SubstCtx.target p1.1 p1.2 h1
    obtain ⟨hb1, hb2⟩ := replaceConstantNode_bound id_ repl roe annotation SubstCtx.value p2.1 p2.2 h2
    simp only [candCount]
    refine ⟨by omega, fun h0 => ?_⟩
    rw [ha2 (by omega), hb2 (by omega)]
  | .Expr i value, ctx => by
    intro n2 c h
    simp only [replaceConstantNode] at h
    obtain ⟨p1, h1, h⟩ := bind_ok _ _ _ h
    simp only [Except.ok.injEq, Prod.mk.injEq] at h
    obtain ⟨h3, h4⟩ := h
    subst h3
    subst h4
    obtain ⟨ha1, ha2⟩ := replaceConstantNode_bound id_ repl roe value ctx.step p1.1 p1.2 h1
    simp only [candCount]
    refine ⟨by omega, fun h0 => ?_⟩
    rw [ha2 (by omega)]
  | .Module i body, ctx => by
    intro n2 c h
    simp only [replaceConstantNode] at h
    obtain ⟨p1, h1, h⟩ := bind_ok _ _ _ h
    simp only [Except.ok.injEq, Prod.mk.injEq] at h
    obtain ⟨h3, h4⟩ := h
    subst h3
    subst h4
    obtain ⟨ha1, ha2⟩ := replaceConstantList_bound id_ repl roe body ctx.step p1.1 p1.2 h1
    simp only [candCount]
    refine ⟨by omega, fun h0 => ?_⟩
    rw [ha2 (by omega)]

theorem replaceConstantList_bound (id_ : String) (repl : Option VNode) (roe : Bool) :
    (xs : List VNode) → (ctx : SubstCtx) → ∀ ys c,
      replaceConstantList id_ repl roe xs ctx = .ok (ys, c) →
      candCountList ys + c ≤ candCountList xs ∧ (c = 0 → ys = xs)
  | [], ctx => by
    intro ys c h
    simp only [replaceConstantList, Except.ok.injEq, Prod.mk.injEq] at h
    obtain ⟨h1, h2⟩ := h
    subst h1
    subst h2
    exact ⟨le_refl _, fun _ => rfl⟩
  | x :: xs, ctx => by
    intro ys c h
    simp only [replaceConstantList] at h
    obtain ⟨p1, h1, h⟩ := bind_ok _ _ _ h
    obtain ⟨p2, h2, h⟩ := bind_ok _ _ _ h
    simp only [Except.ok.injEq, Prod.mk.injEq] at h
    obtain ⟨h3, h4⟩ := h
    subst h3
    subst h4
    obtain ⟨ha1, ha2⟩ := replaceConstantNode_bound id_ repl roe x ctx p1.1 p1.2 h1
    obtain ⟨hb1, hb2⟩ := replaceConstantList_bound id_ repl roe xs ctx p2.1 p2.2 h2
    simp only [candCountList]
    refine ⟨by omega, fun h0 => ?_⟩
    rw [ha2 (by omega), hb2 (by omega)]

end

theorem rudcStep_bound (m : VNode) (k : Nat) :
    ∀ n2 c, rudcStep m k = .ok (n2, c) →
      candCount n2 + c ≤ candCount m ∧ (c = 0 → n2 = m) := by
  intro n2 c h
  unfold rudcStep at h
  repeat' split at h
  all_goals first
    | (exact replaceConstantNode_bound _ _ _ m SubstCtx.root n2 c h)
    | (simp only [Except.ok.injEq, Prod.mk.injEq] at h
       obtain ⟨h1, h2⟩ := h
       subst h1
       subst h2
       exact ⟨le_refl _, fun _ => rfl⟩)

theorem rudcGo_bound : (rem k : Nat) → (m : VNode) → ∀ n2 c,
    rudcGo rem k m = .ok (n2, c) →
      candCount n2 + c ≤ candCount m ∧ (c = 0 → n2 = m)
  | 0, k, m => by
    intro n2 c h
    simp only [rudcGo, Except.ok.injEq, Prod.mk.injEq] at h
    obtain ⟨h1, h2⟩ := h
    subst h1
    subst h2
    exact ⟨le_refl _, fun _ => rfl⟩
  | rem + 1, k, m => by
    intro n2 c h
    simp only [rudcGo] at h
    obtain ⟨p1, h1, h⟩ := bind_ok _ _ _ h
    obtain ⟨p2, h2, h⟩ := bind_ok _ _ _ h
    simp only [Except.ok.injEq, Prod.mk.injEq] at h
    obtain ⟨h3, h4⟩ := h
    subst h3
    subst h4
    obtain ⟨ha1, ha2⟩ := rudcStep_bound m k p1.1 p1.2 h1
    obtain ⟨hb1, hb2⟩ := rudcGo_bound rem (k + 1) p1.1 p2.1 p2.2 h2
    refine ⟨by omega, fun h0 => ?_⟩
    rw [hb2 (by omega), ha2 (by omega)]

theorem replace_user_defined_constants_bound (m : VNode) : ∀ n2 c,
    replace_user_defined_constants m = .ok (n2, c) →
      candCount n2 + c ≤ candCount m ∧ (c = 0 → n2 = m) := by
  intro n2 c h
  unfold replace_user_defined_constants at h
  split at h
  · exact rudcGo_bound _ _ _ n2 c h
  · simp only [Except.ok.injEq, Prod.mk.injEq] at h
    obtain ⟨h1, h2⟩ := h
    subst h1
    subst h2
    exact ⟨le_refl _, fun _ => rfl⟩

theorem foldRound_bound (dispatch : Dispatch)
    (hD : ∀ s f, dispatch s = some f → ∀ n r, f n = .ok r → candCount r = 0)
    (m : VNode) : ∀ n2 c, foldRound dispatch m = .ok (n2, c) →
      candCount n2 + c ≤ candCount m ∧ (c = 0 → n2 = m) := by
  intro n2 c h
  unfold foldRound at h
  obtain ⟨p1, h1, h⟩ := bind_ok _ _ _ h
  obtain ⟨p2, h2, h⟩ := bind_ok _ _ _ h
  obtain ⟨p3, h3, h⟩ := bind_ok _ _ _ h
  obtain ⟨p4, h4, h⟩ := bind_ok _ _ _ h
  simp only [Except.ok.injEq, Prod.mk.injEq] at h
  obtain ⟨h5, h6⟩ := h
  subst h5
  subst h6
  obtain ⟨ha1, ha2⟩ := replace_user_defined_constants_bound m p1.1 p1.2 h1
  obtain ⟨hb1, hb2⟩ := bottomUp_bound actLiteralOps actLiteralOps_bound p1.1 p2.1 p2.2 h2
  obtain ⟨hc1, hc2⟩ := bottomUp_bound actSubscripts actSubscripts_bound p2.1 p3.1 p3.2 h3
  obtain ⟨hd1, hd2⟩ :=
    bottomUp_bound (actBuiltinFunctions dispatch) (actBuiltinFunctions_bound dispatch hD)
      p3.1 p4.1 p4.2 h4
  refine ⟨by omega, fun h0 => ?_⟩
  rw [hd2 (by omega), hc2 (by omega), hb2 (by omega), ha2 (by omega)]

theorem foldLoop_sufficient_fuel (dispatch : Dispatch)
    (hD : ∀ s f, dispatch s = some f → ∀ n r, f n = .ok r → candCount r = 0) :
    (fuel : Nat) → (m : VNode) → candCount m < fuel →
      foldLoop dispatch fuel m ≠ .ok none
  | 0, m => by
    intro hlt h
    omega
  | fuel + 1, m => by
    intro hlt h
    simp only [foldLoop] at h
    obtain ⟨p, hb, h⟩ := bind_ok _ _ _ h
    split at h
    · simp at h
    · rename_i hne
      obtain ⟨hb1, hb2⟩ := foldRound_bound dispatch hD m p.1 p.2 hb
      exact foldLoop_sufficient_fuel dispatch hD fuel p.1 (by omega) h

theorem foldLoop_fixpoint (dispatch : Dispatch)
    (hD : ∀ s f, dispatch s = some f → ∀ n r, f n = .ok r → candCount r = 0) :
    (fuel : Nat) → (m t : VNode) →
      foldLoop dispatch fuel m = .ok (some t) → foldRound dispatch t = .ok (t, 0)
  | 0, m, t => by
    intro h
    simp [foldLoop] at h
  | fuel + 1, m, t => by
    intro h
    simp only [foldLoop] at h
    obtain ⟨p, hb, h⟩ := bind_ok _ _ _ h
    split at h
    · rename_i hz
      simp only [Except.ok.injEq, Option.some.injEq] at h
      subst h
      obtain ⟨hb1, hb2⟩ := foldRound_bound dispatch hD m p.1 p.2 hb
      have hm : p.1 = m := hb2 hz
      have hp : p = (m, 0) := by
        cases p
        simp_all
      rw [hm, hb, hp]
    · exact foldLoop_fixpoint dispatch hD fuel p.1 t h

/-- `x[[MAX_UINT256, y][0]] = 2`: a builtin constant name inside an
assignment target, buried under a list literal. -/
def cexFoldInput : VNode :=
  .Module 0 [
    .Assign 1
      (.Subscript 2 (.Name 3 "x")
        (.Index 4 (.Subscript 5
          (.List 6 [.Name 7 "MAX_UINT256", .Name 8 "y"])
          (.Index 9 (.Int 10 0)))))
      (.Int 11 2)]

/-- The result of one `fold` of `cexFoldInput`: subscript folding has
reattached the builtin name directly under the `Index`. -/
def cexFoldOnce : VNode :=
  .Module 0 [
    .Assign 1
      (.Subscript 2 (.Name 3 "x") (.Index 4 (.Name 7 "MAX_UINT256")))
      (.Int 11 2)]

/-- The result of a second `fold`: the rerun builtin-constant pass now
substitutes the name (direct parent is an `Index`, so the
assignment-target skip no longer applies). -/
def cexFoldTwice : VNode :=
  .Module 0 [
    .Assign 1
      (.Subscript 2 (.Name 3 "x") (.Index 4 (.Int 7 (2 ^ 256 - 1))))
      (.Int 11 2)]

/-- C2 (amended): for every input tree the folding driver terminates —
with fuel `candCount m + 1` the loop never runs out — and one further
*round* of the four counted passes on `fold`'s output makes zero further
substitutions (the rounds reach a fixpoint).  The termination measure is
the number of candidate nodes (`Name`, operator, comparison, subscript
and call nodes), which every counted substitution strictly decreases;
the claim's stronger justification, that every substitution reduces
total node count, is false for list-constant substitution, and full
re-invocation of `fold` itself is not idempotent because the one-shot
builtin-constant pass reruns (see the counterexample). -/
theorem fold_terminates_and_rounds_reach_fixpoint (dispatch : Dispatch)
    (hD : ∀ s f, dispatch s = some f → ∀ n r, f n = .ok r → candCount r = 0) :
    (∀ m, fold dispatch m ≠ .ok none) ∧
    (∀ m t, fold dispatch m = .ok (some t) → foldRound dispatch t = .ok (t, 0)) := by
  constructor
  · intro m h
    unfold fold at h
    split at h
    · rename_i m0 hm0
      exact foldLoop_sufficient_fuel dispatch hD _ m0 (by omega) h
    · exact Except.noConfusion h
  · intro m t h
    unfold fold at h
    split at h
    · exact foldLoop_fixpoint dispatch hD _ _ t h
    · exact Except.noConfusion h

theorem fold_terminates_and_rounds_reach_fixpoint_witness :
    fold noDispatch
      (.Module 0 [
        .AnnAssign 1 (.Name 2 "FEE") (.Call 3 (.Name 4 "constant") [.Name 5 "int128"])
          (some (.BinOp 6 (.Int 7 2) Operator.Add (.Int 8 3))),
        .Expr 9 (.BinOp 10 (.Name 11 "FEE") Operator.Mult (.Int 12 10))]) ≠ .ok none ∧
    foldRound noDispatch
      (.Module 0 [
        .AnnAssign 1 (.Name 2 "FEE") (.Call 3 (.Name 4 "constant") [.Name 5 "int128"])
          (some (.Int 6 5)),
        .Expr 9 (.Int 10 50)]) =
      .ok (.Module 0 [
        .AnnAssign 1 (.Name 2 "FEE") (.Call 3 (.Name 4 "constant") [.Name 5 "int128"])
          (some (.Int 6 5)),
        .Expr 9 (.Int 10 50)], 0) := by
  have hD : ∀ s f, noDispatch s = some f → ∀ n r, f n = .ok r → candCount r = 0 :=
    fun s f h => Option.noConfusion h
  have H := fold_terminates_and_rounds_reach_fixpoint noDispatch hD
  refine ⟨H.1 _, H.2
    (.Module 0 [
      .AnnAssign 1 (.Name 2 "FEE") (.Call 3 (.Name 4 "constant") [.Name 5 "int128"])
        (some (.BinOp 6 (.Int 7 2) Operator.Add (.Int 8 3))),
      .Expr 9 (.BinOp 10 (.Name 11 "FEE") Operator.Mult (.Int 12 10))]) _ (by rfl)⟩

/-- C2 counterexample: a second invocation of `fold` on its own output
makes a further substitution, so full folding is not idempotent. -/
theorem fold_not_idempotent_cex :
    fold noDispatch cexFoldInput = .ok (some cexFoldOnce) ∧
    fold noDispatch cexFoldOnce = .ok (some cexFoldTwice) ∧
    cexFoldOnce ≠ cexFoldTwice :=
  ⟨rfl, rfl, by simp [cexFoldOnce, cexFoldTwice]⟩

/-! ### Heap model of the mutable AST (`srilangNode` objects) -/

/-- A reference to a node object in the heap. -/
def Ref := Nat

instance : DecidableEq Ref := fun a b => Nat.decEq a b

instance : Repr Ref := instReprNat

instance (n : Nat) : OfNat Ref n := ⟨n⟩

/-- A non-node field value (operator names, raw literals, `None`). -/
inductive HLit
  | str (v : String)
  | int (v : Int)
  | noneVal
deriving DecidableEq, Repr

/-- The value held by one declared field of a node object: a child node,
a list of child nodes, or a plain value. -/
inductive HField
  | ref (r : Ref)
  | refs (rs : List Ref)
  | lit (v : HLit)
deriving DecidableEq, Repr

/-- The mutable per-object record: `ast_type`, `node_id`, the private
`_depth`, `_parent` and `_children` attributes, and the declared
(public) fields in attribute order. -/
structure NodeData where
  astType : String
  nodeId : Nat
  depth : Int
  parent : Option Ref
  children : List Ref
  fields : List (String × HField)
deriving DecidableEq, Repr

/-- The heap: every reference resolves to an object record. -/
def State := Ref → NodeData

/-- In-place mutation of one object (`setattr` on private attributes). -/
def updateNode (s : State) (r : Ref) (f : NodeData → NodeData) : State :=
  fun q => if q = r then f (s q) else s q

/-- `setattr(p, k, v)` for a declared field. -/
def setFieldVal (s : State) (p : Ref) (k : String) (v : HField) : State :=
  updateNode s p (fun d =>
    { d with fields := d.fields.map (fun kf => if kf.1 = k then (kf.1, v) else kf) })

mutual

/-- Model of `srilangNode.__eq__`: same class, same `node_id`, and the
declared fields (base slots excluded, so `_parent`, `_depth` and
`_children` are never compared) recursively equal.  The heap is
arbitrary, so the recursion carries explicit fuel; exhausted fuel
answers `false`. -/
def nodeEq (s : State) : Nat → Ref → Ref → Bool
  | 0, _, _ => false
  | fuel + 1, a, b =>
    ((s a).astType == (s b).astType) && ((s a).nodeId == (s b).nodeId) &&
      fieldsEq s fuel (s a).fields (s b).fields

/-- Keywise comparison of two declared-field tables. -/
def fieldsEq (s : State) : Nat → List (String × HField) → List (String × HField) → Bool
  | 0, _, _ => false
  | _ + 1, [], [] => true
  | fuel + 1, (k1, v1) :: xs, (k2, v2) :: ys =>
    (k1 == k2) && hfieldEq s fuel v1 v2 && fieldsEq s fuel xs ys
  | _ + 1, _, _ => false

/-- Comparison of two field values (`==` on attribute values: node
against node, Python list elementwise, plain value by value). -/
def hfieldEq (s : State) : Nat → HField → HField → Bool
  | fuel + 1, .ref a, .ref b => nodeEq s fuel a b
  | fuel + 1, .refs as, .refs bs => listRefsEq s fuel as bs
  | _ + 1, .lit x, .lit y => x == y
  | _, _, _ => false

/-- Python `list.__eq__`: same length, elements `==` pairwise. -/
def listRefsEq (s : State) : Nat → List Ref → List Ref → Bool
  | 0, _, _ => false
  | _ + 1, [], [] => true
  | fuel + 1, a :: as, b :: bs => nodeEq s fuel a b && listRefsEq s fuel as bs
  | _ + 1, _, _ => false

end

/-- All strict descendants of `r` (the transitive closure of the
`_children` sets), fuel-bounded. -/
def descendantRefs (s : State) : Nat → Ref → List Ref
  | 0, _ => []
  | fuel + 1, r => (s r).children.flatMap (fun c => c :: descendantRefs s fuel c)

/-- `old_node in root.get_descendants(type(old_node))`: list membership
uses `__eq__`, and the `isinstance` filter is subsumed by the class
check `__eq__` itself performs. -/
def descContains (s : State) (fuel : Nat) (root old : Ref) : Bool :=
  (descendantRefs s fuel root).any (fun r => nodeEq s fuel r old)

/-- `obj[obj.index(old_node)] = new_node`: rebind the first list slot
whose element compares `==` to the old node. -/
def listReplaceFirst (s : State) (fuel : Nat) (old new : Ref) : List Ref → List Ref
  | [] => []
  | r :: rs =>
    if nodeEq s fuel r old then new :: rs else r :: listReplaceFirst s fuel old new rs

/-- `set.remove(old_node)`: drop the first member that compares `==` to
the old node. -/
def removeFirstEq (s : State) (fuel : Nat) (old : Ref) : List Ref → List Ref
  | [] => []
  | r :: rs => if nodeEq s fuel r old then rs else r :: removeFirstEq s fuel old rs

def panicTreeMsg : String := "Node to be replaced does not exist within the tree"

def panicChildrenMsg : String := "Node to be replaced does not exist within parent children"

def panicMultiMsg : String := "Node to be replaced exists as multiple members in parent"

def panicMembersMsg : String := "Node to be replaced does not exist within parent members"

/-- The field loop of `replace_in_tree`: walk the parent's declared
fields with the `is_replaced` flag, rebinding a field whose value (or
one list slot) compares `==` to the old node, and panicking on a second
match or on a slot count above one; a raised panic leaves the mutations
already made in place. -/
def replaceLoop (fuel : Nat) (p old new : Ref) :
    State → List (String × HField) → Bool → State × Bool × Option String
  | s, [], isR => (s, isR, none)
  | s, (k, .ref r) :: fs, isR =>
    if nodeEq s fuel r old then
      if isR then (s, isR, some panicMultiMsg)
      else replaceLoop fuel p old new (setFieldVal s p k (.ref new)) fs true
    else replaceLoop fuel p old new s fs isR
  | s, (k, .refs rs) :: fs, isR =>
    if 0 < rs.countP (fun r => nodeEq s fuel r old) then
      if isR || decide (1 < rs.countP (fun r => nodeEq s fuel r old)) then
        (s, isR, some panicMultiMsg)
      else
        replaceLoop fuel p old new
          (setFieldVal s p k (.refs (listReplaceFirst s fuel old new rs))) fs true
    else replaceLoop fuel p old new s fs isR
  | s, (_, .lit _) :: fs, isR => replaceLoop fuel p old new s fs isR

/-- The successful tail of `replace_in_tree`: remove the old node from
the parent's child set, rebind `new._parent`, force `new._depth` to the
old node's depth, and add the new node to the parent's child set. -/
def finalizeReplace (s2 : State) (fuel : Nat) (p old new : Ref) : State :=
  let s3 := updateNode s2 p
    (fun d => { d with children := removeFirstEq s2 fuel old d.children })
  let s4 := updateNode s3 new
    (fun d => { d with parent := some p, depth := (s3 old).depth })
  updateNode s4 p
    (fun d => { d with children :=
      if d.children.any (fun r => nodeEq s4 fuel r new) then d.children
      else d.children ++ [new] })

/-- Model of `Module.replace_in_tree(old_node, new_node)`: the
descendants check, the parent-children check, the field loop, and on
success the child-set update plus the rebinding of `new._parent` and the
forced `new._depth = old._depth`.  The mutated heap is returned even
when a `CompilerPanic` message is raised partway. -/
def replace_in_tree (s : State) (fuel : Nat) (root old new : Ref) : State × Option String :=
  if ¬ descContains s fuel root old then (s, some panicTreeMsg)
  else
    match (s old).parent with
    | none => (s, some "AttributeError")
    | some p =>
      if ¬ (s p).children.any (fun r => nodeEq s fuel r old) then (s, some panicChildrenMsg)
      else
        match replaceLoop fuel p old new s (s p).fields false with
        | (s2, _, some msg) => (s2, some msg)
        | (s2, false, none) => (s2, some panicMembersMsg)
        | (s2, true, none) => (finalizeReplace s2 fuel p old new, none)

/-- How many members of one field value compare `==` to the old node. -/
def fieldMatchCount (s : State) (fuel : Nat) (old : Ref) : HField → Nat
  | .ref r => if nodeEq s fuel r old then 1 else 0
  | .refs rs => rs.countP (fun r => nodeEq s fuel r old)
  | .lit _ => 0

/-- Whether any declared field holds a member `==` to the old node. -/
def anyFieldMatch (s : State) (fuel : Nat) (old : Ref) (fs : List (String × HField)) : Bool :=
  fs.any (fun kf => 0 < fieldMatchCount s fuel old kf.2)

/-- Total number of parent members comparing `==` to the old node. -/
def totalMatchCount (s : State) (fuel : Nat) (old : Ref) (fs : List (String × HField)) : Nat :=
  (fs.map (fun kf => fieldMatchCount s fuel old kf.2)).sum

/-- The value the loop writes into a matching field. -/
def mutVal (s : State) (fuel : Nat) (old new : Ref) : HField → HField
  | .ref _ => .ref new
  | .refs rs => .refs (listReplaceFirst s fuel old new rs)
  | .lit v => .lit v

/-- Two heaps agreeing on what `__eq__` can observe (class, id and
declared fields of every object). -/
def EqNodeView (s1 s2 : State) : Prop :=
  ∀ q, (s1 q).astType = (s2 q).astType ∧ (s1 q).nodeId = (s2 q).nodeId ∧
    (s1 q).fields = (s2 q).fields

mutual

theorem nodeEq_congr (s1 s2 : State) (hv : EqNodeView s1 s2) :
    (fuel : Nat) → (a b : Ref) → nodeEq s1 fuel a b = nodeEq s2 fuel a b
  | 0, _, _ => rfl
  | fuel + 1, a, b => by
    show (((s1 a).astType == (s1 b).astType) && ((s1 a).nodeId == (s1 b).nodeId) &&
        fieldsEq s1 fuel (s1 a).fields (s1 b).fields) =
      (((s2 a).astType == (s2 b).astType) && ((s2 a).nodeId == (s2 b).nodeId) &&
        fieldsEq s2 fuel (s2 a).fields (s2 b).fields)
    rw [(hv a).1, (hv b).1, (hv a).2.1, (hv b).2.1, (hv a).2.2, (hv b).2.2,
      fieldsEq_congr s1 s2 hv fuel ((s2 a).fields) ((s2 b).fields)]

theorem fieldsEq_congr (s1 s2 : State) (hv : EqNodeView s1 s2) :
    (fuel : Nat) → (xs ys : List (String × HField)) →
      fieldsEq s1 fuel xs ys = fieldsEq s2 fuel xs ys
  | 0, _, _ => rfl
  | _ + 1, [], [] => rfl
  | fuel + 1, (k1, v1) :: xs, (k2, v2) :: ys => by
    show ((k1 == k2) && hfieldEq s1 fuel v1 v2 && fieldsEq s1 fuel xs ys) =
      ((k1 == k2) && hfieldEq s2 fuel v1 v2 && fieldsEq s2 fuel xs ys)
    rw [hfieldEq_congr s1 s2 hv fuel v1 v2, fieldsEq_congr s1 s2 hv fuel xs ys]
  | _ + 1, [], _ :: _ => rfl
  | _ + 1, _ :: _, [] => rfl

theorem hfieldEq_congr (s1 s2 : State) (hv : EqNodeView s1 s2) :
    (fuel : Nat) → (v1 v2 : HField) → hfieldEq s1 fuel v1 v2 = hfieldEq s2 fuel v1 v2
  | 0, v1, v2 => by cases v1 <;> cases v2 <;> rfl
  | fuel + 1, .ref a, .ref b => nodeEq_congr s1 s2 hv fuel a b
  | fuel + 1, .refs as, .refs bs => listRefsEq_congr s1 s2 hv fuel as bs
  | _ + 1, .lit _, .lit _ => rfl
  | _ + 1, .ref _, .refs _ => rfl
  | _ + 1, .ref _, .lit _ => rfl
  | _ + 1, .refs _, .ref _ => rfl
  | _ + 1, .refs _, .lit _ => rfl
  | _ + 1, .lit _, .ref _ => rfl
  | _ + 1, .lit _, .refs _ => rfl

theorem listRefsEq_congr (s1 s2 : State) (hv : EqNodeView s1 s2) :
    (fuel : Nat) → (as bs : List Ref) → listRefsEq s1 fuel as bs = listRefsEq s2 fuel as bs
  | 0, _, _ => rfl
  | _ + 1, [], [] => rfl
  | fuel + 1, a :: as, b :: bs => by
    show (nodeEq s1 fuel a b && listRefsEq s1 fuel as bs) =
      (nodeEq s2 fuel a b && listRefsEq s2 fuel as bs)
    rw [nodeEq_congr s1 s2 hv fuel a b, listRefsEq_congr s1 s2 hv fuel as bs]
  | _ + 1, [], _ :: _ => rfl
  | _ + 1, _ :: _, [] => rfl

end

theorem setFieldVal_off (s : State) (p : Ref) (k : String) (v : HField) (q : Ref)
    (h : q ≠ p) : setFieldVal s p k v q = s q := by
  simp [setFieldVal, updateNode, h]

theorem setFieldVal_at (s : State) (p : Ref) (k : String) (v : HField) :
    setFieldVal s p k v p =
      { s p with fields := (s p).fields.map (fun kf => if kf.1 = k then (kf.1, v) else kf) } := by
  simp [setFieldVal, updateNode]

theorem updateNode_off (s : State) (r : Ref) (f : NodeData → NodeData) (q : Ref)
    (h : q ≠ r) : updateNode s r f q = s q := by
  simp [updateNode, h]

theorem updateNode_at (s : State) (r : Ref) (f : NodeData → NodeData) :
    updateNode s r f r = f (s r) := by
  simp [updateNode]

theorem totalMatchCount_nil (s : State) (fuel : Nat) (old : Ref) :
    totalMatchCount s fuel old [] = 0 := rfl

theorem totalMatchCount_cons (s : State) (fuel : Nat) (old : Ref)
    (kf : String × HField) (fs : List (String × HField)) :
    totalMatchCount s fuel old (kf :: fs) =
      fieldMatchCount s fuel old kf.2 + totalMatchCount s fuel old fs := by
  simp [totalMatchCount]

theorem totalMatchCount_append (s : State) (fuel : Nat) (old : Ref)
    (fs1 fs2 : List (String × HField)) :
    totalMatchCount s fuel old (fs1 ++ fs2) =
      totalMatchCount s fuel old fs1 + totalMatchCount s fuel old fs2 := by
  simp [totalMatchCount]

theorem anyFieldMatch_iff (s : State) (fuel : Nat) (old : Ref) :
    (fs : List (String × HField)) →
      (anyFieldMatch s fuel old fs = true ↔ 0 < totalMatchCount s fuel old fs)
  | [] => by simp [anyFieldMatch, totalMatchCount]
  | kf :: fs => by
    have ih := anyFieldMatch_iff s fuel old fs
    simp only [anyFieldMatch, List.any_cons, Bool.or_eq_true, decide_eq_true_eq,
      totalMatchCount_cons]
    simp only [anyFieldMatch] at ih
    constructor
    · rintro (h | h)
      · omega
      · have h2 := ih.mp h
        omega
    · intro h
      by_cases hc : 0 < fieldMatchCount s fuel old kf.2
      · exact Or.inl hc
      · exact Or.inr (ih.mpr (by omega))

theorem totalMatchCount_eq_zero_iff (s : State) (fuel : Nat) (old : Ref) :
    (fs : List (String × HField)) →
      (totalMatchCount s fuel old fs = 0 ↔
        fs.all (fun kf => fieldMatchCount s fuel old kf.2 == 0) = true)
  | [] => by simp [totalMatchCount]
  | kf :: fs => by
    have ih := totalMatchCount_eq_zero_iff s fuel old fs
    simp only [totalMatchCount_cons, List.all_cons, Bool.and_eq_true, beq_iff_eq]
    constructor
    · intro h
      exact ⟨by omega, ih.mp (by omega)⟩
    · rintro ⟨h1, h2⟩
      have h3 := ih.mpr h2
      omega

theorem anyFieldMatch_congr (s1 s2 : State) (fuel : Nat) (old : Ref) :
    (fs : List (String × HField)) →
      (∀ kf ∈ fs, fieldMatchCount s1 fuel old kf.2 = fieldMatchCount s2 fuel old kf.2) →
      anyFieldMatch s1 fuel old fs = anyFieldMatch s2 fuel old fs
  | [], _ => rfl
  | kf :: fs, h => by
    have ih := anyFieldMatch_congr s1 s2 fuel old fs (fun kf2 hm => h kf2 (by simp [hm]))
    simp only [anyFieldMatch, List.any_cons] at *
    rw [h kf (by simp), ih]

theorem exists_first_match (s : State) (fuel : Nat) (old : Ref) :
    (fs : List (String × HField)) → 0 < totalMatchCount s fuel old fs →
    ∃ fs1 kf fs2, fs = fs1 ++ kf :: fs2 ∧
      fs1.all (fun kf2 => fieldMatchCount s fuel old kf2.2 == 0) = true ∧
      0 < fieldMatchCount s fuel old kf.2
  | [], h => by simp [totalMatchCount] at h
  | kf :: fs, h => by
    by_cases h0 : 0 < fieldMatchCount s fuel old kf.2
    · exact ⟨[], kf, fs, rfl, rfl, h0⟩
    · have hz : fieldMatchCount s fuel old kf.2 = 0 := by omega
      have hfs : 0 < totalMatchCount s fuel old fs := by
        rw [totalMatchCount_cons] at h
        omega
      obtain ⟨fs1, kf1, fs2, he, ha, hm⟩ := exists_first_match s fuel old fs hfs
      exact ⟨kf :: fs1, kf1, fs2, by rw [he]; rfl, by simp [ha, hz], hm⟩

theorem replaceLoop_skip_zeros (fuel : Nat) (p old new : Ref) (s : State) :
    (fs1 rest : List (String × HField)) → (isR : Bool) →
    fs1.all (fun kf => fieldMatchCount s fuel old kf.2 == 0) = true →
    replaceLoop fuel p old new s (fs1 ++ rest) isR = replaceLoop fuel p old new s rest isR
  | [], rest, isR, _ => rfl
  | (k, v) :: fs1, rest, isR, hall => by
    simp only [List.all_cons, Bool.and_eq_true, beq_iff_eq] at hall
    obtain ⟨h0, hrest⟩ := hall
    have ih := replaceLoop_skip_zeros fuel p old new s fs1 rest isR (by
      simp only [List.all_eq_true, beq_iff_eq] at hrest ⊢
      exact hrest)
    cases v with
    | ref r =>
      have hne : nodeEq s fuel r old = false := by
        by_contra hc
        rw [Bool.not_eq_false] at hc
        simp [fieldMatchCount, hc] at h0
      rw [List.cons_append]
      simp only [replaceLoop, hne]
      exact ih
    | refs rs =>
      have hc : rs.countP (fun r => nodeEq s fuel r old) = 0 := by
        simpa [fieldMatchCount] using h0
      rw [List.cons_append]
      simp only [replaceLoop, hc]
      simpa using ih
    | lit w =>
      rw [List.cons_append]
      simp only [replaceLoop]
      exact ih

theorem replaceLoop_true (fuel : Nat) (p old new : Ref) (s : State) :
    (fs : List (String × HField)) →
    replaceLoop fuel p old new s fs true =
      (s, true, if anyFieldMatch s fuel old fs then some panicMultiMsg else none)
  | [] => by simp [replaceLoop, anyFieldMatch]
  | (k, v) :: fs => by
    have ih := replaceLoop_true fuel p old new s fs
    cases v with
    | ref r =>
      by_cases hr : nodeEq s fuel r old
      · simp [replaceLoop, hr, anyFieldMatch, fieldMatchCount]
      · have hr2 : nodeEq s fuel r old = false := by simpa using hr
        simp only [replaceLoop, hr2, Bool.false_eq_true, if_false]
        rw [ih]
        have he : anyFieldMatch s fuel old ((k, .ref r) :: fs) = anyFieldMatch s fuel old fs := by
          simp [anyFieldMatch, fieldMatchCount, hr2]
        rw [he]
    | refs rs =>
      by_cases hc : 0 < rs.countP (fun r => nodeEq s fuel r old)
      · have ha : anyFieldMatch s fuel old ((k, .refs rs) :: fs) = true := by
          simp only [anyFieldMatch, List.any_cons, Bool.or_eq_true, decide_eq_true_eq]
          refine Or.inl ?_
          simpa [fieldMatchCount] using hc
        simp [replaceLoop, hc, ha]
      · have hc0 : rs.countP (fun r => nodeEq s fuel r old) = 0 := by omega
        simp only [replaceLoop, hc0, Nat.lt_irrefl, if_false]
        rw [ih]
        have he : anyFieldMatch s fuel old ((k, .refs rs) :: fs) = anyFieldMatch s fuel old fs := by
          simp [anyFieldMatch, fieldMatchCount, hc0]
        rw [he]
    | lit w =>
      simp only [replaceLoop]
      rw [ih]
      have he : anyFieldMatch s fuel old ((k, .lit w) :: fs) = anyFieldMatch s fuel old fs := by
        simp [anyFieldMatch, fieldMatchCount]
      rw [he]

theorem replaceLoop_single_match (fuel : Nat) (p old new : Ref) (s : State)
    (fs1 fs2 : List (String × HField)) (k : String) (v : HField)
    (h1 : fs1.all (fun kf => fieldMatchCount s fuel old kf.2 == 0) = true)
    (hv : fieldMatchCount s fuel old v = 1)
    (h2 : anyFieldMatch (setFieldVal s p k (mutVal s fuel old new v)) fuel old fs2 = false) :
    replaceLoop fuel p old new s (fs1 ++ (k, v) :: fs2) false =
      (setFieldVal s p k (mutVal s fuel old new v), true, none) := by
  rw [replaceLoop_skip_zeros fuel p old new s fs1 ((k, v) :: fs2) false h1]
  cases v with
  | ref r =>
    have hr : nodeEq s fuel r old = true := by
      by_contra hcon
      rw [Bool.not_eq_true] at hcon
      simp [fieldMatchCount, hcon] at hv
    simp only [replaceLoop, hr, if_true, Bool.false_eq_true, if_false]
    rw [replaceLoop_true fuel p old new _ fs2]
    simp only [mutVal] at h2 ⊢
    rw [h2]
    rfl
  | refs rs =>
    have hc1 : rs.countP (fun r => nodeEq s fuel r old) = 1 := by
      simpa [fieldMatchCount] using hv
    simp only [replaceLoop, hc1, Nat.lt_irrefl, Nat.zero_lt_one, if_true,
      Bool.false_or, decide_eq_true_eq, if_false]
    rw [replaceLoop_true fuel p old new _ fs2]
    simp only [mutVal] at h2 ⊢
    rw [h2]
    rfl
  | lit w => simp [fieldMatchCount] at hv

theorem replaceLoop_multi_at_first (fuel : Nat) (p old new : Ref) (s : State)
    (fs1 fs2 : List (String × HField)) (k : String) (v : HField)
    (h1 : fs1.all (fun kf => fieldMatchCount s fuel old kf.2 == 0) = true)
    (hv : 2 ≤ fieldMatchCount s fuel old v) :
    replaceLoop fuel p old new s (fs1 ++ (k, v) :: fs2) false =
      (s, false, some panicMultiMsg) := by
  rw [replaceLoop_skip_zeros fuel p old new s fs1 ((k, v) :: fs2) false h1]
  cases v with
  | ref r =>
    have : fieldMatchCount s fuel old (.ref r) ≤ 1 := by
      by_cases hr : nodeEq s fuel r old <;> simp [fieldMatchCount, hr]
    omega
  | refs rs =>
    have hc2 : 2 ≤ rs.countP (fun r => nodeEq s fuel r old) := by
      simpa [fieldMatchCount] using hv
    have h0 : 0 < rs.countP (fun r => nodeEq s fuel r old) := by omega
    have h1g : (false || decide (1 < rs.countP (fun r => nodeEq s fuel r old))) = true := by
      simp only [Bool.false_or, decide_eq_true_eq]
      omega
    simp only [replaceLoop]
    rw [if_pos h0, if_pos h1g]
  | lit w => simp [fieldMatchCount] at hv

theorem replaceLoop_second_match (fuel : Nat) (p old new : Ref) (s : State)
    (fs1 fs2 : List (String × HField)) (k : String) (v : HField)
    (h1 : fs1.all (fun kf => fieldMatchCount s fuel old kf.2 == 0) = true)
    (hv : fieldMatchCount s fuel old v = 1)
    (h2 : anyFieldMatch (setFieldVal s p k (mutVal s fuel old new v)) fuel old fs2 = true) :
    replaceLoop fuel p old new s (fs1 ++ (k, v) :: fs2) false =
      (setFieldVal s p k (mutVal s fuel old new v), true, some panicMultiMsg) := by
  rw [replaceLoop_skip_zeros fuel p old new s fs1 ((k, v) :: fs2) false h1]
  cases v with
  | ref r =>
    have hr : nodeEq s fuel r old = true := by
      by_contra hcon
      rw [Bool.not_eq_true] at hcon
      simp [fieldMatchCount, hcon] at hv
    simp only [replaceLoop, hr, if_true, Bool.false_eq_true, if_false]
    rw [replaceLoop_true fuel p old new _ fs2]
    simp only [mutVal] at h2 ⊢
    rw [h2]
    rfl
  | refs rs =>
    have hc1 : rs.countP (fun r => nodeEq s fuel r old) = 1 := by
      simpa [fieldMatchCount] using hv
    simp only [replaceLoop, hc1, Nat.lt_irrefl, Nat.zero_lt_one, if_true,
      Bool.false_or, decide_eq_true_eq, if_false]
    rw [replaceLoop_true fuel p old new _ fs2]
    simp only [mutVal] at h2 ⊢
    rw [h2]
    rfl
  | lit w => simp [fieldMatchCount] at hv

theorem removeFirstEq_congr (s1 s2 : State) (fuel : Nat) (old : Ref) :
    (l : List Ref) → (∀ r ∈ l, nodeEq s1 fuel r old = nodeEq s2 fuel r old) →
      removeFirstEq s1 fuel old l = removeFirstEq s2 fuel old l
  | [], _ => rfl
  | r :: rs, h => by
    have ih := removeFirstEq_congr s1 s2 fuel old rs (fun r2 hm => h r2 (by simp [hm]))
    simp only [removeFirstEq, h r (by simp), ih]

theorem removeFirstEq_subset (s : State) (fuel : Nat) (old : Ref) :
    (l : List Ref) → ∀ r, r ∈ removeFirstEq s fuel old l → r ∈ l
  | [], r, h => by simp [removeFirstEq] at h
  | r2 :: rs, r, h => by
    simp only [removeFirstEq] at h
    by_cases he : nodeEq s fuel r2 old
    · rw [if_pos he] at h
      exact List.mem_cons_of_mem _ h
    · rw [if_neg he] at h
      rcases List.mem_cons.mp h with h3 | h3
      · simp [h3]
      · exact List.mem_cons_of_mem _ (removeFirstEq_subset s fuel old rs r h3)

/-- The field loop mutates nothing but the parent object, and of the
parent only its declared fields. -/
def MutatesOnlyFieldsAt (p : Ref) (s s2 : State) : Prop :=
  (∀ q, q ≠ p → s2 q = s q) ∧
  ∀ q, (s2 q).astType = (s q).astType ∧ (s2 q).nodeId = (s q).nodeId ∧
    (s2 q).depth = (s q).depth ∧ (s2 q).parent = (s q).parent ∧
    (s2 q).children = (s q).children

theorem mutatesOnlyFieldsAt_refl (p : Ref) (s : State) : MutatesOnlyFieldsAt p s s :=
  ⟨fun _ _ => rfl, fun _ => ⟨rfl, rfl, rfl, rfl, rfl⟩⟩

theorem mutatesOnlyFieldsAt_trans {p : Ref} {s1 s2 s3 : State}
    (h1 : MutatesOnlyFieldsAt p s1 s2) (h2 : MutatesOnlyFieldsAt p s2 s3) :
    MutatesOnlyFieldsAt p s1 s3 := by
  refine ⟨fun q hq => (h2.1 q hq).trans (h1.1 q hq), fun q => ?_⟩
  obtain ⟨a1, b1, c1, d1, e1⟩ := h1.2 q
  obtain ⟨a2, b2, c2, d2, e2⟩ := h2.2 q
  exact ⟨a2.trans a1, b2.trans b1, c2.trans c1, d2.trans d1, e2.trans e1⟩

theorem setFieldVal_mutatesOnly (s : State) (p : Ref) (k : String) (v : HField) :
    MutatesOnlyFieldsAt p s (setFieldVal s p k v) := by
  constructor
  · intro q hq
    exact setFieldVal_off s p k v q hq
  · intro q
    by_cases hq : q = p
    · subst hq
      rw [setFieldVal_at]
      exact ⟨rfl, rfl, rfl, rfl, rfl⟩
    · rw [setFieldVal_off s p k v q hq]
      exact ⟨rfl, rfl, rfl, rfl, rfl⟩

theorem replaceLoop_mutatesOnly (fuel : Nat) (p old new : Ref) :
    (fs : List (String × HField)) → (s : State) → (isR : Bool) →
      MutatesOnlyFieldsAt p s (replaceLoop fuel p old new s fs isR).1
  | [], s, isR => mutatesOnlyFieldsAt_refl p s
  | (k, .ref r) :: fs, s, isR => by
    simp only [replaceLoop]
    split
    · split
      · exact mutatesOnlyFieldsAt_refl p s
      · exact mutatesOnlyFieldsAt_trans (setFieldVal_mutatesOnly s p k (.ref new))
          (replaceLoop_mutatesOnly fuel p old new fs _ true)
    · exact replaceLoop_mutatesOnly fuel p old new fs s isR
  | (k, .refs rs) :: fs, s, isR => by
    simp only [replaceLoop]
    split
    · split
      · exact mutatesOnlyFieldsAt_refl p s
      · exact mutatesOnlyFieldsAt_trans
          (setFieldVal_mutatesOnly s p k (.refs (listReplaceFirst s fuel old new rs)))
          (replaceLoop_mutatesOnly fuel p old new fs _ true)
    · exact replaceLoop_mutatesOnly fuel p old new fs s isR
  | (k, .lit w) :: fs, s, isR => by
    simp only [replaceLoop]
    exact replaceLoop_mutatesOnly fuel p old new fs s isR

theorem updateNode_nodeId (s : State) (r : Ref) (f : NodeData → NodeData)
    (hf : ∀ d, (f d).nodeId = d.nodeId) (q : Ref) :
    (updateNode s r f q).nodeId = (s q).nodeId := by
  unfold updateNode
  split
  · rw [hf]
  · rfl

theorem anyRefs_congr (f g : Ref → Bool) :
    (l : List Ref) → (∀ r ∈ l, f r = g r) → l.any f = l.any g
  | [], _ => rfl
  | r :: rs, h => by
    simp only [List.any_cons, h r (by simp),
      anyRefs_congr f g rs (fun r2 hm => h r2 (by simp [hm]))]

theorem map_key_eq_map_match (s : State) (fuel : Nat) (old new : Ref)
    (fs1 fs2 : List (String × HField)) (k : String) (v : HField)
    (hkeys : (((fs1 ++ (k, v) :: fs2)).map Prod.fst).Nodup)
    (h1 : fs1.all (fun kf => fieldMatchCount s fuel old kf.2 == 0) = true)
    (h2 : fs2.all (fun kf => fieldMatchCount s fuel old kf.2 == 0) = true)
    (hv : 0 < fieldMatchCount s fuel old v) :
    (fs1 ++ (k, v) :: fs2).map
        (fun kf => if kf.1 = k then (kf.1, mutVal s fuel old new v) else kf) =
      (fs1 ++ (k, v) :: fs2).map (fun kf =>
        if 0 < fieldMatchCount s fuel old kf.2 then (kf.1, mutVal s fuel old new kf.2) else kf) := by
  have hks : k ∉ fs1.map Prod.fst ∧ k ∉ fs2.map Prod.fst := by
    simp only [List.map_append, List.map_cons, List.nodup_append, List.nodup_cons] at hkeys
    refine ⟨fun hc => hkeys.2.2 hc (by simp), hkeys.2.1.1⟩
  simp only [List.map_append, List.map_cons]
  congr 1
  · refine List.map_congr_left (fun kf hm => ?_)
    simp only [List.all_eq_true, beq_iff_eq] at h1
    have hz := h1 kf hm
    have hk : kf.1 ≠ k := by
      intro hc
      exact hks.1 (hc ▸ List.mem_map_of_mem Prod.fst hm)
    rw [if_neg hk, if_neg (by omega)]
  congr 1
  · simp [hv]
  · refine List.map_congr_left (fun kf hm => ?_)
    simp only [List.all_eq_true, beq_iff_eq] at h2
    have hz := h2 kf hm
    have hk : kf.1 ≠ k := by
      intro hc
      exact hks.2 (hc ▸ List.mem_map_of_mem Prod.fst hm)
    rw [if_neg hk, if_neg (by omega)]

theorem finalizeReplace_off (s2 : State) (fuel : Nat) (p old new q : Ref)
    (hqp : q ≠ p) (hqn : q ≠ new) :
    finalizeReplace s2 fuel p old new q = s2 q := by
  unfold finalizeReplace
  rw [updateNode_off _ _ _ q hqp, updateNode_off _ _ _ q hqn, updateNode_off _ _ _ q hqp]

theorem finalizeReplace_depth_src (s2 : State) (fuel : Nat) (p old : Ref) :
    ((updateNode s2 p
      (fun d => { d with children := removeFirstEq s2 fuel old d.children })) old).depth =
      (s2 old).depth := by
  by_cases hop : old = p
  · subst hop
    rw [updateNode_at]
  · rw [updateNode_off _ _ _ old hop]

theorem finalizeReplace_new (s2 : State) (fuel : Nat) (p old new : Ref) (hnp : new ≠ p) :
    finalizeReplace s2 fuel p old new new =
      { s2 new with parent := some p, depth := (s2 old).depth } := by
  unfold finalizeReplace
  rw [updateNode_off _ _ _ new hnp, updateNode_at, updateNode_off _ _ _ new hnp,
    finalizeReplace_depth_src s2 fuel p old]

theorem finalizeReplace_view (s2 : State) (fuel : Nat) (p old new : Ref) :
    EqNodeView
      (updateNode
        (updateNode s2 p (fun d => { d with children := removeFirstEq s2 fuel old d.children }))
        new
        (fun d => { d with
                    parent := some p,
                    depth := ((updateNode s2 p
                      (fun d2 =>
                        { d2 with
                          children := removeFirstEq s2 fuel old d2.children })) old).depth }))
      s2 := by
  intro q
  refine ⟨?_, ?_, ?_⟩ <;> (simp only [updateNode]; split_ifs <;> rfl)

theorem finalizeReplace_p (s2 : State) (fuel : Nat) (p old new : Ref) (hnp : new ≠ p) :
    finalizeReplace s2 fuel p old new p =
      { s2 p with children :=
          if (removeFirstEq s2 fuel old (s2 p).children).any (fun r => nodeEq s2 fuel r new)
          then removeFirstEq s2 fuel old (s2 p).children
          else removeFirstEq s2 fuel old (s2 p).children ++ [new] } := by
  unfold finalizeReplace
  rw [updateNode_at, updateNode_off _ _ _ p (fun hc => hnp hc.symm), updateNode_at]
  have hany : ((removeFirstEq s2 fuel old (s2 p).children).any (fun r =>
      nodeEq
        (updateNode
          (updateNode s2 p (fun d => { d with children := removeFirstEq s2 fuel old d.children }))
          new
          (fun d => { d with
                      parent := some p,
                      depth := ((updateNode s2 p
                        (fun d2 =>
                          { d2 with
                            children := removeFirstEq s2 fuel old d2.children })) old).depth }))
        fuel r new)) =
      ((removeFirstEq s2 fuel old (s2 p).children).any (fun r => nodeEq s2 fuel r new)) := by
    refine anyRefs_congr _ _ _ (fun r _ => ?_)
    exact nodeEq_congr _ s2 (finalizeReplace_view s2 fuel p old new) fuel r new
  rw [hany]

theorem finalizeReplace_nodeId (s2 : State) (fuel : Nat) (p old new q : Ref) :
    (finalizeReplace s2 fuel p old new q).nodeId = (s2 q).nodeId := by
  unfold finalizeReplace
  simp only [updateNode]
  split_ifs <;> rfl

theorem replace_in_tree_reduce (s : State) (fuel : Nat) (root old new p : Ref)
    (hpar : (s old).parent = some p)
    (hdesc : descContains s fuel root old = true)
    (hchild : (s p).children.any (fun r => nodeEq s fuel r old) = true) :
    replace_in_tree s fuel root old new =
      (match replaceLoop fuel p old new s (s p).fields false with
        | (s2, _, some msg) => (s2, some msg)
        | (s2, false, none) => (s2, some panicMembersMsg)
        | (s2, true, none) => (finalizeReplace s2 fuel p old new, none)) := by
  unfold replace_in_tree
  rw [if_neg (not_not_intro hdesc), hpar]
  show (if ¬((s p).children.any fun r => nodeEq s fuel r old) = true
      then (s, some panicChildrenMsg)
      else match replaceLoop fuel p old new s (s p).fields false with
        | (s2, _, some msg) => (s2, some msg)
        | (s2, false, none) => (s2, some panicMembersMsg)
        | (s2, true, none) => (finalizeReplace s2 fuel p old new, none)) = _
  rw [if_neg (not_not_intro hchild)]

/-- C6: `replace_in_tree(root, old, new)` with the tree and
parent-children checks passing: if zero members of the parent's declared
fields hold the old node the operation fails fatally with the
"does not exist within parent members" `CompilerPanic`; if it is held by
more than one member (two fields, or twice inside one sequence field)
the operation fails fatally with the "multiple members" `CompilerPanic`;
on a unique match the matching field (or sequence slot) is rebound to
the new node, the old node is removed from the parent's child set and
the new node added, `new._parent` is set to the parent and `new._depth`
is forced to the old node's depth (not recomputed), while every object
other than the parent and the new node — in particular every descendant
of the new node — is left completely untouched. -/
theorem replace_in_tree_match_cardinality (s : State) (fuel : Nat) (root old new p : Ref)
    (hpar : (s old).parent = some p)
    (hdesc : descContains s fuel root old = true)
    (hchild : (s p).children.any (fun r => nodeEq s fuel r old) = true)
    (hkeys : ((s p).fields.map Prod.fst).Nodup)
    (hnp : new ≠ p)
    (hstab : ∀ kf ∈ (s p).fields, ∀ kf2 ∈ (s p).fields,
      fieldMatchCount (setFieldVal s p kf.1 (mutVal s fuel old new kf.2)) fuel old kf2.2 =
        fieldMatchCount s fuel old kf2.2)
    (hstabC : ∀ kf ∈ (s p).fields, ∀ r ∈ (s p).children,
      nodeEq (setFieldVal s p kf.1 (mutVal s fuel old new kf.2)) fuel r old =
          nodeEq s fuel r old ∧
        nodeEq (setFieldVal s p kf.1 (mutVal s fuel old new kf.2)) fuel r new =
          nodeEq s fuel r new) :
    (totalMatchCount s fuel old (s p).fields = 0 →
      replace_in_tree s fuel root old new = (s, some panicMembersMsg)) ∧
    (2 ≤ totalMatchCount s fuel old (s p).fields →
      (replace_in_tree s fuel root old new).2 = some panicMultiMsg) ∧
    (totalMatchCount s fuel old (s p).fields = 1 →
      (replace_in_tree s fuel root old new).2 = none ∧
      (∀ q, q ≠ p → q ≠ new → (replace_in_tree s fuel root old new).1 q = s q) ∧
      (replace_in_tree s fuel root old new).1 new =
        { s new with parent := some p, depth := (s old).depth } ∧
      ((replace_in_tree s fuel root old new).1 p).fields =
        (s p).fields.map (fun kf =>
          if 0 < fieldMatchCount s fuel old kf.2
          then (kf.1, mutVal s fuel old new kf.2) else kf) ∧
      ((replace_in_tree s fuel root old new).1 p).children =
        (if (removeFirstEq s fuel old (s p).children).any (fun r => nodeEq s fuel r new)
         then removeFirstEq s fuel old (s p).children
         else removeFirstEq s fuel old (s p).children ++ [new]) ∧
      ((replace_in_tree s fuel root old new).1 p).depth = (s p).depth ∧
      ((replace_in_tree s fuel root old new).1 p).nodeId = (s p).nodeId ∧
      ((replace_in_tree s fuel root old new).1 p).parent = (s p).parent) := by
  have hred := replace_in_tree_reduce s fuel root old new p hpar hdesc hchild
  refine ⟨?_, ?_, ?_⟩
  · intro htot
    have hall : ((s p).fields.all (fun kf => fieldMatchCount s fuel old kf.2 == 0)) = true :=
      (totalMatchCount_eq_zero_iff s fuel old _).mp htot
    have hloop : replaceLoop fuel p old new s ((s p).fields) false = (s, false, none) := by
      have h0 := replaceLoop_skip_zeros fuel p old new s ((s p).fields) [] false hall
      rw [List.append_nil] at h0
      exact h0
    rw [hred, hloop]
  · intro htot
    obtain ⟨fs1, ⟨k, v⟩, fs2, he, ha, hm⟩ :=
      exists_first_match s fuel old ((s p).fields) (by omega)
    have hmem_kf : (k, v) ∈ (s p).fields := by
      rw [he]
      simp
    have hm2 : 0 < fieldMatchCount s fuel old v := hm
    have hz1 : totalMatchCount s fuel old fs1 = 0 :=
      (totalMatchCount_eq_zero_iff s fuel old fs1).mpr ha
    have htot2 : 2 ≤ totalMatchCount s fuel old fs1 +
        (fieldMatchCount s fuel old v + totalMatchCount s fuel old fs2) := by
      rw [he, totalMatchCount_append, totalMatchCount_cons] at htot
      exact htot
    by_cases h2 : 2 ≤ fieldMatchCount s fuel old v
    · have hloop := replaceLoop_multi_at_first fuel p old new s fs1 fs2 k v ha h2
      rw [hred, he, hloop]
    · have h1 : fieldMatchCount s fuel old v = 1 := by omega
      have hfs2 : 0 < totalMatchCount s fuel old fs2 := by
        omega
      have hany : anyFieldMatch s fuel old fs2 = true :=
        (anyFieldMatch_iff s fuel old fs2).mpr hfs2
      have hany2 : anyFieldMatch (setFieldVal s p k (mutVal s fuel old new v)) fuel old fs2 =
          true := by
        rw [anyFieldMatch_congr _ s fuel old fs2
          (fun kf2 hm2 => hstab (k, v) hmem_kf kf2 (by rw [he]; simp [hm2]))]
        exact hany
      have hloop := replaceLoop_second_match fuel p old new s fs1 fs2 k v ha h1 hany2
      rw [hred, he, hloop]
  · intro htot
    obtain ⟨fs1, ⟨k, v⟩, fs2, he, ha, hm⟩ :=
      exists_first_match s fuel old ((s p).fields) (by omega)
    have hmem_kf : (k, v) ∈ (s p).fields := by
      rw [he]
      simp
    have hm2 : 0 < fieldMatchCount s fuel old v := hm
    have hz1 : totalMatchCount s fuel old fs1 = 0 :=
      (totalMatchCount_eq_zero_iff s fuel old fs1).mpr ha
    have htot2 : totalMatchCount s fuel old fs1 +
        (fieldMatchCount s fuel old v + totalMatchCount s fuel old fs2) = 1 := by
      rw [he, totalMatchCount_append, totalMatchCount_cons] at htot
      exact htot
    have h1 : fieldMatchCount s fuel old v = 1 ∧ totalMatchCount s fuel old fs2 = 0 := by
      omega
    have hzero2 : anyFieldMatch s fuel old fs2 = false := by
      by_contra hc
      rw [Bool.not_eq_false] at hc
      have := (anyFieldMatch_iff s fuel old fs2).mp hc
      omega
    have hany2 : anyFieldMatch (setFieldVal s p k (mutVal s fuel old new v)) fuel old fs2 =
        false := by
      rw [anyFieldMatch_congr _ s fuel old fs2
        (fun kf2 hm2 => hstab (k, v) hmem_kf kf2 (by rw [he]; simp [hm2]))]
      exact hzero2
    have hloop := replaceLoop_single_match fuel p old new s fs1 fs2 k v ha h1.1 hany2
    have hstep : replace_in_tree s fuel root old new =
        (finalizeReplace (setFieldVal s p k (mutVal s fuel old new v)) fuel p old new, none) := by
      rw [hred, he, hloop]
    have hs2p : (setFieldVal s p k (mutVal s fuel old new v)) p =
        { s p with fields := ((s p).fields.map
              (fun kf => if kf.1 = k then (kf.1, mutVal s fuel old new v) else kf)) } :=
      setFieldVal_at s p k (mutVal s fuel old new v)
    have hrem : removeFirstEq (setFieldVal s p k (mutVal s fuel old new v)) fuel old
        ((s p).children) = removeFirstEq s fuel old ((s p).children) :=
      removeFirstEq_congr _ s fuel old ((s p).children)
        (fun r hr => (hstabC (k, v) hmem_kf r hr).1)
    refine ⟨by rw [hstep], ?_, ?_, ?_, ?_, ?_, ?_, ?_⟩
    · intro q hqp hqn
      rw [hstep]
      show finalizeReplace (setFieldVal s p k (mutVal s fuel old new v)) fuel p old new q = s q
      rw [finalizeReplace_off _ fuel p old new q hqp hqn, setFieldVal_off s p k _ q hqp]
    · rw [hstep]
      show finalizeReplace (setFieldVal s p k (mutVal s fuel old new v)) fuel p old new new =
        { s new with parent := some p, depth := (s old).depth }
      rw [finalizeReplace_new _ fuel p old new hnp,
        setFieldVal_off s p k _ new hnp]
      by_cases hop : old = p
      · subst hop
        rw [setFieldVal_at]
      · rw [setFieldVal_off s p k _ old hop]
    · rw [hstep]
      show (finalizeReplace (setFieldVal s p k (mutVal s fuel old new v)) fuel p old new p).fields
        = _
      rw [finalizeReplace_p _ fuel p old new hnp]
      show ((setFieldVal s p k (mutVal s fuel old new v)) p).fields = _
      rw [hs2p]
      show (s p).fields.map (fun kf => if kf.1 = k then (kf.1, mutVal s fuel old new v) else kf)
        = _
      rw [he]
      exact map_key_eq_map_match s fuel old new fs1 fs2 k v (he ▸ hkeys) ha
        ((totalMatchCount_eq_zero_iff s fuel old fs2).mp h1.2) (by omega)
    · rw [hstep]
      show (finalizeReplace (setFieldVal s p k (mutVal s fuel old new v)) fuel p old new p).children
        = _
      rw [finalizeReplace_p _ fuel p old new hnp]
      show (if (removeFirstEq (setFieldVal s p k (mutVal s fuel old new v)) fuel old
              ((setFieldVal s p k (mutVal s fuel old new v)) p).children).any
              (fun r => nodeEq (setFieldVal s p k (mutVal s fuel old new v)) fuel r new)
            then removeFirstEq (setFieldVal s p k (mutVal s fuel old new v)) fuel old
              ((setFieldVal s p k (mutVal s fuel old new v)) p).children
            else removeFirstEq (setFieldVal s p k (mutVal s fuel old new v)) fuel old
              ((setFieldVal s p k (mutVal s fuel old new v)) p).children ++ [new]) = _
      have hch : ((setFieldVal s p k (mutVal s fuel old new v)) p).children =
          (s p).children := by
        rw [hs2p]
      rw [hch, hrem]
      have hne : ((removeFirstEq s fuel old ((s p).children)).any
          (fun r => nodeEq (setFieldVal s p k (mutVal s fuel old new v)) fuel r new)) =
          ((removeFirstEq s fuel old ((s p).children)).any (fun r => nodeEq s fuel r new)) := by
        refine anyRefs_congr _ _ _ (fun r hr => ?_)
        exact (hstabC (k, v) hmem_kf r
          (removeFirstEq_subset s fuel old ((s p).children) r hr)).2
      rw [hne]
    · rw [hstep]
      show (finalizeReplace (setFieldVal s p k (mutVal s fuel old new v)) fuel p old new p).depth
        = _
      rw [finalizeReplace_p _ fuel p old new hnp, hs2p]
    · rw [hstep]
      show (finalizeReplace (setFieldVal s p k (mutVal s fuel old new v)) fuel p old new p).nodeId
        = _
      rw [finalizeReplace_p _ fuel p old new hnp, hs2p]
    · rw [hstep]
      show (finalizeReplace (setFieldVal s p k (mutVal s fuel old new v)) fuel p old new p).parent
        = _
      rw [finalizeReplace_p _ fuel p old new hnp, hs2p]

mutual

theorem replaceCopy_allId (k : Nat) :
    (v : VNode) → ∀ r, replaceCopy k v = .ok r → allNodesHaveId k r = true
  | .Int i x => by
    intro r h
    simp only [replaceCopy, Except.ok.injEq] at h
    subst h
    simp [allNodesHaveId]
  | .Decimal i x => by
    intro r h
    simp only [replaceCopy, Except.ok.injEq] at h
    subst h
    simp [allNodesHaveId]
  | .Hex i x => by
    intro r h
    simp only [replaceCopy, Except.ok.injEq] at h
    subst h
    simp [allNodesHaveId]
  | .Str i x => by
    intro r h
    simp only [replaceCopy, Except.ok.injEq] at h
    subst h
    simp [allNodesHaveId]
  | .Bytes i x => by
    intro r h
    simp only [replaceCopy, Except.ok.injEq] at h
    subst h
    simp [allNodesHaveId]
  | .NameConstant i x => by
    intro r h
    simp only [replaceCopy, Except.ok.injEq] at h
    subst h
    simp [allNodesHaveId]
  | .List i elts => by
    intro r h
    simp only [replaceCopy] at h
    split at h
    · rename_i es hes
      simp only [Except.ok.injEq] at h
      subst h
      have h0 := replaceCopyList_allId k elts es hes
      simp [allNodesHaveId, h0]
    · exact absurd h (by simp)
  | .Name i nm => by
    intro r h
    exact absurd h (by simp [replaceCopy])
  | .Dict i keys values => by
    intro r h
    exact absurd h (by simp [replaceCopy])
  | .UnaryOp i op operand => by
    intro r h
    exact absurd h (by simp [replaceCopy])
  | .BinOp i left op right => by
    intro r h
    exact absurd h (by simp [replaceCopy])
  | .BoolOp i op values => by
    intro r h
    exact absurd h (by simp [replaceCopy])
  | .Compare i left op right => by
    intro r h
    exact absurd h (by simp [replaceCopy])
  | .Call i func args => by
    intro r h
    exact absurd h (by simp [replaceCopy])
  | .Attribute i value attr => by
    intro r h
    exact absurd h (by simp [replaceCopy])
  | .Subscript i value slice => by
    intro r h
    exact absurd h (by simp [replaceCopy])
  | .Index i value => by
    intro r h
    exact absurd h (by simp [replaceCopy])
  | .Assign i target value => by
    intro r h
    exact absurd h (by simp [replaceCopy])
  | .AugAssign i op target value => by
    intro r h
    exact absurd h (by simp [replaceCopy])
  | .AnnAssign i target annotation value => by
    intro r h
    exact absurd h (by simp [replaceCopy])
  | .Expr i value => by
    intro r h
    exact absurd h (by simp [replaceCopy])
  | .Module i body => by
    intro r h
    exact absurd h (by simp [replaceCopy])

theorem replaceCopyList_allId (k : Nat) :
    (xs : List VNode) → ∀ ys, replaceCopyList k xs = .ok ys → allNodesHaveIdList k ys = true
  | [] => by
    intro ys h
    simp only [replaceCopyList, Except.ok.injEq] at h
    subst h
    rfl
  | x :: xs => by
    intro ys h
    simp only [replaceCopyList] at h
    split at h
    · rename_i y hy
      split at h
      · rename_i ys2 hys
        simp only [Except.ok.injEq] at h
        subst h
        simp [allNodesHaveIdList, replaceCopy_allId k x y hy,
          replaceCopyList_allId k xs ys2 hys]
      · exact Except.noConfusion h
    · exact Except.noConfusion h

end

theorem replace_in_tree_preserves_nodeIds (s : State) (fuel : Nat) (root old new q : Ref) :
    (((replace_in_tree s fuel root old new).1) q).nodeId = (s q).nodeId := by
  unfold replace_in_tree
  split
  · rfl
  · split
    · rfl
    · rename_i p hp
      split
      · rfl
      · split
        · rename_i s2 b msg heq
          have h2 := ((replaceLoop_mutatesOnly fuel p old new ((s p).fields) s false).2 q).2.1
          rw [heq] at h2
          exact h2
        · rename_i s2 heq
          have h2 := ((replaceLoop_mutatesOnly fuel p old new ((s p).fields) s false).2 q).2.1
          rw [heq] at h2
          exact h2
        · rename_i s2 heq
          have h2 := ((replaceLoop_mutatesOnly fuel p old new ((s p).fields) s false).2 q).2.1
          rw [heq] at h2
          show (finalizeReplace s2 fuel p old new q).nodeId = (s q).nodeId
          rw [finalizeReplace_nodeId s2 fuel p old new q]
          exact h2

/-- C10: `replace_in_tree` is not atomic on its multiple-member failure
path: when the old node is held by a scalar field of its parent and a
later field also holds it, the first matching scalar field is rebound to
the new node before the fatal multiple-members `CompilerPanic` is
raised, and the mutation is not rolled back — the heap returned with the
panic is exactly the original one with that single field already
rebound (child sets and `new._parent` untouched). -/
theorem replace_in_tree_not_atomic (s : State) (fuel : Nat) (root old new p r : Ref)
    (k : String) (fs1 fs2 : List (String × HField))
    (hpar : (s old).parent = some p)
    (hdesc : descContains s fuel root old = true)
    (hchild : (s p).children.any (fun r2 => nodeEq s fuel r2 old) = true)
    (hfields : (s p).fields = fs1 ++ (k, .ref r) :: fs2)
    (h0 : fs1.all (fun kf => fieldMatchCount s fuel old kf.2 == 0) = true)
    (hr : nodeEq s fuel r old = true)
    (hlater : anyFieldMatch (setFieldVal s p k (.ref new)) fuel old fs2 = true) :
    replace_in_tree s fuel root old new =
      (setFieldVal s p k (.ref new), some panicMultiMsg) := by
  have hred := replace_in_tree_reduce s fuel root old new p hpar hdesc hchild
  have h1 : fieldMatchCount s fuel old (HField.ref r) = 1 := by
    simp [fieldMatchCount, hr]
  have hloop := replaceLoop_second_match fuel p old new s fs1 fs2 k (.ref r) h0 h1 hlater
  rw [hred, hfields, hloop]
  rfl

/-- C5 (amended): the Tree Mutator never changes any object's
`node_id` — on every path of `replace_in_tree`, panicking or not, every
heap object keeps its id, and in particular the new node keeps the id it
was constructed with.  But id *uniqueness* does not hold for literals
synthesized by folding: `_replace` builds every copy with `from_node`,
which copies the replaced node's id, so the copy of a list constant and
the copies of all its elements all carry the old `Name` node's id. -/
theorem node_ids_stable_under_mutation (s : State) (fuel : Nat) (root old new : Ref)
    (oldId : Nat) :
    (∀ q, ((replace_in_tree s fuel root old new).1 q).nodeId = (s q).nodeId) ∧
    (∀ v r, replaceCopy oldId v = .ok r → allNodesHaveId oldId r = true) :=
  ⟨fun q => replace_in_tree_preserves_nodeIds s fuel root old new q,
   fun v r h => replaceCopy_allId oldId v r h⟩

/-- A well-formed five-object heap: a `Module` holding one `Assign`
whose target is a `Name` and whose value is an `Int` literal, plus a
detached replacement `Int` node. -/
def heapW : State := fun r =>
  if r = 0 then ⟨"Module", 0, 0, none, [1], [("body", .refs [1])]⟩
  else if r = 1 then ⟨"Assign", 1, 1, some 0, [2, 3], [("target", .ref 2), ("value", .ref 3)]⟩
  else if r = 2 then ⟨"Name", 2, 2, some 1, [], [("id", .lit (.str "x"))]⟩
  else if r = 3 then ⟨"Int", 3, 2, some 1, [], [("value", .lit (.int 42))]⟩
  else if r = 4 then ⟨"Int", 4, 0, none, [], [("value", .lit (.int 5))]⟩
  else ⟨"", 0, 0, none, [], []⟩

/-- A heap whose `Assign` holds two value-equal `Name` objects (same
class, same `node_id`, same fields) in two different scalar fields — the
duplicate-member scenario of the multiple-members panic. -/
def heapDup : State := fun r =>
  if r = 0 then ⟨"Module", 0, 0, none, [1], [("body", .refs [1])]⟩
  else if r = 1 then ⟨"Assign", 1, 1, some 0, [2, 3], [("target", .ref 2), ("value", .ref 3)]⟩
  else if r = 2 then ⟨"Name", 7, 2, some 1, [], [("id", .lit (.str "c"))]⟩
  else if r = 3 then ⟨"Name", 7, 2, some 1, [], [("id", .lit (.str "c"))]⟩
  else if r = 4 then ⟨"Int", 9, 0, none, [], [("value", .lit (.int 1))]⟩
  else ⟨"", 0, 0, none, [], []⟩

theorem replace_in_tree_match_cardinality_witness :
    totalMatchCount heapW 4 3 ((heapW 1).fields) = 1 ∧
    (replace_in_tree heapW 4 0 3 4).2 = none ∧
    (replace_in_tree heapW 4 0 3 4).1 4 =
      { heapW 4 with parent := some 1, depth := (heapW 3).depth } := by
  have H := replace_in_tree_match_cardinality heapW 4 0 3 4 1
    (by decide) (by decide) (by decide) (by decide) (by decide) (by decide) (by decide)
  have hc := H.2.2 (by decide)
  exact ⟨by decide, hc.1, hc.2.2.1⟩

theorem replace_in_tree_not_atomic_witness :
    nodeEq heapDup 4 2 2 = true ∧
    replace_in_tree heapDup 4 0 2 4 =
      (setFieldVal heapDup 1 "target" (.ref 4), some panicMultiMsg) := by
  have H := replace_in_tree_not_atomic heapDup 4 0 2 4 1 2 "target"
    [] [("value", .ref 3)]
    (by decide) (by decide) (by decide) (by decide) (by decide) (by decide) (by decide)
  exact ⟨by decide, H⟩

theorem node_ids_stable_under_mutation_witness :
    ((replace_in_tree heapW 4 0 3 4).1 3).nodeId = (heapW 3).nodeId ∧
    allNodesHaveId 12 (VNode.List 12 [VNode.Int 12 1]) = true := by
  have H := node_ids_stable_under_mutation heapW 4 0 3 4 12
  exact ⟨H.1 3, H.2 (VNode.List 99 [VNode.Int 5 1]) (VNode.List 12 [VNode.Int 12 1]) rfl⟩

end SriLang
